import Mathlib

/-!
# HTTP asset storage (indra/llmessage/llhttpassetstorage.cpp)

A shallow embedding of `LLHTTPAssetStorage` and `LLHTTPAssetRequest`: the three
pending-request queues, the per-class pending flags, the temp-asset map, the
requests attached to the curl multi handle, and the calls made on collaborators
(callbacks, virtual file system), recorded in a trace.
-/

namespace Kokua

/-! ## Identifiers, enumerations, constants -/

/-- LLUUID: a 128-bit identifier; `LLUUID_null` is the all-zero value. -/
abbrev LLUUID := Nat

/-- The value `LLUUID::null`. -/
def LLUUID_null : LLUUID := 0

/-- The test `LLUUID::isNull`. -/
def isNull (u : LLUUID) : Bool := u == LLUUID_null

/-- Modelled from the spec: `LLAssetType::EType`, whose declaration (llassettype.h) is
outside the translated file. The spec names texture, object, sound and none as example kinds of
an enumerated type; every further kind is `AT_OTHER n`. -/
inductive EType
  | AT_TEXTURE
  | AT_SOUND
  | AT_OBJECT
  | AT_NONE
  | AT_OTHER (n : Nat)
  deriving DecidableEq, Repr

/-- Modelled from the spec: the closed error enumeration handed to callbacks (spec §7). The
numeric constants are declared in a header outside the translated file; `LL_ERR_NOERR` is the
value `0` to which `xfer_result` is initialised and against which it is compared. -/
inductive LLErr
  | LL_ERR_NOERR
  | LL_ERR_ASSET_REQUEST_FAILED
  | LL_ERR_ASSET_REQUEST_NONEXISTENT_FILE
  | LL_ERR_ASSET_REQUEST_NOT_IN_DATABASE
  | LL_ERR_CANNOT_OPEN_FILE
  deriving DecidableEq, Repr

/-- libcurl transport results that the code distinguishes; all others are `CURLE_OTHER`. -/
inductive CURLcode
  | CURLE_OK
  | CURLE_COULDNT_CONNECT
  | CURLE_OPERATION_TIMEOUTED
  | CURLE_OTHER (code : Nat)
  deriving DecidableEq, Repr

/-- The kind of a multi-handle message; only `CURLMSG_DONE` is acted on. -/
inductive CURLMSG
  | CURLMSG_DONE
  | CURLMSG_OTHER
  deriving DecidableEq, Repr

def HTTP_OK : Int := 200
def HTTP_PUT_OK : Int := 201
def HTTP_NO_CONTENT : Int := 204
def HTTP_MISSING : Int := 404
def HTTP_SERVER_BAD_GATEWAY : Int := 502
def HTTP_SERVER_TEMP_UNAVAILABLE : Int := 503

/-- A message returned by `curl_multi_info_read`, together with the HTTP status that
`curl_easy_getinfo(easy_handle, CURLINFO_HTTP_CODE, ..)` reports for its handle. -/
structure CURLMsg where
  msg : CURLMSG
  easy_handle : Nat
  result : CURLcode
  http_code : Int
  deriving DecidableEq, Repr

/-! ## The virtual file system (collaborator) -/

/-- One stored file of the virtual file system: its bytes and the size limit last set. -/
structure VFSBlock where
  mData : List Nat
  mMaxSize : Int
  deriving DecidableEq, Repr

/-- Modelled from the spec: the Virtual Asset Store (`LLVFS`, outside the translated file), "a
local content-addressed byte store keyed by (asset identifier, asset type), supporting streamed
read/append/rename/delete". -/
abbrev LLVFS := List ((LLUUID × EType) × VFSBlock)

/-- Modelled from the spec: `LLVFS::getExists`, whether the store holds the asset. -/
def LLVFS_getExists (vfs : LLVFS) (id : LLUUID) (type : EType) : Bool :=
  (vfs.lookup (id, type)).isSome

/-- Modelled from the spec: `LLVFS::getSize`, the byte count stored under the key (0 if none). -/
def LLVFS_getSize (vfs : LLVFS) (id : LLUUID) (type : EType) : Int :=
  match vfs.lookup (id, type) with
  | some b => (b.mData.length : Int)
  | none => 0

/-- Replace the block stored under `k`, adding the key at the end when it is new. -/
def LLVFS_put (k : LLUUID × EType) (b : VFSBlock) : LLVFS → LLVFS
  | [] => [(k, b)]
  | (k1, b1) :: rest => if k1 = k then (k, b) :: rest else (k1, b1) :: LLVFS_put k b rest

/-- Modelled from the spec: `LLVFS::setMaxSize`, the size limit of a staged file. -/
def LLVFS_setMaxSize (vfs : LLVFS) (id : LLUUID) (type : EType) (n : Int) : LLVFS :=
  match vfs.lookup (id, type) with
  | some b => LLVFS_put (id, type) { b with mMaxSize := n } vfs
  | none => LLVFS_put (id, type) { mData := [], mMaxSize := n } vfs

/-- Modelled from the spec: appending bytes to the file stored under the key. -/
def LLVFS_append (vfs : LLVFS) (id : LLUUID) (type : EType) (data : List Nat) : LLVFS :=
  match vfs.lookup (id, type) with
  | some b => LLVFS_put (id, type) { b with mData := b.mData ++ data } vfs
  | none => LLVFS_put (id, type) { mData := data, mMaxSize := 0 } vfs

/-- Modelled from the spec: `LLVFS::removeFile`, deleting the file stored under the key. -/
def LLVFS_removeFile (vfs : LLVFS) (id : LLUUID) (type : EType) : LLVFS :=
  vfs.filter (fun e => decide (e.1 ≠ (id, type)))

/-- Modelled from the spec: `LLVFS::renameFile`, moving a file to a new key (replacing what
was stored there). -/
def LLVFS_renameFile (vfs : LLVFS) (id : LLUUID) (type : EType)
    (new_id : LLUUID) (new_type : EType) : LLVFS :=
  match vfs.lookup (id, type) with
  | some b => LLVFS_put (new_id, new_type) b (LLVFS_removeFile vfs id type)
  | none => vfs

/-- Access mode of an `LLVFile` handle. -/
inductive VFileMode
  | READ
  | WRITE
  | APPEND
  deriving DecidableEq, Repr

/-- An `LLVFile` handle: the key it is bound to, its mode, its read position and the
byte count of its last read. -/
structure LLVFile where
  mFileID : LLUUID
  mFileType : EType
  mMode : VFileMode
  mPosition : Int := 0
  mBytesRead : Int := 0
  deriving DecidableEq, Repr

/-! ## Requests -/

/-- The fields of `LLAssetRequest` that this file reads or writes. Callbacks are function
pointers, represented by an identifier; `none` is the null pointer. -/
structure LLAssetRequest where
  mUUID : LLUUID
  mType : EType
  mUpCallback : Option Nat := none
  mDownCallback : Option Nat := none
  mUserData : Nat := 0
  mIsPriority : Bool := false
  mRequestingAgentID : LLUUID := LLUUID_null
  deriving DecidableEq, Repr

/-- The function bound to a curl handle with `CURLOPT_WRITEFUNCTION`. -/
inductive WriteFunction
  | unset
  | curlDownCallback
  | nullOutputCallback
  | curlFileDownCallback
  deriving DecidableEq, Repr

/-- The function bound to a curl handle with `CURLOPT_READFUNCTION`. -/
inductive ReadFunction
  | unset
  | curlUpCallback
  | curlCompressedUploadCallback
  deriving DecidableEq, Repr

/-- `LLHTTPAssetRequest`: an `LLAssetRequest` plus the state of one HTTP operation.
`mCurlHandle` is `none` until `setupCurlHandle`; `mAssetStoragep` records whether the
back-pointer is non-null; `mFP` is the name of the file behind the `FILE*`, if any. The options
set on the curl handle are kept with the request. -/
structure LLHTTPAssetRequest where
  mUUID : LLUUID
  mType : EType
  mRequestingAgentID : LLUUID := LLUUID_null
  mAssetStoragep : Bool
  mCurlHandle : Option Nat := none
  mURLBuffer : String
  mHTTPHeaders : List String := []
  mVFile : Option LLVFile := none
  mTmpUUID : LLUUID := LLUUID_null
  mIsUpload : Bool := false
  mIsLocalUpload : Bool := false
  mIsDownload : Bool := false
  mZInitialized : Bool := false
  mZInputExhausted : Bool := false
  mFP : Option String := none
  optFollowLocation : Bool := false
  optUpload : Bool := false
  optPut : Bool := false
  optEncoding : Bool := false
  optNoProxy : Bool := false
  optInFileSize : Option Int := none
  optWriteFunction : WriteFunction := WriteFunction.unset
  optReadFunction : ReadFunction := ReadFunction.unset
  deriving DecidableEq, Repr

/-- `LLTempAssetData`: an asset held by a simulator host instead of the central store. -/
structure LLTempAssetData where
  mAssetID : LLUUID
  mAgentID : LLUUID
  mHostName : String
  deriving DecidableEq, Repr

/-- Calls that leave the storage object: caller callbacks, the shared completion paths of the
base class, operations on staged files, and fatal errors (`llerrs`). -/
inductive Event
  | storeCallback (callback : Nat) (uuid : LLUUID) (user_data : Nat) (status : LLErr)
  | callUploadCallbacks (uuid : LLUUID) (type : EType) (success : Bool)
  | downloadCompleteCallback (result : LLErr) (uuid : LLUUID) (type : EType)
  | vfileRename (id : LLUUID) (type : EType) (new_id : LLUUID) (new_type : EType)
  | vfileRemove (id : LLUUID) (type : EType)
  | progressCallback (callback : Nat) (userdata : Nat)
  | llerrs (message : String)
  deriving DecidableEq, Repr

/-! ## The storage object -/

/-- `LLHTTPAssetStorage`. `mTransfers` are the requests whose curl handle is attached to
`mCurlMultiHandle` (set up and not yet destroyed), `mNextHandle` the next handle that
`curl_easy_init` returns, `mDisk` the files written through `FILE*`, `mTrace` the calls made
so far, oldest first. -/
structure LLHTTPAssetStorage where
  mBaseURL : String
  mLocalBaseURL : String
  mHostName : String
  mVFS : LLVFS := []
  mPendingDownloads : List LLAssetRequest := []
  mPendingUploads : List LLAssetRequest := []
  mPendingLocalUploads : List LLAssetRequest := []
  mPendingDownload : Bool := false
  mPendingUpload : Bool := false
  mPendingLocalUpload : Bool := false
  mTempAssets : List (LLUUID × LLTempAssetData) := []
  mTransfers : List LLHTTPAssetRequest := []
  mNextHandle : Nat := 0
  mDisk : List (String × List Nat) := []
  mTrace : List Event := []
  deriving DecidableEq, Repr

/-- `LLHTTPAssetStorage::_init`: the state set up by the constructors, over a given
virtual file system. -/
def _init (vfs : LLVFS) (web_host local_web_host host_name : String) : LLHTTPAssetStorage :=
  { mBaseURL := web_host
    mLocalBaseURL := local_web_host
    mHostName := host_name
    mVFS := vfs
    mPendingDownload := false
    mPendingUpload := false
    mPendingLocalUpload := false }

/-- Record a call in the trace. -/
def emit (s : LLHTTPAssetStorage) (e : Event) : LLHTTPAssetStorage :=
  { s with mTrace := s.mTrace ++ [e] }

/-! ## Admission -/

/-- `LLHTTPAssetStorage::storeAssetData` (the id-based overload). -/
def storeAssetData (s : LLHTTPAssetStorage) (uuid : LLUUID) (type : EType)
    (callback : Option Nat) (user_data : Nat) (temp_file is_priority store_local : Bool)
    (requesting_agent_id : LLUUID) : LLHTTPAssetStorage :=
  if LLVFS_getExists s.mVFS uuid type then
    let req : LLAssetRequest :=
      { mUUID := uuid, mType := type, mUpCallback := callback, mUserData := user_data,
        mRequestingAgentID := requesting_agent_id }
    if store_local then
      { s with mPendingLocalUploads := s.mPendingLocalUploads ++ [req] }
    else if is_priority then
      { s with mPendingUploads := req :: s.mPendingUploads }
    else
      { s with mPendingUploads := s.mPendingUploads ++ [req] }
  else
    match callback with
    | some cb => emit s (Event.storeCallback cb uuid user_data
        LLErr.LL_ERR_ASSET_REQUEST_NONEXISTENT_FILE)
    | none => s

/-- `LLHTTPAssetStorage::_queueDataRequest`. -/
def _queueDataRequest (s : LLHTTPAssetStorage) (uuid : LLUUID) (type : EType)
    (callback : Option Nat) (user_data : Nat) (duplicate is_priority : Bool) :
    LLHTTPAssetStorage :=
  let req : LLAssetRequest :=
    { mUUID := uuid, mType := type, mDownCallback := callback, mUserData := user_data,
      mIsPriority := is_priority }
  if req.mType = EType.AT_TEXTURE then
    { s with mPendingDownloads := s.mPendingDownloads ++ [req] }
  else
    { s with mPendingDownloads := req :: s.mPendingDownloads }

/-! ## The temp-asset map -/

/-- Assignment `mTempAssets[k] = v` on a `std::map`, kept in key order. -/
def tempAssign (k : LLUUID) (v : LLTempAssetData) :
    List (LLUUID × LLTempAssetData) → List (LLUUID × LLTempAssetData)
  | [] => [(k, v)]
  | (k1, v1) :: rest =>
    if k < k1 then (k, v) :: (k1, v1) :: rest
    else if k = k1 then (k, v) :: rest
    else (k1, v1) :: tempAssign k v rest

/-- `LLHTTPAssetStorage::addTempAssetData`. -/
def addTempAssetData (s : LLHTTPAssetStorage) (asset_id agent_id : LLUUID)
    (host_name : String) : LLHTTPAssetStorage :=
  if isNull agent_id || isNull asset_id then
    s
  else
    let temp_asset_data : LLTempAssetData :=
      { mAssetID := asset_id, mAgentID := agent_id, mHostName := host_name }
    { s with mTempAssets := tempAssign asset_id temp_asset_data s.mTempAssets }

/-- `LLHTTPAssetStorage::hasTempAssetData`. -/
def hasTempAssetData (s : LLHTTPAssetStorage) (texture_id : LLUUID) : Bool :=
  (s.mTempAssets.lookup texture_id).isSome

/-- `LLHTTPAssetStorage::getTempAssetHostName`. -/
def getTempAssetHostName (s : LLHTTPAssetStorage) (texture_id : LLUUID) : String :=
  match s.mTempAssets.lookup texture_id with
  | some d => d.mHostName
  | none => ""

/-- `LLHTTPAssetStorage::getTempAssetAgentID`. -/
def getTempAssetAgentID (s : LLHTTPAssetStorage) (texture_id : LLUUID) : LLUUID :=
  match s.mTempAssets.lookup texture_id with
  | some d => d.mAgentID
  | none => LLUUID_null

/-- `LLHTTPAssetStorage::removeTempAssetData`. -/
def removeTempAssetData (s : LLHTTPAssetStorage) (asset_id : LLUUID) : LLHTTPAssetStorage :=
  { s with mTempAssets := s.mTempAssets.filter (fun e => decide (e.1 ≠ asset_id)) }

/-- The iterator loop of `removeTempAssetDataByAgentID` over the map entries. -/
def eraseByAgent (agent_id : LLUUID) :
    List (LLUUID × LLTempAssetData) → List (LLUUID × LLTempAssetData)
  | [] => []
  | (k, asset_data) :: rest =>
    if asset_data.mAgentID = agent_id then eraseByAgent agent_id rest
    else (k, asset_data) :: eraseByAgent agent_id rest

/-- `LLHTTPAssetStorage::removeTempAssetDataByAgentID`. -/
def removeTempAssetDataByAgentID (s : LLHTTPAssetStorage) (agent_id : LLUUID) :
    LLHTTPAssetStorage :=
  { s with mTempAssets := eraseByAgent agent_id s.mTempAssets }

/-- `LLHTTPAssetStorage::clearTempAssetData`. -/
def clearTempAssetData (s : LLHTTPAssetStorage) : LLHTTPAssetStorage :=
  { s with mTempAssets := [] }

/-! ## URL construction -/

/-- Modelled from the spec: the parts of URL construction declared outside the translated
file, taken as parameters: `LLUUID::toString` (the 36-character string form of an id),
`LLAssetType::lookup` (the asset type name), `MAX_STRING` (the size of the URL buffer) and
`llformat(LOCAL_ASSET_URL_FORMAT, host)` (the per-host URL template). -/
structure Externals where
  uuidToString : LLUUID → String
  lookup : EType → String
  MAX_STRING : Nat
  localAssetURL : String → String

/-- What `snprintf(buf, size, ..)` leaves in the buffer: at most `size - 1` characters. -/
def snprintf (size : Nat) (str : String) : String :=
  String.mk (str.data.take (size - 1))

/-- The conversion `%36s`: right-justified in a field of at least 36 characters. -/
def pad36 (str : String) : String :=
  String.mk (List.replicate (36 - str.length) ' ') ++ str

/-- `LLHTTPAssetStorage::getBaseURL`. -/
def getBaseURL (X : Externals) (s : LLHTTPAssetStorage) (asset_id : LLUUID)
    (asset_type : EType) : String :=
  if EType.AT_TEXTURE = asset_type then
    match s.mTempAssets.lookup asset_id with
    | some d => X.localAssetURL d.mHostName
    | none => s.mBaseURL
  else
    s.mBaseURL

/-! ## Request lifecycle -/

/-- The constructor `LLHTTPAssetRequest::LLHTTPAssetRequest(asp, uuid, type, url, curl_multi)`;
`asp` is non-null at every call site. -/
def LLHTTPAssetRequest_new (uuid : LLUUID) (type : EType) (url : String) :
    LLHTTPAssetRequest :=
  { mUUID := uuid, mType := type, mAssetStoragep := true, mCurlHandle := none,
    mURLBuffer := url, mVFile := none, mIsUpload := false, mIsLocalUpload := false,
    mIsDownload := false, mHTTPHeaders := [], mZInitialized := false }

/-- `LLHTTPAssetRequest::setupCurlHandle`: takes a fresh handle from `curl_easy_init`, sets
the common options and raises the pending flag of the request's class. The one-line setters
`setPendingUpload`, `setPendingLocalUpload`, `setPendingDownload` (and the `clearPending..`
ones used by the destructor) are declared in the class header; they assign the flag that
`_init` clears and `checkForTimeouts` tests. -/
def setupCurlHandle (s : LLHTTPAssetStorage) (req : LLHTTPAssetRequest) :
    LLHTTPAssetStorage × LLHTTPAssetRequest :=
  let req1 := { req with mCurlHandle := some s.mNextHandle }
  let req2 := if req1.mIsDownload then { req1 with optEncoding := true } else req1
  let req3 := if req2.mZInitialized then { req2 with optNoProxy := true } else req2
  let req4 := { req3 with mHTTPHeaders := req3.mHTTPHeaders ++ ["Pragma:"] }
  let s1 := { s with mNextHandle := s.mNextHandle + 1 }
  let s2 :=
    if req4.mAssetStoragep then
      if req4.mIsUpload then { s1 with mPendingUpload := true }
      else if req4.mIsLocalUpload then { s1 with mPendingLocalUpload := true }
      else if req4.mIsDownload then { s1 with mPendingDownload := true }
      else emit s1 (Event.llerrs
        "LLHTTPAssetRequest::setupCurlHandle - Request is not upload OR download, this is bad!")
    else
      emit s1 (Event.llerrs
        "LLHTTPAssetRequest::setupCurlHandle - No asset storage associated with this request!")
  (s2, req4)

/-- `curl_multi_add_handle`: the request's handle joins the multi handle. -/
def curl_multi_add_handle (s : LLHTTPAssetStorage) (req : LLHTTPAssetRequest) :
    LLHTTPAssetStorage :=
  { s with mTransfers := s.mTransfers ++ [req] }

/-- `curl_multi_remove_handle`: the handle leaves the multi handle. -/
def curl_multi_remove_handle (s : LLHTTPAssetStorage) (h : Nat) : LLHTTPAssetStorage :=
  { s with mTransfers := s.mTransfers.filter (fun r => decide (r.mCurlHandle ≠ some h)) }

/-- The destructor `LLHTTPAssetRequest::~LLHTTPAssetRequest`. -/
def LLHTTPAssetRequest_delete (s : LLHTTPAssetStorage) (req : LLHTTPAssetRequest) :
    LLHTTPAssetStorage :=
  match req.mCurlHandle with
  | some h =>
    let s1 := curl_multi_remove_handle s h
    if req.mAssetStoragep then
      if req.mIsUpload then { s1 with mPendingUpload := false }
      else if req.mIsLocalUpload then { s1 with mPendingLocalUpload := false }
      else if req.mIsDownload then { s1 with mPendingDownload := false }
      else emit s1 (Event.llerrs
        "LLHTTPAssetRequest::~LLHTTPAssetRequest - Destroyed request is not upload OR download, this is bad!")
    else
      emit s1 (Event.llerrs
        "LLHTTPAssetRequest::~LLHTTPAssetRequest - No asset storage associated with this request!")
  | none => s

/-- `LLHTTPAssetRequest::prepareCompressedUpload`, as far as the request's own fields go: the
codec is marked initialised and a read handle is opened on the source asset. -/
def prepareCompressedUpload (req : LLHTTPAssetRequest) : LLHTTPAssetRequest :=
  { req with
    mZInitialized := true
    mZInputExhausted := false
    mVFile := some { mFileID := req.mUUID, mFileType := req.mType, mMode := VFileMode.READ } }

/-! ## Completion paths of the base class -/

/-- Whether a queued request is for the given asset. -/
def LLAssetRequest.isFor (r : LLAssetRequest) (uuid : LLUUID) (type : EType) : Bool :=
  decide (r.mUUID = uuid) && decide (r.mType = type)

/-- Modelled from the spec: `LLAssetStorage::_callUploadCallbacks`, the shared
"upload complete" callback path of the base class, which is outside the translated file. The
call is recorded, and the store requests for the asset leave the upload queues ("destroyed
after the matching Transfer completes or is classified as fatally failed"). -/
def _callUploadCallbacks (s : LLHTTPAssetStorage) (uuid : LLUUID) (type : EType)
    (success : Bool) : LLHTTPAssetStorage :=
  emit
    { s with
      mPendingUploads := s.mPendingUploads.filter (fun r => !r.isFor uuid type)
      mPendingLocalUploads := s.mPendingLocalUploads.filter (fun r => !r.isFor uuid type) }
    (Event.callUploadCallbacks uuid type success)

/-- Modelled from the spec: `LLAssetStorage::downloadCompleteCallback`, the download-complete
callback of the base class, which is outside the translated file. The call is recorded, and the
queued requests for the asset leave the download queue (the caller notes that it "will cleanup
all requests for this asset, including ours"). -/
def downloadCompleteCallback (s : LLHTTPAssetStorage) (result : LLErr) (uuid : LLUUID)
    (type : EType) : LLHTTPAssetStorage :=
  emit
    { s with mPendingDownloads := s.mPendingDownloads.filter (fun r => !r.isFor uuid type) }
    (Event.downloadCompleteCallback result uuid type)

/-- Modelled from the spec: `LLAssetStorage::checkForTimeouts`, the base timeout check "for any
non-HTTP transfer mechanisms (out of scope here)"; it leaves the HTTP state alone. -/
def LLAssetStorage_checkForTimeouts (s : LLHTTPAssetStorage) : LLHTTPAssetStorage := s

/-! ## Promotion of queued requests (first part of `checkForTimeouts`) -/

/-- The download block of `checkForTimeouts`; `tmp_uuid` is what `mTmpUUID.generate()`
produces. -/
def promoteDownload (X : Externals) (s : LLHTTPAssetStorage) (tmp_uuid : LLUUID) :
    LLHTTPAssetStorage :=
  match s.mPendingDownloads with
  | [] => s
  | req :: _ =>
    if !s.mPendingDownload then
      let uuid_str := X.uuidToString req.mUUID
      let base_url := getBaseURL X s req.mUUID req.mType
      let tmp_url := snprintf X.MAX_STRING
        (base_url ++ "/" ++ pad36 uuid_str ++ "." ++ X.lookup req.mType)
      let new_req := LLHTTPAssetRequest_new req.mUUID req.mType tmp_url
      let new_req := { new_req with mTmpUUID := tmp_uuid }
      let new_req := { new_req with mIsDownload := true }
      let (s1, new_req) := setupCurlHandle s new_req
      let new_req := { new_req with optFollowLocation := true }
      let new_req := { new_req with optWriteFunction := WriteFunction.curlDownCallback }
      curl_multi_add_handle s1 new_req
    else s

/-- The upload block of `checkForTimeouts`. -/
def promoteUpload (X : Externals) (s : LLHTTPAssetStorage) : LLHTTPAssetStorage :=
  match s.mPendingUploads with
  | [] => s
  | req :: _ =>
    if !s.mPendingUpload then
      let do_compress : Bool := decide (req.mType = EType.AT_OBJECT)
      let uuid_str := X.uuidToString req.mUUID
      let tmp_url := snprintf X.MAX_STRING
        (if do_compress then
          s.mBaseURL ++ "/" ++ uuid_str ++ "." ++ X.lookup req.mType ++ ".gz"
        else
          s.mBaseURL ++ "/" ++ uuid_str ++ "." ++ X.lookup req.mType)
      let new_req := LLHTTPAssetRequest_new req.mUUID req.mType tmp_url
      let new_req := { new_req with mIsUpload := true }
      let new_req := if do_compress then prepareCompressedUpload new_req else new_req
      let (s1, new_req) := setupCurlHandle s new_req
      let new_req := { new_req with optUpload := true }
      let new_req := { new_req with optWriteFunction := WriteFunction.nullOutputCallback }
      let new_req :=
        if do_compress then
          { new_req with optReadFunction := ReadFunction.curlCompressedUploadCallback }
        else
          { new_req with
            optInFileSize := some (LLVFS_getSize s.mVFS req.mUUID req.mType)
            optReadFunction := ReadFunction.curlUpCallback }
      curl_multi_add_handle s1 new_req
    else s

/-- The local-upload block of `checkForTimeouts`. -/
def promoteLocalUpload (X : Externals) (s : LLHTTPAssetStorage) : LLHTTPAssetStorage :=
  match s.mPendingLocalUploads with
  | [] => s
  | req :: _ =>
    if !s.mPendingLocalUpload then
      let uuid_str := X.uuidToString req.mUUID
      let tmp_url := snprintf X.MAX_STRING
        (s.mLocalBaseURL ++ "/" ++ pad36 uuid_str ++ "." ++ X.lookup req.mType)
      let new_req := LLHTTPAssetRequest_new req.mUUID req.mType tmp_url
      let new_req := { new_req with mIsLocalUpload := true }
      let new_req := { new_req with mRequestingAgentID := req.mRequestingAgentID }
      let (s1, new_req) := setupCurlHandle s new_req
      let new_req := { new_req with optPut := true }
      let new_req :=
        { new_req with optInFileSize := some (LLVFS_getSize s.mVFS req.mUUID req.mType) }
      let new_req := { new_req with optWriteFunction := WriteFunction.nullOutputCallback }
      let new_req := { new_req with optReadFunction := ReadFunction.curlUpCallback }
      curl_multi_add_handle s1 new_req
    else s

/-- The three promotion blocks of `checkForTimeouts`, in source order. -/
def promotePending (X : Externals) (s : LLHTTPAssetStorage) (tmp_uuid : LLUUID) :
    LLHTTPAssetStorage :=
  promoteLocalUpload X (promoteUpload X (promoteDownload X s tmp_uuid))

/-! ## Engine callbacks -/

/-- The request that owns a curl handle (`curl_easy_getinfo(.., CURLINFO_PRIVATE, &req)`). -/
def findTransfer (s : LLHTTPAssetStorage) (h : Nat) : Option LLHTTPAssetRequest :=
  s.mTransfers.find? (fun r => decide (r.mCurlHandle = some h))

/-- In-place update of the request that owns a curl handle. -/
def updateTransfer (s : LLHTTPAssetStorage) (h : Nat)
    (f : LLHTTPAssetRequest → LLHTTPAssetRequest) : LLHTTPAssetStorage :=
  { s with mTransfers := s.mTransfers.map (fun r => if r.mCurlHandle = some h then f r else r) }

/-- One invocation of a handle's write function by the engine: the handle, the chunk
(`size * nmemb` bytes) and the `CURLINFO_CONTENT_LENGTH_DOWNLOAD` value at that moment. -/
structure WriteCall where
  handle : Nat
  data : List Nat
  content_length : Int
  deriving DecidableEq, Repr

/-- `LLHTTPAssetStorage::curlDownCallback`, with `gAssetStorage` set to this storage. The
declared length is taken as an exact number. -/
def curlDownCallback (s : LLHTTPAssetStorage) (c : WriteCall) : LLHTTPAssetStorage :=
  match findTransfer s c.handle with
  | none => s
  | some req =>
    let bytes : Int := (c.data.length : Int)
    let vfile : LLVFile :=
      match req.mVFile with
      | some f => f
      | none =>
        { mFileID := req.mTmpUUID, mFileType := EType.AT_NONE, mMode := VFileMode.APPEND }
    let file_length : Int :=
      max (max 0 (min c.content_length 20000000))
        (bytes + LLVFS_getSize s.mVFS vfile.mFileID vfile.mFileType)
    let vfs1 := LLVFS_setMaxSize s.mVFS vfile.mFileID vfile.mFileType file_length
    let vfs2 := LLVFS_append vfs1 vfile.mFileID vfile.mFileType c.data
    updateTransfer { s with mVFS := vfs2 } c.handle (fun r => { r with mVFile := some vfile })

/-- Bytes appended to a file on disk (`fwrite`). -/
def diskAppend (name : String) (data : List Nat) :
    List (String × List Nat) → List (String × List Nat)
  | [] => [(name, data)]
  | (n1, d1) :: rest =>
    if n1 = name then (n1, d1 ++ data) :: rest else (n1, d1) :: diskAppend name data rest

/-- `LLHTTPAssetStorage::curlFileDownCallback`. -/
def curlFileDownCallback (s : LLHTTPAssetStorage) (c : WriteCall) : LLHTTPAssetStorage :=
  match findTransfer s c.handle with
  | none => s
  | some req =>
    match req.mFP with
    | none => s
    | some name => { s with mDisk := diskAppend name c.data s.mDisk }

/-- `LLHTTPAssetStorage::nullOutputCallback`: soaks up the output. -/
def nullOutputCallback (s : LLHTTPAssetStorage) (_c : WriteCall) : LLHTTPAssetStorage := s

/-- The engine delivers a chunk to the write function bound to the handle. -/
def deliver (s : LLHTTPAssetStorage) (c : WriteCall) : LLHTTPAssetStorage :=
  match findTransfer s c.handle with
  | none => s
  | some req =>
    match req.optWriteFunction with
    | WriteFunction.curlDownCallback => curlDownCallback s c
    | WriteFunction.curlFileDownCallback => curlFileDownCallback s c
    | WriteFunction.nullOutputCallback => nullOutputCallback s c
    | WriteFunction.unset => s

/-- The `curl_multi_perform` loop: the engine makes progress, delivering the given chunks. -/
def curl_multi_perform (s : LLHTTPAssetStorage) (calls : List WriteCall) :
    LLHTTPAssetStorage :=
  calls.foldl deliver s

/-! ## Completion handling (second part of `checkForTimeouts`) -/

/-- `LLVFile::rename` on a staged file. -/
def LLVFile_rename (s : LLHTTPAssetStorage) (f : LLVFile) (new_id : LLUUID)
    (new_type : EType) : LLHTTPAssetStorage :=
  emit { s with mVFS := LLVFS_renameFile s.mVFS f.mFileID f.mFileType new_id new_type }
    (Event.vfileRename f.mFileID f.mFileType new_id new_type)

/-- `LLVFile::remove` on a staged file. -/
def LLVFile_remove (s : LLHTTPAssetStorage) (f : LLVFile) : LLHTTPAssetStorage :=
  emit { s with mVFS := LLVFS_removeFile s.mVFS f.mFileID f.mFileType }
    (Event.vfileRemove f.mFileID f.mFileType)

/-- The branch of the completion loop for a request with `mIsUpload || mIsLocalUpload`. -/
def uploadDone (s : LLHTTPAssetStorage) (req : LLHTTPAssetRequest) (m : CURLMsg) :
    LLHTTPAssetStorage :=
  let curl_result := m.http_code
  let r : LLHTTPAssetStorage × LLErr :=
    if m.result = CURLcode.CURLE_OK ∧
        (curl_result = HTTP_OK ∨ curl_result = HTTP_PUT_OK ∨ curl_result = HTTP_NO_CONTENT) then
      if req.mIsLocalUpload then
        (addTempAssetData s req.mUUID req.mRequestingAgentID s.mHostName, LLErr.LL_ERR_NOERR)
      else
        (s, LLErr.LL_ERR_NOERR)
    else if m.result = CURLcode.CURLE_COULDNT_CONNECT ∨
        m.result = CURLcode.CURLE_OPERATION_TIMEOUTED ∨
        curl_result = HTTP_SERVER_BAD_GATEWAY ∨
        curl_result = HTTP_SERVER_TEMP_UNAVAILABLE then
      (s, LLErr.LL_ERR_NOERR)
    else
      (s, LLErr.LL_ERR_ASSET_REQUEST_FAILED)
  let xfer_result := r.2
  if ¬ (m.result = CURLcode.CURLE_COULDNT_CONNECT ∨
      m.result = CURLcode.CURLE_OPERATION_TIMEOUTED ∨
      curl_result = HTTP_SERVER_BAD_GATEWAY ∨
      curl_result = HTTP_SERVER_TEMP_UNAVAILABLE) then
    _callUploadCallbacks r.1 req.mUUID req.mType (decide (xfer_result = LLErr.LL_ERR_NOERR))
  else
    r.1

/-- The branch of the completion loop for a request with `mIsDownload`. -/
def downloadDone (s : LLHTTPAssetStorage) (req : LLHTTPAssetRequest) (m : CURLMsg) :
    LLHTTPAssetStorage :=
  let curl_result := m.http_code
  let r : LLHTTPAssetStorage × LLErr :=
    if curl_result = HTTP_OK ∧ m.result = CURLcode.CURLE_OK then
      match req.mVFile with
      | some f =>
        if LLVFS_getSize s.mVFS f.mFileID f.mFileType > 0 then
          (LLVFile_rename s f req.mUUID req.mType, LLErr.LL_ERR_NOERR)
        else
          (s, LLErr.LL_ERR_ASSET_REQUEST_NOT_IN_DATABASE)
      | none => (s, LLErr.LL_ERR_ASSET_REQUEST_NOT_IN_DATABASE)
    else
      let xfer_result :=
        if curl_result = HTTP_MISSING then LLErr.LL_ERR_ASSET_REQUEST_NOT_IN_DATABASE
        else LLErr.LL_ERR_ASSET_REQUEST_FAILED
      match req.mVFile with
      | some f => (LLVFile_remove s f, xfer_result)
      | none => (s, xfer_result)
  downloadCompleteCallback r.1 r.2 req.mUUID req.mType

/-- The body of the completion loop for one message read from the multi handle. A message
for a handle that is no longer attached finds no request. -/
def handleMsg (s : LLHTTPAssetStorage) (m : CURLMsg) : LLHTTPAssetStorage :=
  if m.msg = CURLMSG.CURLMSG_DONE then
    match findTransfer s m.easy_handle with
    | none => s
    | some req =>
      let s1 :=
        if req.mIsUpload || req.mIsLocalUpload then uploadDone s req m
        else if req.mIsDownload then downloadDone s req m
        else s
      LLHTTPAssetRequest_delete s1 req
  else s

/-- What the environment contributes to one tick: the id that `mTmpUUID.generate()` yields,
the chunks the engine delivers while it performs, and the completion messages it then
reports, in order. -/
structure TickInput where
  tmp_uuid : LLUUID
  calls : List WriteCall
  msgs : List CURLMsg
  deriving DecidableEq, Repr

/-- `LLHTTPAssetStorage::checkForTimeouts`. -/
def checkForTimeouts (X : Externals) (s : LLHTTPAssetStorage) (inp : TickInput) :
    LLHTTPAssetStorage :=
  let s1 := promotePending X s inp.tmp_uuid
  let s2 := curl_multi_perform s1 inp.calls
  let s3 := inp.msgs.foldl handleMsg s2
  LLAssetStorage_checkForTimeouts s3

/-! ## The blocking fetch -/

/-- One iteration of the poll loop of `getURLToFile`: the chunks delivered during
`curl_multi_perform`, what `curl_multi_info_read` returns, and whether the timer has expired
when it is asked. -/
structure PollRound where
  calls : List WriteCall
  curl_msg : Option CURLMsg
  expired : Bool
  deriving DecidableEq, Repr

/-- `LLFile::fopen(filename, "wb")`: the file is created empty, or truncated. -/
def diskCreate (name : String) (disk : List (String × List Nat)) : List (String × List Nat) :=
  (name, []) :: disk.filter (fun e => decide (e.1 ≠ name))

/-- `LLFile::remove(filename)`. -/
def diskRemove (name : String) (disk : List (String × List Nat)) : List (String × List Nat) :=
  disk.filter (fun e => decide (e.1 ≠ name))

/-- `ftell` on a file that was opened empty and only written at its end. -/
def ftell (disk : List (String × List Nat)) (name : String) : Int :=
  match disk.lookup name with
  | some d => (d.length : Int)
  | none => 0

/-- The "braindead curl loop" of `getURLToFile`. It yields the state, the message on which it
stopped with `success` (none when the timer expired) and `xfer_result`. The timer runs out in
the end: once the listed rounds are used up it has expired. -/
def pollLoop (callback : Option Nat) (userdata : Nat) (s : LLHTTPAssetStorage) :
    List PollRound → LLHTTPAssetStorage × Option CURLMsg × LLErr
  | [] => (s, none, LLErr.LL_ERR_ASSET_REQUEST_FAILED)
  | r :: rest =>
    let s1 := curl_multi_perform s r.calls
    let s2 :=
      match callback with
      | some cb => emit s1 (Event.progressCallback cb userdata)
      | none => s1
    match r.curl_msg with
    | some m =>
      if m.msg = CURLMSG.CURLMSG_DONE then (s2, some m, LLErr.LL_ERR_NOERR)
      else if r.expired then (s2, none, LLErr.LL_ERR_ASSET_REQUEST_FAILED)
      else pollLoop callback userdata s2 rest
    | none =>
      if r.expired then (s2, none, LLErr.LL_ERR_ASSET_REQUEST_FAILED)
      else pollLoop callback userdata s2 rest

/-- `LLHTTPAssetStorage::getURLToFile`. `fopen_ok` tells whether the destination could be
opened for writing; `rounds` is what the engine and the timer do while the loop polls. -/
def getURLToFile (s : LLHTTPAssetStorage) (uuid : LLUUID) (asset_type : EType)
    (url filename : String) (callback : Option Nat) (userdata : Nat)
    (fopen_ok : Bool) (rounds : List PollRound) : LLErr × LLHTTPAssetStorage :=
  if !fopen_ok then
    (LLErr.LL_ERR_ASSET_REQUEST_FAILED, s)
  else
    let s0 := { s with mDisk := diskCreate filename s.mDisk }
    let req := LLHTTPAssetRequest_new uuid asset_type url
    let req := { req with mFP := some filename }
    let req := { req with mIsDownload := true }
    let (s1, req) := setupCurlHandle s0 req
    let req := { req with optFollowLocation := true }
    let req := { req with optWriteFunction := WriteFunction.curlFileDownCallback }
    let s2 := curl_multi_add_handle s1 req
    let (s3, curl_msg, xfer_result0) := pollLoop callback userdata s2 rounds
    let xfer_result : LLErr :=
      match curl_msg with
      | some m =>
        let curl_result := m.http_code
        if curl_result = HTTP_OK ∧ m.result = CURLcode.CURLE_OK then
          let size := ftell s3.mDisk filename
          if size > 0 then xfer_result0
          else LLErr.LL_ERR_ASSET_REQUEST_FAILED
        else
          if curl_result = HTTP_MISSING then LLErr.LL_ERR_ASSET_REQUEST_NOT_IN_DATABASE
          else LLErr.LL_ERR_ASSET_REQUEST_FAILED
      | none => xfer_result0
    let s4 :=
      if xfer_result ≠ LLErr.LL_ERR_NOERR then
        { s3 with mDisk := diskRemove filename s3.mDisk }
      else s3
    (xfer_result, LLHTTPAssetRequest_delete s4 req)

/-! ## Reachable states -/

/-- One call on the storage's public surface, with what the environment contributes to it. -/
inductive Call
  | storeAssetData (uuid : LLUUID) (type : EType) (callback : Option Nat) (user_data : Nat)
      (temp_file is_priority store_local : Bool) (requesting_agent_id : LLUUID)
  | queueDataRequest (uuid : LLUUID) (type : EType) (callback : Option Nat) (user_data : Nat)
      (duplicate is_priority : Bool)
  | checkForTimeouts (inp : TickInput)
  | getURLToFile (uuid : LLUUID) (asset_type : EType) (url filename : String)
      (callback : Option Nat) (userdata : Nat) (fopen_ok : Bool) (rounds : List PollRound)

/-- The state after one call. -/
def step (X : Externals) (s : LLHTTPAssetStorage) : Call → LLHTTPAssetStorage
  | Call.storeAssetData uuid type cb ud t p l a => storeAssetData s uuid type cb ud t p l a
  | Call.queueDataRequest uuid type cb ud d p => _queueDataRequest s uuid type cb ud d p
  | Call.checkForTimeouts inp => checkForTimeouts X s inp
  | Call.getURLToFile uuid ty url fn cb ud ok rounds =>
    (getURLToFile s uuid ty url fn cb ud ok rounds).2

/-- The state after a sequence of calls. -/
def run (X : Externals) (s : LLHTTPAssetStorage) (calls : List Call) : LLHTTPAssetStorage :=
  calls.foldl (step X) s

/-- Membership test of the download class used by `liveDownloads`. -/
def isLiveDownload (r : LLHTTPAssetRequest) : Bool :=
  r.mCurlHandle.isSome && !r.mIsUpload && !r.mIsLocalUpload && r.mIsDownload

/-- Membership test of the upload class used by `liveUploads`. -/
def isLiveUpload (r : LLHTTPAssetRequest) : Bool :=
  r.mCurlHandle.isSome && r.mIsUpload

/-- Membership test of the local-upload class used by `liveLocalUploads`. -/
def isLiveLocalUpload (r : LLHTTPAssetRequest) : Bool :=
  r.mCurlHandle.isSome && !r.mIsUpload && r.mIsLocalUpload

/-- Live Transfers of the download class: set up, not yet destroyed, and owning the download
slot when destroyed. -/
def liveDownloads (s : LLHTTPAssetStorage) : Nat :=
  (s.mTransfers.filter isLiveDownload).length

/-- Live Transfers of the upload class. -/
def liveUploads (s : LLHTTPAssetStorage) : Nat :=
  (s.mTransfers.filter isLiveUpload).length

/-- Live Transfers of the local-upload class. -/
def liveLocalUploads (s : LLHTTPAssetStorage) : Nat :=
  (s.mTransfers.filter isLiveLocalUpload).length

/-! ## Observations on traces and sample data -/

/-- The invocations of the shared upload-complete path recorded in a trace. -/
def uploadCallbacks (t : List Event) : List (LLUUID × EType × Bool) :=
  t.filterMap (fun e =>
    match e with
    | Event.callUploadCallbacks uuid type success => some (uuid, type, success)
    | _ => none)

/-- The invocations of the download-complete callback recorded in a trace. -/
def downloadCallbacks (t : List Event) : List (LLErr × LLUUID × EType) :=
  t.filterMap (fun e =>
    match e with
    | Event.downloadCompleteCallback result uuid type => some (result, uuid, type)
    | _ => none)

/-- The renames of staged files recorded in a trace. -/
def renames (t : List Event) : List (LLUUID × EType × LLUUID × EType) :=
  t.filterMap (fun e =>
    match e with
    | Event.vfileRename id type new_id new_type => some (id, type, new_id, new_type)
    | _ => none)

/-- The arguments of one `_queueDataRequest` call. -/
structure DownloadAdmission where
  uuid : LLUUID
  type : EType
  callback : Option Nat := none
  user_data : Nat := 0
  duplicate : Bool := false
  is_priority : Bool := false
  deriving DecidableEq, Repr

/-- A sequence of `_queueDataRequest` calls, oldest first. -/
def queueDataRequests (s : LLHTTPAssetStorage) (l : List DownloadAdmission) :
    LLHTTPAssetStorage :=
  l.foldl (fun st a => _queueDataRequest st a.uuid a.type a.callback a.user_data a.duplicate
    a.is_priority) s

/-- Sample instance of the URL parameters: ids print as 36 decimal digits. -/
def sampleExternals : Externals :=
  { uuidToString := fun u =>
      String.mk (List.replicate (36 - (toString u).length) '0') ++ toString u
    lookup := fun t =>
      match t with
      | EType.AT_TEXTURE => "texture"
      | EType.AT_SOUND => "sound"
      | EType.AT_OBJECT => "object"
      | EType.AT_NONE => "none"
      | EType.AT_OTHER _ => "other"
    MAX_STRING := 255
    localAssetURL := fun host => "http://" ++ host ++ ":12041/asset" }

/-- A freshly initialised storage over an empty virtual file system. -/
def freshStorage : LLHTTPAssetStorage :=
  _init [] "http://asset.example/base" "http://localhost:12041/asset" "sim1.example"

/-- A freshly initialised storage whose virtual file system holds a sound asset (id 7) and an
object asset (id 8). -/
def stockedStorage : LLHTTPAssetStorage :=
  _init [((7, EType.AT_SOUND), { mData := [1, 2, 3], mMaxSize := 3 }),
         ((8, EType.AT_OBJECT), { mData := [4, 5], mMaxSize := 2 })]
    "http://asset.example/base" "http://localhost:12041/asset" "sim1.example"

/-- The stocked storage after four admissions: an ordinary store of asset 7, a local store of
asset 8 for agent 5, and downloads of texture 1 and sound 2. -/
def queuedStorage : LLHTTPAssetStorage :=
  _queueDataRequest
    (_queueDataRequest
      (storeAssetData
        (storeAssetData stockedStorage 7 EType.AT_SOUND (some 1) 42 false false false 0)
        8 EType.AT_OBJECT (some 2) 43 false false true 5)
      1 EType.AT_TEXTURE (some 3) 44 false false)
    2 EType.AT_SOUND (some 4) 45 false false

/-- The queued storage after one tick without engine activity: a download Transfer for
asset 2 (handle 0), an upload Transfer for asset 7 (handle 1) and a local-upload Transfer for
asset 8 (handle 2) are attached. -/
def transferringStorage : LLHTTPAssetStorage :=
  checkForTimeouts sampleExternals queuedStorage { tmp_uuid := 100, calls := [], msgs := [] }

/-- The transferring storage after the engine delivered three bytes to the download. -/
def stagedStorage : LLHTTPAssetStorage :=
  curl_multi_perform transferringStorage [{ handle := 0, data := [9, 9, 9], content_length := 3 }]

/-- The request attached under a handle (a blank request if there is none). -/
def transferOf (s : LLHTTPAssetStorage) (h : Nat) : LLHTTPAssetRequest :=
  (findTransfer s h).getD (LLHTTPAssetRequest_new LLUUID_null EType.AT_NONE "")

/-- A local store of asset 8 without a requesting agent, promoted by one tick and completed
with transport OK and HTTP 200 in the next. -/
def anonymousLocalUploadCalls : List Call :=
  [ Call.storeAssetData 8 EType.AT_OBJECT (some 2) 43 false false true LLUUID_null,
    Call.checkForTimeouts { tmp_uuid := 100, calls := [], msgs := [] },
    Call.checkForTimeouts
      { tmp_uuid := 101
        calls := []
        msgs := [CURLMsg.mk CURLMSG.CURLMSG_DONE 0 CURLcode.CURLE_OK 200] } ]

/-- A queued texture download is promoted by a tick; while it is in flight a blocking fetch
runs and completes (two bytes, HTTP 200, transport OK); the next tick follows. -/
def blockingFetchCalls : List Call :=
  [ Call.queueDataRequest 7 EType.AT_TEXTURE none 0 false false,
    Call.checkForTimeouts { tmp_uuid := 100, calls := [], msgs := [] },
    Call.getURLToFile 9 EType.AT_SOUND "http://sim.example/state" "out.bin" none 0 true
      [PollRound.mk [WriteCall.mk 1 [1, 2] 2]
        (some (CURLMsg.mk CURLMSG.CURLMSG_DONE 1 CURLcode.CURLE_OK 200)) false],
    Call.checkForTimeouts { tmp_uuid := 101, calls := [], msgs := [] } ]

/-- The slot discipline of the pending flags: a clear flag means no live Transfer of the class,
and no class has more than one. -/
def SlotsHeld (s : LLHTTPAssetStorage) : Prop :=
  (s.mPendingDownload = false → liveDownloads s = 0) ∧ liveDownloads s ≤ 1
  ∧ (s.mPendingUpload = false → liveUploads s = 0) ∧ liveUploads s ≤ 1
  ∧ (s.mPendingLocalUpload = false → liveLocalUploads s = 0) ∧ liveLocalUploads s ≤ 1

/-- Whether a call is the blocking fetch. -/
def Call.isBlockingFetch : Call → Bool
  | Call.getURLToFile _ _ _ _ _ _ _ _ => true
  | _ => false

/-- The removals of staged files recorded in a trace. -/
def removals (t : List Event) : List (LLUUID × EType) :=
  t.filterMap (fun e =>
    match e with
    | Event.vfileRemove id type => some (id, type)
    | _ => none)

/-- The stocked storage with two temp assets registered: texture 21 of agent 5 on host
`simA` and texture 22 of agent 6 on host `simB`. -/
def registeredStorage : LLHTTPAssetStorage :=
  addTempAssetData (addTempAssetData stockedStorage 21 5 "simA") 22 6 "simB"

/-- The request that `_queueDataRequest` builds from its arguments. -/
def DownloadAdmission.toRequest (a : DownloadAdmission) : LLAssetRequest :=
  { mUUID := a.uuid, mType := a.type, mDownCallback := a.callback, mUserData := a.user_data,
    mIsPriority := a.is_priority }

/-- The arguments of one `storeAssetData` call. -/
structure StoreAdmission where
  uuid : LLUUID
  type : EType
  callback : Option Nat := none
  user_data : Nat := 0
  temp_file : Bool := false
  is_priority : Bool := false
  store_local : Bool := false
  requesting_agent_id : LLUUID := LLUUID_null
  deriving DecidableEq, Repr

/-- The request that `storeAssetData` builds from its arguments. -/
def StoreAdmission.toRequest (a : StoreAdmission) : LLAssetRequest :=
  { mUUID := a.uuid, mType := a.type, mUpCallback := a.callback, mUserData := a.user_data,
    mRequestingAgentID := a.requesting_agent_id }

/-- A sequence of `storeAssetData` calls, oldest first. -/
def storeAssetDatas (s : LLHTTPAssetStorage) (l : List StoreAdmission) : LLHTTPAssetStorage :=
  l.foldl (fun st a => storeAssetData st a.uuid a.type a.callback a.user_data a.temp_file
    a.is_priority a.store_local a.requesting_agent_id) s

/-- The transferring storage after the engine called the write function of the download with
an empty chunk (the body of the response is empty). -/
def emptyStagedStorage : LLHTTPAssetStorage :=
  curl_multi_perform transferringStorage [WriteCall.mk 0 [] 0]

/-- Modelled from the spec: the bytes stored under a key of the Virtual Asset Store (none when
the key is absent), as streamed reads see them. -/
def LLVFS_getData (vfs : LLVFS) (id : LLUUID) (type : EType) : List Nat :=
  match vfs.lookup (id, type) with
  | some b => b.mData
  | none => []

/-- A fresh storage with one queued texture download (asset 7) in flight under handle 0; the
next handle that `curl_easy_init` hands out is 1. -/
def inFlightStorage : LLHTTPAssetStorage :=
  run sampleExternals freshStorage (blockingFetchCalls.take 2)

/-- Conversion of an exact number to `S32`: its value modulo 2^32, read as a signed number. -/
def toS32 (x : Int) : Int := (x + 2147483648) % 4294967296 - 2147483648

/-- Modelled from the spec: `LLVFile::read` (the class is outside the translated file), a
streamed read: up to `bytes` bytes are served from the current position, the position advances
by what was served and `getLastBytesRead` reports that amount. -/
def LLVFile_read (vfs : LLVFS) (f : LLVFile) (bytes : Int) : LLVFile × List Nat :=
  let out :=
    ((LLVFS_getData vfs f.mFileID f.mFileType).drop f.mPosition.toNat).take bytes.toNat
  ({ f with mPosition := f.mPosition + (out.length : Int), mBytesRead := (out.length : Int) },
    out)

/-- `LLHTTPAssetStorage::curlUpCallback`, with `gAssetStorage` set to this storage: the state
afterwards, the bytes put into `data` and the value returned. -/
def curlUpCallback (s : LLHTTPAssetStorage) (handle : Nat) (size nmemb : Nat) :
    LLHTTPAssetStorage × List Nat × Int :=
  match findTransfer s handle with
  | none => (s, [], 0)
  | some req =>
    let vfile : LLVFile :=
      match req.mVFile with
      | some f => f
      | none => { mFileID := req.mUUID, mFileType := req.mType, mMode := VFileMode.READ }
    let bytes : Int :=
      min (toS32 ((size * nmemb : Nat) : Int))
        (LLVFS_getSize s.mVFS vfile.mFileID vfile.mFileType - vfile.mPosition)
    let r := LLVFile_read s.mVFS vfile bytes
    (updateTransfer s handle (fun q => { q with mVFile := some r.1 }), r.2, r.1.mBytesRead)

/-- Successive calls of `curlUpCallback` on one handle with the requested amounts `ns`
(`size` 1): the state afterwards and the bytes produced, call after call. -/
def curlUpCalls (s : LLHTTPAssetStorage) (handle : Nat) :
    List Nat → LLHTTPAssetStorage × List Nat
  | [] => (s, [])
  | n :: rest =>
    let r := curlUpCallback s handle 1 n
    let r2 := curlUpCalls r.1 handle rest
    (r2.1, r.2.1 ++ r2.2)

/-- One operation in the life of the temp-asset map: the four registry operations, the
handling of a completion message (an upload completion may register an entry), and any call
on the rest of the storage's surface (admissions, ticks with their promotions, deliveries and
completions, blocking fetches), through which Transfers get attached and completed. -/
inductive RegistryCall
  | addTempAssetData (asset_id agent_id : LLUUID) (host_name : String)
  | removeTempAssetData (asset_id : LLUUID)
  | removeTempAssetDataByAgentID (agent_id : LLUUID)
  | clearTempAssetData
  | completion (m : CURLMsg)
  | surface (c : Call)

/-- The state after one registry operation. -/
def registryStep (X : Externals) (s : LLHTTPAssetStorage) :
    RegistryCall → LLHTTPAssetStorage
  | RegistryCall.addTempAssetData a g h => addTempAssetData s a g h
  | RegistryCall.removeTempAssetData a => removeTempAssetData s a
  | RegistryCall.removeTempAssetDataByAgentID g => removeTempAssetDataByAgentID s g
  | RegistryCall.clearTempAssetData => clearTempAssetData s
  | RegistryCall.completion m => handleMsg s m
  | RegistryCall.surface c => step X s c

/-- The state after a sequence of registry operations. -/
def registryRun (X : Externals) (s : LLHTTPAssetStorage) (ops : List RegistryCall) :
    LLHTTPAssetStorage :=
  ops.foldl (registryStep X) s

/-- A local store of asset 8 for agent 5 on the stocked storage, promoted by one tick and
completed with HTTP 201 in the next, between registry operations on other entries. -/
def registrySampleOps : List RegistryCall :=
  [RegistryCall.addTempAssetData 22 6 "simB",
   RegistryCall.surface (Call.storeAssetData 8 EType.AT_OBJECT none 0 false false true 5),
   RegistryCall.surface (Call.checkForTimeouts { tmp_uuid := 100, calls := [], msgs := [] }),
   RegistryCall.addTempAssetData 8 9 "simZ",
   RegistryCall.surface (Call.checkForTimeouts
     { tmp_uuid := 101, calls := [],
       msgs := [CURLMsg.mk CURLMSG.CURLMSG_DONE 0 CURLcode.CURLE_OK 201] }),
   RegistryCall.addTempAssetData 23 LLUUID_null "simC",
   RegistryCall.removeTempAssetData 22]

/-- The shape of a well-formed temp-asset map: keys strictly ascending (the order of the
`std::map`), each entry stored under its own asset id, no null asset id, no null agent id. -/
def RegistryOK (m : List (LLUUID × LLTempAssetData)) : Prop :=
  m.Pairwise (fun a b => a.1 < b.1)
  ∧ ∀ e ∈ m, e.2.mAssetID = e.1 ∧ e.1 ≠ LLUUID_null ∧ e.2.mAgentID ≠ LLUUID_null

/-! ## Media priorities (indra/newview/llviewermedia.cpp) -/

/-- What `compare_impl_interest` and `updateMedia` read from an `LLViewerMediaImpl`, as it is
once `update()` and `calculateInterest()` have run. Interest, texture interest and CPU usage
are floating-point values in the source; they are taken as exact numbers here. -/
structure LLViewerMediaImpl where
  hasFocus : Bool
  getUsedInUI : Bool
  getVisible : Bool
  getInterest : Int
  getApproximateTextureInterest : Int
  getCPUUsage : Int
  deriving DecidableEq, Repr

/-- `compare_impl_interest`, the predicate used to sort `sViewerMediaImplList`. -/
def compare_impl_interest (i1 i2 : LLViewerMediaImpl) : Bool :=
  if i1.hasFocus then
    true
  else if i2.hasFocus then
    false
  else if i1.getUsedInUI && !i2.getUsedInUI then
    true
  else if i2.getUsedInUI && !i1.getUsedInUI then
    false
  else
    decide (i1.getInterest > i2.getInterest)

/-- The values of `LLPluginClassMedia::EPriority` that `updateMedia` assigns. -/
inductive EPriority
  | PRIORITY_UNLOADED
  | PRIORITY_HIDDEN
  | PRIORITY_SLIDESHOW
  | PRIORITY_LOW
  | PRIORITY_NORMAL
  | PRIORITY_HIGH
  deriving DecidableEq, Repr

/-- The settings that `updateMedia` reads from `gSavedSettings`; the three instance counts are
`U32` values. -/
structure PluginSettings where
  PluginInstancesTotal : Nat
  PluginInstancesNormal : Nat
  PluginInstancesLow : Nat
  PluginInstancesCPULimit : Int
  deriving DecidableEq, Repr

/-- The running totals of the priority loop of `updateMedia`. -/
structure PriorityCounters where
  total_cpu : Int := 0
  impl_count_total : Int := 0
  impl_count_interest_low : Int := 0
  impl_count_interest_normal : Int := 0
  deriving DecidableEq, Repr

/-- The body of the priority loop of `updateMedia` for one instance: the priority it is set
to and the totals afterwards. The counters and the sums compared are `int`s: their arithmetic
is taken modulo 2^32. The low-priority size limit, a rounded floating-point square root, is not
part of the result. -/
def assignPriority (cfg : PluginSettings) (c : PriorityCounters) (pimpl : LLViewerMediaImpl) :
    EPriority × PriorityCounters :=
  let max_instances := cfg.PluginInstancesTotal
  let max_normal := cfg.PluginInstancesNormal
  let max_low := cfg.PluginInstancesLow
  let max_cpu := cfg.PluginInstancesCPULimit
  let check_cpu_usage : Bool := decide (max_cpu ≠ 0)
  let r : EPriority × PriorityCounters :=
    if c.impl_count_total > toS32 (max_instances : Int) then
      (EPriority.PRIORITY_UNLOADED, c)
    else if !pimpl.getVisible then
      (EPriority.PRIORITY_HIDDEN, c)
    else if pimpl.hasFocus then
      (EPriority.PRIORITY_HIGH, c)
    else if pimpl.getUsedInUI then
      (EPriority.PRIORITY_NORMAL, c)
    else
      let media_is_small : Bool :=
        decide (pimpl.getInterest * 4 < pimpl.getApproximateTextureInterest)
      if pimpl.getInterest = 0 then
        (EPriority.PRIORITY_HIDDEN, c)
      else if check_cpu_usage && decide (c.total_cpu > max_cpu) then
        (EPriority.PRIORITY_SLIDESHOW, c)
      else if decide (c.impl_count_interest_normal < toS32 (max_normal : Int))
          && !media_is_small then
        (EPriority.PRIORITY_NORMAL,
          { c with impl_count_interest_normal := toS32 (c.impl_count_interest_normal + 1) })
      else if toS32 (c.impl_count_interest_low + c.impl_count_interest_normal)
          < toS32 (toS32 (max_low : Int) + toS32 (max_normal : Int)) then
        (EPriority.PRIORITY_LOW,
          { c with impl_count_interest_low := toS32 (c.impl_count_interest_low + 1) })
      else
        (EPriority.PRIORITY_SLIDESHOW, c)
  (r.1, { r.2 with
    total_cpu := r.2.total_cpu + pimpl.getCPUUsage
    impl_count_total := toS32 (r.2.impl_count_total + 1) })

/-- The priority loop of `updateMedia` over the sorted list: the priority set on each
instance, in list order. -/
def priorityPass (cfg : PluginSettings) :
    PriorityCounters → List LLViewerMediaImpl → List EPriority
  | _, [] => []
  | c, pimpl :: rest =>
    (assignPriority cfg c pimpl).1 :: priorityPass cfg (assignPriority cfg c pimpl).2 rest

/-- Insertion of one element behind the elements that the predicate does not put after it. -/
def stableInsert (comp : LLViewerMediaImpl → LLViewerMediaImpl → Bool)
    (x : LLViewerMediaImpl) : List LLViewerMediaImpl → List LLViewerMediaImpl
  | [] => [x]
  | e :: rest => if comp e x then e :: stableInsert comp x rest else x :: e :: rest

/-- `std::stable_sort` with a predicate, as a stable insertion sort (for a predicate that is a
strict weak ordering every stable sort gives the same list). -/
def stable_sort (comp : LLViewerMediaImpl → LLViewerMediaImpl → Bool) :
    List LLViewerMediaImpl → List LLViewerMediaImpl
  | [] => []
  | x :: rest => stableInsert comp x (stable_sort comp rest)

/-- `LLViewerMedia::updateMedia`: the instances in sorted order, each with the priority it is
set to. -/
def updateMedia (cfg : PluginSettings) (impls : List LLViewerMediaImpl) :
    List (LLViewerMediaImpl × EPriority) :=
  let sorted := stable_sort compare_impl_interest impls
  sorted.zip (priorityPass cfg {} sorted)

/-- The number of instances that a pass leaves with a priority other than
`PRIORITY_UNLOADED`. -/
def loadedCount (l : List EPriority) : Nat :=
  (l.filter (fun p => decide (p ≠ EPriority.PRIORITY_UNLOADED))).length

/-- An in-world media instance: visible, not focused, not part of the UI. -/
def inworldImpl (interest : Int) : LLViewerMediaImpl :=
  { hasFocus := false, getUsedInUI := false, getVisible := true, getInterest := interest,
    getApproximateTextureInterest := interest, getCPUUsage := 1 }

/-- A media instance that has user focus. -/
def focusedImpl (interest : Int) : LLViewerMediaImpl :=
  { hasFocus := true, getUsedInUI := false, getVisible := true, getInterest := interest,
    getApproximateTextureInterest := interest, getCPUUsage := 1 }

/-! ## The compression codec (`readCompressedData`) -/

/-- What one call of zlib's `deflate` does, as far as `readCompressedData` can see: its
internal state afterwards, how many of the pending input bytes it consumed, the bytes it
produced, and whether it returned `Z_STREAM_END`. -/
structure DeflateResult (σ : Type) where
  state : σ
  consumed : Nat
  output : List Nat
  stream_end : Bool

/-- Modelled from the spec: the encoder (zlib's `deflate`, outside the translated file) as a
step: from its internal state, the pending input (`next_in`, `avail_in`), the room left in the
output buffer (`avail_out`) and the flush mode (true for `Z_FINISH`, false for `Z_NO_FLUSH`)
to a result. -/
abbrev Deflate (σ : Type) := σ → List Nat → Nat → Bool → DeflateResult σ

/-- The encoder "on each invocation consumes input, produces output or reports stream-end":
it never consumes more than is pending nor produces more than there is room for, and when it
has something to do (pending input, or the finish flush) and room to do it, it makes one of
the three kinds of progress. -/
def SteppingEncoder {σ : Type} (deflate : Deflate σ) : Prop :=
  ∀ (st : σ) (inp : List Nat) (avail_out : Nat) (finish : Bool),
    (deflate st inp avail_out finish).consumed ≤ inp.length
    ∧ (deflate st inp avail_out finish).output.length ≤ avail_out
    ∧ ((inp ≠ [] ∨ finish = true) → 0 < avail_out →
        0 < (deflate st inp avail_out finish).consumed
        ∨ 0 < (deflate st inp avail_out finish).output.length
        ∨ (deflate st inp avail_out finish).stream_end = true)

/-- The fields of an `LLHTTPAssetRequest` that the codec works on: the encoder state inside
`mZStream`, the pending input (`mZStream.next_in` with `avail_in` its length), the
`mZInputExhausted` flag and the read handle `mVFile` on the source asset. -/
structure ZCodec (σ : Type) where
  state : σ
  next_in : List Nat
  mZInputExhausted : Bool
  mVFile : LLVFile
  deriving DecidableEq

/-- The outcome of the loop of `readCompressedData`: the codec afterwards, the room left in
the output buffer and the bytes written to it. -/
structure ZRun (σ : Type) where
  codec : ZCodec σ
  avail_out : Nat
  data : List Nat

/-- The input-refill step at the top of the loop body of `readCompressedData`: when no input
is pending and the source is not marked exhausted, up to `COMPRESSED_INPUT_BUFFER_SIZE` (4096)
bytes are read and the flag is set when none came. -/
def pullInput {σ : Type} (vfs : LLVFS) (z : ZCodec σ) : ZCodec σ :=
  if z.next_in.length = 0 ∧ z.mZInputExhausted = false then
    let to_read : Int :=
      min 4096 (toS32 (LLVFS_getSize vfs z.mVFile.mFileID z.mVFile.mFileType
        - z.mVFile.mPosition))
    let rd := LLVFile_read vfs z.mVFile to_read
    { z with mVFile := rd.1, next_in := rd.2, mZInputExhausted := decide (rd.2.length = 0) }
  else
    z

/-- The `while (mZStream.avail_out > 0)` loop of `readCompressedData`; `fuel` bounds the
number of iterations and `none` means it ran out. -/
def readLoop {σ : Type} (deflate : Deflate σ) (vfs : LLVFS) :
    Nat → ZCodec σ → Nat → Option (ZRun σ)
  | 0, _, _ => none
  | fuel + 1, z, avail_out =>
    if avail_out > 0 then
      let z1 := pullInput vfs z
      let r := deflate z1.state z1.next_in avail_out z1.mZInputExhausted
      let z2 : ZCodec σ := { z1 with state := r.state, next_in := z1.next_in.drop r.consumed }
      if r.stream_end then
        some { codec := z2, avail_out := avail_out - r.output.length, data := r.output }
      else
        match readLoop deflate vfs fuel z2 (avail_out - r.output.length) with
        | some run => some { run with data := r.output ++ run.data }
        | none => none
    else
      some { codec := z, avail_out := avail_out, data := [] }

/-- `LLHTTPAssetRequest::readCompressedData(data, size)`: the codec afterwards, the bytes
written to `data` and the value returned (`size - mZStream.avail_out`). -/
def readCompressedData {σ : Type} (deflate : Deflate σ) (vfs : LLVFS) (fuel : Nat)
    (z : ZCodec σ) (size : Nat) : Option (ZCodec σ × List Nat × Nat) :=
  (readLoop deflate vfs fuel z size).map
    (fun run => (run.codec, run.data, size - run.avail_out))

/-- A bound on the iterations that the loop of `readCompressedData` can make: the room in the
output buffer, the pending input, the unread part of the source, and one for the read that
finds the source empty. -/
def codecMeasure {σ : Type} (vfs : LLVFS) (z : ZCodec σ) (avail_out : Nat) : Nat :=
  avail_out + z.next_in.length
    + ((LLVFS_getData vfs z.mVFile.mFileID z.mVFile.mFileType).length
        - z.mVFile.mPosition.toNat)
    + (if z.mZInputExhausted then 0 else 1)

/-! ### The protocol between `readCompressedData`, the source and the encoder

These definitions follow the words of the specification, not the code: they say which calls of
the encoder one call of `readCompressedData` may consist of. -/

/-- Where the codec stands between two calls of the encoder: the encoder's state, its pending
input, whether the source is marked exhausted, the read position in the source, the room left
in the output buffer, and whether the last call reported stream-end. -/
structure CodecPoint (σ : Type) where
  state : σ
  pending : List Nat
  exhausted : Bool
  position : Nat
  room : Nat
  ended : Bool

/-- One call of the encoder: the bytes read from the source just before it (if a read was
made), and the arguments it is called with. -/
structure DeflateCall (σ : Type) where
  pulled : Option (List Nat)
  state : σ
  next_in : List Nat
  avail_out : Nat
  finish : Bool
  deriving DecidableEq

/-- Where the codec stands after a call: the encoder's new state, the input it left pending,
the source marked exhausted exactly if the call was a finish flush, the position advanced by
what was read, the room reduced by what was produced. -/
def pointAfter {σ : Type} (deflate : Deflate σ) (p : CodecPoint σ) (c : DeflateCall σ) :
    CodecPoint σ :=
  { state := (deflate c.state c.next_in c.avail_out c.finish).state
    pending := c.next_in.drop (deflate c.state c.next_in c.avail_out c.finish).consumed
    exhausted := c.finish
    position := p.position + (c.pulled.getD []).length
    room := c.avail_out - (deflate c.state c.next_in c.avail_out c.finish).output.length
    ended := (deflate c.state c.next_in c.avail_out c.finish).stream_end }

/-- The calls of the encoder that lead from one point to another, over the source bytes `src`.
A call is made only while there is room and stream-end has not been reported, and the calls
stop only when one of the two has happened. Before a call the source is read exactly when no
input is pending and the source is not marked exhausted, and what is read is the next bytes of
the source, at most 4096. The encoder is called on its own latest state with what was just
read, or else with what was pending, and with the room that is left; the flush is the finish
flush exactly when the source was already marked exhausted or this call's read returned no
bytes. -/
def CallsFrom {σ : Type} (deflate : Deflate σ) (src : List Nat) :
    CodecPoint σ → List (DeflateCall σ) → CodecPoint σ → Prop
  | p, [], q => (p.ended = true ∨ p.room = 0) ∧ q = p
  | p, c :: rest, q =>
    p.ended = false ∧ 0 < p.room
    ∧ c.pulled = (if p.pending = [] ∧ p.exhausted = false then
        some ((src.drop p.position).take 4096) else none)
    ∧ c.state = p.state
    ∧ c.next_in = c.pulled.getD p.pending
    ∧ c.avail_out = p.room
    ∧ c.finish = (p.exhausted || decide (c.pulled = some []))
    ∧ CallsFrom deflate src (pointAfter deflate p c) rest q

/-- The bytes the encoder produced over a list of calls, in order. -/
def producedBy {σ : Type} (deflate : Deflate σ) : List (DeflateCall σ) → List Nat
  | [] => []
  | c :: rest => (deflate c.state c.next_in c.avail_out c.finish).output ++ producedBy deflate rest

/-- The point at which a call of `readCompressedData(data, size)` finds the codec. -/
def pointOf {σ : Type} (z : ZCodec σ) (size : Nat) : CodecPoint σ :=
  { state := z.state, pending := z.next_in, exhausted := z.mZInputExhausted,
    position := z.mVFile.mPosition.toNat, room := size, ended := false }

/-- An encoder that behaves as the given one and keeps, next to its state, the list of the
calls it has received (state, pending input, room, flush mode), oldest first. -/
def recordingEncoder {σ : Type} (deflate : Deflate σ) :
    Deflate (σ × List (σ × List Nat × Nat × Bool)) :=
  fun st inp avail_out finish =>
    { state := ((deflate st.1 inp avail_out finish).state,
        st.2 ++ [(st.1, inp, avail_out, finish)])
      consumed := (deflate st.1 inp avail_out finish).consumed
      output := (deflate st.1 inp avail_out finish).output
      stream_end := (deflate st.1 inp avail_out finish).stream_end }

/-- A sample encoder that stores its input unchanged: it copies as many pending bytes as there
is room for, and reports stream-end once it is asked to finish with nothing pending. -/
def storeEncoder : Deflate Unit :=
  fun _ inp avail_out finish =>
    { state := ()
      consumed := min inp.length avail_out
      output := inp.take avail_out
      stream_end := finish && decide (inp.length ≤ avail_out) }

/-- A codec as `prepareCompressedUpload` leaves it for the object asset 8 of the stocked
storage (bytes 4, 5): no pending input, source not exhausted, read handle at position 0. -/
def preparedCodec : ZCodec Unit :=
  { state := (), next_in := [], mZInputExhausted := false,
    mVFile := { mFileID := 8, mFileType := EType.AT_OBJECT, mMode := VFileMode.READ } }

/-- The three queues of the first state are those of the second. -/
def SameQueues (a b : LLHTTPAssetStorage) : Prop :=
  a.mPendingDownloads = b.mPendingDownloads
  ∧ a.mPendingUploads = b.mPendingUploads
  ∧ a.mPendingLocalUploads = b.mPendingLocalUploads

/-- The queues of `s2` differ from those of `s` at most by what one completion callback of the
base class removes: they are the same, or they are what `_callUploadCallbacks` or
`downloadCompleteCallback` leaves when called on the queues of `s`. -/
def UnqueuedByCallback (s s2 : LLHTTPAssetStorage) : Prop :=
  SameQueues s2 s
  ∨ (∃ s1 uuid type success, SameQueues s1 s
      ∧ SameQueues s2 (_callUploadCallbacks s1 uuid type success))
  ∨ (∃ s1 result uuid type, SameQueues s1 s
      ∧ SameQueues s2 (downloadCompleteCallback s1 result uuid type))

/-- From `s` to `s2` the trace only gained completion callbacks, and a queue whose class
gained none is as it was. -/
def QuietKeepsQueues (s s2 : LLHTTPAssetStorage) : Prop :=
  (∃ extra, uploadCallbacks s2.mTrace = uploadCallbacks s.mTrace ++ extra
    ∧ (extra = [] → s2.mPendingUploads = s.mPendingUploads
        ∧ s2.mPendingLocalUploads = s.mPendingLocalUploads))
  ∧ (∃ extra, downloadCallbacks s2.mTrace = downloadCallbacks s.mTrace ++ extra
    ∧ (extra = [] → s2.mPendingDownloads = s.mPendingDownloads))

/-! ## Theorems -/

/-- C1: when the local store reports that the asset does not exist, `storeAssetData` calls the
caller's callback (when one was supplied) at once with the nonexistent-file error and changes
nothing else: the three queues, the pending flags and the attached requests stay as they were,
whatever the temp, priority and store-local flags. -/
theorem storeAssetData_nonexistent (s : LLHTTPAssetStorage) (uuid : LLUUID) (type : EType)
    (callback : Option Nat) (user_data : Nat) (temp_file is_priority store_local : Bool)
    (requesting_agent_id : LLUUID)
    (h : LLVFS_getExists s.mVFS uuid type = false) :
    (storeAssetData s uuid type callback user_data temp_file is_priority store_local
        requesting_agent_id).mTrace
      = s.mTrace ++
        (match callback with
          | some cb => [Event.storeCallback cb uuid user_data
              LLErr.LL_ERR_ASSET_REQUEST_NONEXISTENT_FILE]
          | none => [])
    ∧ { storeAssetData s uuid type callback user_data temp_file is_priority store_local
          requesting_agent_id with mTrace := s.mTrace } = s := by
  unfold storeAssetData
  rw [h]
  cases callback <;> simp [emit]

/-- Witness for C1: a priority local store of an absent asset on a fresh storage. -/
theorem storeAssetData_nonexistent_witness :
    LLVFS_getExists freshStorage.mVFS 7 EType.AT_SOUND = false
    ∧ (storeAssetData freshStorage 7 EType.AT_SOUND (some 1) 42 true true true 5).mTrace
      = [Event.storeCallback 1 7 42 LLErr.LL_ERR_ASSET_REQUEST_NONEXISTENT_FILE]
    ∧ (storeAssetData freshStorage 7 EType.AT_SOUND (some 1) 42 true true true 5).mPendingUploads
      = []
    ∧ (storeAssetData freshStorage 7 EType.AT_SOUND (some 1) 42 true true true 5).mTransfers
      = [] := by
  have h := storeAssetData_nonexistent freshStorage 7 EType.AT_SOUND (some 1) 42 true true true 5
    (by decide)
  refine ⟨by decide, ?_, by decide, by decide⟩
  simpa [freshStorage, _init] using h.1

/-- Queue shape kept by download admissions: non-texture requests, then texture requests. -/
theorem nonTextureFirst_step (q : List LLAssetRequest) (req : LLAssetRequest)
    (hq : ∃ l1 l2 : List LLAssetRequest, q = l1 ++ l2
      ∧ (∀ a ∈ l1, a.mType ≠ EType.AT_TEXTURE) ∧ (∀ b ∈ l2, b.mType = EType.AT_TEXTURE)) :
    ∃ l1 l2 : List LLAssetRequest,
      (if req.mType = EType.AT_TEXTURE then q ++ [req] else req :: q) = l1 ++ l2
      ∧ (∀ a ∈ l1, a.mType ≠ EType.AT_TEXTURE) ∧ (∀ b ∈ l2, b.mType = EType.AT_TEXTURE) := by
  obtain ⟨l1, l2, rfl, h1, h2⟩ := hq
  by_cases ht : req.mType = EType.AT_TEXTURE
  · refine ⟨l1, l2 ++ [req], by simp [ht], h1, ?_⟩
    intro b hb
    rcases List.mem_append.mp hb with hb | hb
    · exact h2 b hb
    · simp only [List.mem_singleton] at hb
      rw [hb]; exact ht
  · refine ⟨req :: l1, l2, by simp [ht], ?_, h2⟩
    intro a ha
    rcases List.mem_cons.mp ha with ha | ha
    · rw [ha]; exact ht
    · exact h1 a ha

/-- The download queue after a sequence of admissions splits into non-texture requests
followed by texture requests, provided it did so before. -/
theorem nonTextureFirst_queueDataRequests (l : List DownloadAdmission)
    (s : LLHTTPAssetStorage)
    (hq : ∃ l1 l2 : List LLAssetRequest, s.mPendingDownloads = l1 ++ l2
      ∧ (∀ a ∈ l1, a.mType ≠ EType.AT_TEXTURE) ∧ (∀ b ∈ l2, b.mType = EType.AT_TEXTURE)) :
    ∃ l1 l2 : List LLAssetRequest, (queueDataRequests s l).mPendingDownloads = l1 ++ l2
      ∧ (∀ a ∈ l1, a.mType ≠ EType.AT_TEXTURE) ∧ (∀ b ∈ l2, b.mType = EType.AT_TEXTURE) := by
  induction l generalizing s with
  | nil => simpa [queueDataRequests] using hq
  | cons a rest ih =>
    have hstep := nonTextureFirst_step s.mPendingDownloads
      { mUUID := a.uuid, mType := a.type, mDownCallback := a.callback,
        mUserData := a.user_data, mIsPriority := a.is_priority } hq
    have := ih (_queueDataRequest s a.uuid a.type a.callback a.user_data a.duplicate
      a.is_priority) (by
        unfold _queueDataRequest
        by_cases ht : a.type = EType.AT_TEXTURE
        · simpa [ht] using hstep
        · simpa [ht] using hstep)
    simpa [queueDataRequests] using this

/-- In a list made of non-texture requests followed by texture requests, a non-texture entry
stands at a smaller index than any texture entry. -/
theorem nonTextureFirst_index (l1 l2 : List LLAssetRequest)
    (h1 : ∀ a ∈ l1, a.mType ≠ EType.AT_TEXTURE) (h2 : ∀ b ∈ l2, b.mType = EType.AT_TEXTURE)
    (i j : Nat) (a b : LLAssetRequest)
    (hi : (l1 ++ l2)[i]? = some a) (hj : (l1 ++ l2)[j]? = some b)
    (ha : a.mType ≠ EType.AT_TEXTURE) (hb : b.mType = EType.AT_TEXTURE) : i < j := by
  have hi1 : i < l1.length := by
    by_contra hge
    rw [List.getElem?_append_right (Nat.le_of_not_lt hge)] at hi
    exact ha (h2 a (List.getElem?_mem hi))
  have hj1 : l1.length ≤ j := by
    by_contra hlt
    rw [List.getElem?_append_left (Nat.lt_of_not_le hlt)] at hj
    exact h1 b (List.getElem?_mem hj) hb
  omega

/-- C3: `_queueDataRequest` puts a non-texture request at the front of the download queue and
a texture request at the back; hence after any sequence of download admissions that starts
from an empty queue, every non-texture request stands nearer the head (at a smaller index)
than every texture request. -/
theorem queueDataRequest_order (s : LLHTTPAssetStorage) (hempty : s.mPendingDownloads = []) :
    (∀ (st : LLHTTPAssetStorage) (uuid : LLUUID) (type : EType) (callback : Option Nat)
        (user_data : Nat) (duplicate is_priority : Bool),
      (type ≠ EType.AT_TEXTURE →
        _queueDataRequest st uuid type callback user_data duplicate is_priority
          = { st with mPendingDownloads :=
                { mUUID := uuid, mType := type, mDownCallback := callback,
                  mUserData := user_data, mIsPriority := is_priority }
                  :: st.mPendingDownloads })
      ∧ (type = EType.AT_TEXTURE →
        _queueDataRequest st uuid type callback user_data duplicate is_priority
          = { st with mPendingDownloads := st.mPendingDownloads ++
                [{ mUUID := uuid, mType := type, mDownCallback := callback,
                   mUserData := user_data, mIsPriority := is_priority }] }))
    ∧ ∀ (l : List DownloadAdmission) (i j : Nat) (a b : LLAssetRequest),
        (queueDataRequests s l).mPendingDownloads[i]? = some a →
        (queueDataRequests s l).mPendingDownloads[j]? = some b →
        a.mType ≠ EType.AT_TEXTURE → b.mType = EType.AT_TEXTURE → i < j := by
  constructor
  · intro st uuid type callback user_data duplicate is_priority
    constructor
    · intro ht
      simp [_queueDataRequest, ht]
    · intro ht
      simp [_queueDataRequest, ht]
  · intro l i j a b hi hj ha hb
    obtain ⟨l1, l2, hsplit, h1, h2⟩ := nonTextureFirst_queueDataRequests l s
      ⟨[], [], by simp [hempty], by simp, by simp⟩
    rw [hsplit] at hi hj
    exact nonTextureFirst_index l1 l2 h1 h2 i j a b hi hj ha hb

/-- Witness for C3: admitting texture 1, object 2, texture 3 on a fresh storage leaves the
object at the head, ahead of both textures. -/
theorem queueDataRequest_order_witness :
    freshStorage.mPendingDownloads = []
    ∧ ((queueDataRequests freshStorage
          [{ uuid := 1, type := EType.AT_TEXTURE }, { uuid := 2, type := EType.AT_OBJECT },
           { uuid := 3, type := EType.AT_TEXTURE }]).mPendingDownloads.map
        (fun r => r.mUUID)) = [2, 1, 3]
    ∧ (0 : Nat) < 1 :=
  ⟨by decide, by decide,
    (queueDataRequest_order freshStorage (by decide)).2
      [{ uuid := 1, type := EType.AT_TEXTURE }, { uuid := 2, type := EType.AT_OBJECT },
       { uuid := 3, type := EType.AT_TEXTURE }] 0 1
      { mUUID := 2, mType := EType.AT_OBJECT } { mUUID := 1, mType := EType.AT_TEXTURE }
      (by decide) (by decide) (by decide) (by decide)⟩

/-- C4: when the asset exists locally, `storeAssetData` enqueues exactly one request and does
nothing else: with store-local set it goes to the back of the local-upload queue whatever the
priority flag; otherwise a priority request goes to the front of the upload queue and an
ordinary one to its back. The requests already queued keep their order. -/
theorem storeAssetData_enqueue (s : LLHTTPAssetStorage) (uuid : LLUUID) (type : EType)
    (callback : Option Nat) (user_data : Nat) (temp_file is_priority store_local : Bool)
    (requesting_agent_id : LLUUID)
    (h : LLVFS_getExists s.mVFS uuid type = true) :
    (store_local = true →
      storeAssetData s uuid type callback user_data temp_file is_priority store_local
          requesting_agent_id
        = { s with mPendingLocalUploads := s.mPendingLocalUploads ++
              [{ mUUID := uuid, mType := type, mUpCallback := callback,
                 mUserData := user_data, mRequestingAgentID := requesting_agent_id }] })
    ∧ (store_local = false → is_priority = true →
      storeAssetData s uuid type callback user_data temp_file is_priority store_local
          requesting_agent_id
        = { s with mPendingUploads :=
              { mUUID := uuid, mType := type, mUpCallback := callback,
                mUserData := user_data, mRequestingAgentID := requesting_agent_id }
                :: s.mPendingUploads })
    ∧ (store_local = false → is_priority = false →
      storeAssetData s uuid type callback user_data temp_file is_priority store_local
          requesting_agent_id
        = { s with mPendingUploads := s.mPendingUploads ++
              [{ mUUID := uuid, mType := type, mUpCallback := callback,
                 mUserData := user_data, mRequestingAgentID := requesting_agent_id }] }) := by
  unfold storeAssetData
  rw [h]
  refine ⟨?_, ?_, ?_⟩
  · intro hl; simp [hl]
  · intro hl hp; simp [hl, hp]
  · intro hl hp; simp [hl, hp]

/-- Witness for C4: a priority store of the stocked sound asset goes to the front of the upload
queue, ahead of an ordinary store admitted before it. -/
theorem storeAssetData_enqueue_witness :
    LLVFS_getExists
      (storeAssetData stockedStorage 8 EType.AT_OBJECT none 0 false false false 0).mVFS
      7 EType.AT_SOUND = true
    ∧ (storeAssetData
        (storeAssetData stockedStorage 8 EType.AT_OBJECT none 0 false false false 0)
        7 EType.AT_SOUND (some 1) 42 false true false 5).mPendingUploads.map (fun r => r.mUUID)
      = [7, 8] := by
  refine ⟨by decide, ?_⟩
  rw [(storeAssetData_enqueue
    (storeAssetData stockedStorage 8 EType.AT_OBJECT none 0 false false false 0)
    7 EType.AT_SOUND (some 1) 42 false true false 5 (by decide)).2.1 rfl rfl]
  decide

/-- The download block either does nothing (empty queue or flag raised) or attaches one new
download request for the head of the queue, raising the flag; the queues are untouched. -/
theorem promoteDownload_eq (X : Externals) (s : LLHTTPAssetStorage) (t : LLUUID) :
    (∃ tr : LLHTTPAssetRequest, promoteDownload X s t =
      { s with mNextHandle := s.mNextHandle + 1, mPendingDownload := true,
               mTransfers := s.mTransfers ++ [tr] }
      ∧ tr.mCurlHandle = some s.mNextHandle ∧ tr.mIsDownload = true ∧ tr.mIsUpload = false
      ∧ tr.mIsLocalUpload = false ∧ tr.mAssetStoragep = true
      ∧ ∃ r rest, s.mPendingDownloads = r :: rest ∧ s.mPendingDownload = false
          ∧ tr.mUUID = r.mUUID ∧ tr.mType = r.mType)
    ∨ (promoteDownload X s t = s ∧ (s.mPendingDownloads = [] ∨ s.mPendingDownload = true)) := by
  unfold promoteDownload
  cases hq : s.mPendingDownloads with
  | nil => right; simp
  | cons r rest =>
    cases hf : s.mPendingDownload with
    | true => right; simp
    | false =>
      left
      simp [setupCurlHandle, curl_multi_add_handle, LLHTTPAssetRequest_new]
      exact ⟨_, ⟨hq, rfl⟩, rfl, rfl, rfl, rfl, rfl, rfl, rfl⟩

/-- The upload block either does nothing or attaches one new upload request for the head of
the upload queue, raising the flag; the queues are untouched. -/
theorem promoteUpload_eq (X : Externals) (s : LLHTTPAssetStorage) :
    (∃ tr : LLHTTPAssetRequest, promoteUpload X s =
      { s with mNextHandle := s.mNextHandle + 1, mPendingUpload := true,
               mTransfers := s.mTransfers ++ [tr] }
      ∧ tr.mCurlHandle = some s.mNextHandle ∧ tr.mIsUpload = true
      ∧ tr.mIsLocalUpload = false ∧ tr.mAssetStoragep = true
      ∧ ∃ r rest, s.mPendingUploads = r :: rest ∧ s.mPendingUpload = false
          ∧ tr.mUUID = r.mUUID ∧ tr.mType = r.mType)
    ∨ (promoteUpload X s = s ∧ (s.mPendingUploads = [] ∨ s.mPendingUpload = true)) := by
  unfold promoteUpload
  cases hq : s.mPendingUploads with
  | nil => right; simp
  | cons r rest =>
    cases hf : s.mPendingUpload with
    | true => right; simp
    | false =>
      left
      by_cases hc : r.mType = EType.AT_OBJECT
      · simp [setupCurlHandle, curl_multi_add_handle, LLHTTPAssetRequest_new,
          prepareCompressedUpload, hc]
        exact ⟨_, ⟨hq, rfl⟩, rfl, rfl, rfl, rfl, rfl, rfl⟩
      · simp [setupCurlHandle, curl_multi_add_handle, LLHTTPAssetRequest_new,
          prepareCompressedUpload, hc]
        exact ⟨_, ⟨hq, rfl⟩, rfl, rfl, rfl, rfl, rfl, rfl⟩

/-- The local-upload block either does nothing or attaches one new local-upload request for
the head of the local-upload queue, raising the flag; the queues are untouched. -/
theorem promoteLocalUpload_eq (X : Externals) (s : LLHTTPAssetStorage) :
    (∃ tr : LLHTTPAssetRequest, promoteLocalUpload X s =
      { s with mNextHandle := s.mNextHandle + 1, mPendingLocalUpload := true,
               mTransfers := s.mTransfers ++ [tr] }
      ∧ tr.mCurlHandle = some s.mNextHandle ∧ tr.mIsUpload = false
      ∧ tr.mIsLocalUpload = true ∧ tr.mAssetStoragep = true
      ∧ ∃ r rest, s.mPendingLocalUploads = r :: rest ∧ s.mPendingLocalUpload = false
          ∧ tr.mUUID = r.mUUID ∧ tr.mType = r.mType
          ∧ tr.mRequestingAgentID = r.mRequestingAgentID)
    ∨ (promoteLocalUpload X s = s
        ∧ (s.mPendingLocalUploads = [] ∨ s.mPendingLocalUpload = true)) := by
  unfold promoteLocalUpload
  cases hq : s.mPendingLocalUploads with
  | nil => right; simp
  | cons r rest =>
    cases hf : s.mPendingLocalUpload with
    | true => right; simp
    | false =>
      left
      simp [setupCurlHandle, curl_multi_add_handle, LLHTTPAssetRequest_new]
      exact ⟨_, ⟨hq, rfl⟩, rfl, rfl, rfl, rfl, rfl, rfl, rfl⟩

/-- Frame of the download block: queues and the other two flags are kept; when it fires, the
download flag is raised and one request for the queue head is attached. -/
theorem promoteDownload_frame (X : Externals) (s : LLHTTPAssetStorage) (t : LLUUID) :
    (promoteDownload X s t).mPendingDownloads = s.mPendingDownloads
    ∧ (promoteDownload X s t).mPendingUploads = s.mPendingUploads
    ∧ (promoteDownload X s t).mPendingLocalUploads = s.mPendingLocalUploads
    ∧ (promoteDownload X s t).mPendingUpload = s.mPendingUpload
    ∧ (promoteDownload X s t).mPendingLocalUpload = s.mPendingLocalUpload
    ∧ ∃ new, (promoteDownload X s t).mTransfers = s.mTransfers ++ new
      ∧ ∀ r rest, s.mPendingDownloads = r :: rest → s.mPendingDownload = false →
          (promoteDownload X s t).mPendingDownload = true
          ∧ ∃ tr ∈ new, tr.mUUID = r.mUUID ∧ tr.mType = r.mType ∧ tr.mIsDownload = true
              ∧ tr.mCurlHandle = some s.mNextHandle := by
  rcases promoteDownload_eq X s t with ⟨tr, heq, hh, hd, _, _, _, r0, rest0, hq0, _, hu, ht⟩ | ⟨heq, hno⟩
  · rw [heq]
    refine ⟨rfl, rfl, rfl, rfl, rfl, [tr], rfl, ?_⟩
    intro r rest hq _
    rw [hq0] at hq
    injection hq with h1 _
    subst h1
    exact ⟨rfl, tr, by simp, hu, ht, hd, hh⟩
  · rw [heq]
    refine ⟨rfl, rfl, rfl, rfl, rfl, [], by simp, ?_⟩
    intro r rest hq hf
    rcases hno with h | h
    · rw [h] at hq; cases hq
    · rw [h] at hf; cases hf

/-- Frame of the upload block. -/
theorem promoteUpload_frame (X : Externals) (s : LLHTTPAssetStorage) :
    (promoteUpload X s).mPendingDownloads = s.mPendingDownloads
    ∧ (promoteUpload X s).mPendingUploads = s.mPendingUploads
    ∧ (promoteUpload X s).mPendingLocalUploads = s.mPendingLocalUploads
    ∧ (promoteUpload X s).mPendingDownload = s.mPendingDownload
    ∧ (promoteUpload X s).mPendingLocalUpload = s.mPendingLocalUpload
    ∧ ∃ new, (promoteUpload X s).mTransfers = s.mTransfers ++ new
      ∧ ∀ r rest, s.mPendingUploads = r :: rest → s.mPendingUpload = false →
          (promoteUpload X s).mPendingUpload = true
          ∧ ∃ tr ∈ new, tr.mUUID = r.mUUID ∧ tr.mType = r.mType ∧ tr.mIsUpload = true
              ∧ tr.mCurlHandle = some s.mNextHandle := by
  rcases promoteUpload_eq X s with ⟨tr, heq, hh, hd, _, _, r0, rest0, hq0, _, hu, ht⟩ | ⟨heq, hno⟩
  · rw [heq]
    refine ⟨rfl, rfl, rfl, rfl, rfl, [tr], rfl, ?_⟩
    intro r rest hq _
    rw [hq0] at hq
    injection hq with h1 _
    subst h1
    exact ⟨rfl, tr, by simp, hu, ht, hd, hh⟩
  · rw [heq]
    refine ⟨rfl, rfl, rfl, rfl, rfl, [], by simp, ?_⟩
    intro r rest hq hf
    rcases hno with h | h
    · rw [h] at hq; cases hq
    · rw [h] at hf; cases hf

/-- Frame of the local-upload block. -/
theorem promoteLocalUpload_frame (X : Externals) (s : LLHTTPAssetStorage) :
    (promoteLocalUpload X s).mPendingDownloads = s.mPendingDownloads
    ∧ (promoteLocalUpload X s).mPendingUploads = s.mPendingUploads
    ∧ (promoteLocalUpload X s).mPendingLocalUploads = s.mPendingLocalUploads
    ∧ (promoteLocalUpload X s).mPendingDownload = s.mPendingDownload
    ∧ (promoteLocalUpload X s).mPendingUpload = s.mPendingUpload
    ∧ ∃ new, (promoteLocalUpload X s).mTransfers = s.mTransfers ++ new
      ∧ ∀ r rest, s.mPendingLocalUploads = r :: rest → s.mPendingLocalUpload = false →
          (promoteLocalUpload X s).mPendingLocalUpload = true
          ∧ ∃ tr ∈ new, tr.mUUID = r.mUUID ∧ tr.mType = r.mType ∧ tr.mIsLocalUpload = true
              ∧ tr.mIsUpload = false ∧ tr.mRequestingAgentID = r.mRequestingAgentID
              ∧ tr.mCurlHandle = some s.mNextHandle := by
  rcases promoteLocalUpload_eq X s with
    ⟨tr, heq, hh, hnu, hd, _, r0, rest0, hq0, _, hu, ht, ha⟩ | ⟨heq, hno⟩
  · rw [heq]
    refine ⟨rfl, rfl, rfl, rfl, rfl, [tr], rfl, ?_⟩
    intro r rest hq _
    rw [hq0] at hq
    injection hq with h1 _
    subst h1
    exact ⟨rfl, tr, by simp, hu, ht, hd, hnu, ha, hh⟩
  · rw [heq]
    refine ⟨rfl, rfl, rfl, rfl, rfl, [], by simp, ?_⟩
    intro r rest hq hf
    rcases hno with h | h
    · rw [h] at hq; cases hq
    · rw [h] at hf; cases hf

/-- What the three promotion blocks do together: the queues are kept, and each class whose
queue is non-empty and whose flag is clear gets one new request for its queue head. -/
theorem promotePending_spec (X : Externals) (s : LLHTTPAssetStorage) (t : LLUUID) :
    (promotePending X s t).mPendingDownloads = s.mPendingDownloads
    ∧ (promotePending X s t).mPendingUploads = s.mPendingUploads
    ∧ (promotePending X s t).mPendingLocalUploads = s.mPendingLocalUploads
    ∧ ∃ new, (promotePending X s t).mTransfers = s.mTransfers ++ new
      ∧ (∀ r rest, s.mPendingDownloads = r :: rest → s.mPendingDownload = false →
          (promotePending X s t).mPendingDownload = true
          ∧ ∃ tr ∈ new, tr.mUUID = r.mUUID ∧ tr.mType = r.mType ∧ tr.mIsDownload = true
              ∧ tr.mCurlHandle.isSome = true)
      ∧ (∀ r rest, s.mPendingUploads = r :: rest → s.mPendingUpload = false →
          (promotePending X s t).mPendingUpload = true
          ∧ ∃ tr ∈ new, tr.mUUID = r.mUUID ∧ tr.mType = r.mType ∧ tr.mIsUpload = true
              ∧ tr.mCurlHandle.isSome = true)
      ∧ (∀ r rest, s.mPendingLocalUploads = r :: rest → s.mPendingLocalUpload = false →
          (promotePending X s t).mPendingLocalUpload = true
          ∧ ∃ tr ∈ new, tr.mUUID = r.mUUID ∧ tr.mType = r.mType ∧ tr.mIsLocalUpload = true
              ∧ tr.mCurlHandle.isSome = true) := by
  obtain ⟨d1, d2, d3, d4, d5, nd, dT, dP⟩ := promoteDownload_frame X s t
  obtain ⟨u1, u2, u3, u4, u5, nu, uT, uP⟩ := promoteUpload_frame X (promoteDownload X s t)
  obtain ⟨l1, l2, l3, l4, l5, nl, lT, lP⟩ :=
    promoteLocalUpload_frame X (promoteUpload X (promoteDownload X s t))
  unfold promotePending
  refine ⟨by rw [l1, u1, d1], by rw [l2, u2, d2], by rw [l3, u3, d3], nd ++ nu ++ nl,
    by rw [lT, uT, dT]; simp, ?_, ?_, ?_⟩
  · intro r rest hq hf
    obtain ⟨hflag, tr, hmem, h1, h2, h3, h4⟩ := dP r rest hq hf
    refine ⟨by rw [l4, u4, hflag], tr, by simp [hmem], h1, h2, h3, by simp [h4]⟩
  · intro r rest hq hf
    obtain ⟨hflag, tr, hmem, h1, h2, h3, h4⟩ := uP r rest (by rw [d2]; exact hq)
      (by rw [d4]; exact hf)
    refine ⟨by rw [l5, hflag], tr, by simp [hmem], h1, h2, h3, by simp [h4]⟩
  · intro r rest hq hf
    obtain ⟨hflag, tr, hmem, h1, h2, h3, _, _, h4⟩ := lP r rest (by rw [u3, d3]; exact hq)
      (by rw [u5, d5]; exact hf)
    exact ⟨hflag, tr, by simp [hmem], h1, h2, h3, by simp [h4]⟩

/-- C5, counterexample: on a storage with two queued downloads and the download flag clear,
the promotion step (and a whole tick without completions) leaves the download queue at length
two with the same head, not one element shorter with the former second element at the head. -/
theorem promotion_pops_head_counterexample :
    queuedStorage.mPendingDownloads.map (fun r => r.mUUID) = [2, 1]
    ∧ queuedStorage.mPendingDownload = false
    ∧ ¬ ((promotePending sampleExternals queuedStorage 100).mPendingDownloads.length + 1
          = queuedStorage.mPendingDownloads.length
        ∧ (promotePending sampleExternals queuedStorage 100).mPendingDownloads.head?
          = queuedStorage.mPendingDownloads[1]?)
    ∧ (checkForTimeouts sampleExternals queuedStorage
        { tmp_uuid := 100, calls := [], msgs := [] }).mPendingDownloads.map (fun r => r.mUUID)
      = [2, 1] := by
  decide


/-! ### Effects of the collaborators on the observed state -/

theorem emit_mTrace (s : LLHTTPAssetStorage) (e : Event) :
    (emit s e).mTrace = s.mTrace ++ [e] := rfl

theorem uploadCallbacks_append (t u : List Event) :
    uploadCallbacks (t ++ u) = uploadCallbacks t ++ uploadCallbacks u := by
  simp [uploadCallbacks, List.filterMap_append]

theorem downloadCallbacks_append (t u : List Event) :
    downloadCallbacks (t ++ u) = downloadCallbacks t ++ downloadCallbacks u := by
  simp [downloadCallbacks, List.filterMap_append]

theorem renames_append (t u : List Event) :
    renames (t ++ u) = renames t ++ renames u := by
  simp [renames, List.filterMap_append]

/-- The destructor adds at most a fatal-error record to the trace and touches neither the
queues, nor the temp-asset map, nor the virtual file system. -/
theorem delete_frame (s : LLHTTPAssetStorage) (req : LLHTTPAssetRequest) :
    (LLHTTPAssetRequest_delete s req).mPendingDownloads = s.mPendingDownloads
    ∧ (LLHTTPAssetRequest_delete s req).mPendingUploads = s.mPendingUploads
    ∧ (LLHTTPAssetRequest_delete s req).mPendingLocalUploads = s.mPendingLocalUploads
    ∧ (LLHTTPAssetRequest_delete s req).mTempAssets = s.mTempAssets
    ∧ (LLHTTPAssetRequest_delete s req).mVFS = s.mVFS
    ∧ (LLHTTPAssetRequest_delete s req).mNextHandle = s.mNextHandle
    ∧ uploadCallbacks (LLHTTPAssetRequest_delete s req).mTrace = uploadCallbacks s.mTrace
    ∧ downloadCallbacks (LLHTTPAssetRequest_delete s req).mTrace = downloadCallbacks s.mTrace
    ∧ renames (LLHTTPAssetRequest_delete s req).mTrace = renames s.mTrace := by
  unfold LLHTTPAssetRequest_delete
  cases req.mCurlHandle with
  | none => simp
  | some h =>
    cases req.mAssetStoragep <;> cases req.mIsUpload <;> cases req.mIsLocalUpload <;>
      cases req.mIsDownload <;>
      simp [curl_multi_remove_handle, emit, uploadCallbacks, downloadCallbacks, renames,
        List.filterMap_append]

/-- The destructor of a request with a handle, a storage pointer and a direction flag records
nothing, detaches the handle and clears the flag of the request's class only. -/
theorem delete_flags (s : LLHTTPAssetStorage) (req : LLHTTPAssetRequest) (h : Nat)
    (hh : req.mCurlHandle = some h) (hs : req.mAssetStoragep = true)
    (hc : req.mIsUpload = true ∨ req.mIsLocalUpload = true ∨ req.mIsDownload = true) :
    (LLHTTPAssetRequest_delete s req).mTrace = s.mTrace
    ∧ (LLHTTPAssetRequest_delete s req).mTransfers
        = s.mTransfers.filter (fun r => decide (r.mCurlHandle ≠ some h))
    ∧ (req.mIsUpload = true → (LLHTTPAssetRequest_delete s req).mPendingUpload = false)
    ∧ (req.mIsUpload = false → req.mIsLocalUpload = true →
        (LLHTTPAssetRequest_delete s req).mPendingLocalUpload = false)
    ∧ (req.mIsUpload = false → req.mIsLocalUpload = false →
        (LLHTTPAssetRequest_delete s req).mPendingDownload = false) := by
  unfold LLHTTPAssetRequest_delete
  rw [hh]
  cases hu : req.mIsUpload <;> cases hl : req.mIsLocalUpload <;> cases hd : req.mIsDownload <;>
    simp_all [curl_multi_remove_handle]

/-- A request found by its handle carries that handle. -/
theorem findTransfer_handle (s : LLHTTPAssetStorage) (h : Nat) (req : LLHTTPAssetRequest)
    (hfind : findTransfer s h = some req) : req.mCurlHandle = some h := by
  unfold findTransfer at hfind
  have := List.find?_some hfind
  simpa using this

/-- After the handle is detached no request is found under it. -/
theorem findTransfer_filter (l : List LLHTTPAssetRequest) (h : Nat) :
    (l.filter (fun r => decide (r.mCurlHandle ≠ some h))).find?
      (fun r => decide (r.mCurlHandle = some h)) = none := by
  rw [List.find?_eq_none]
  intro r hr
  have := (List.mem_filter.mp hr).2
  simpa using this

theorem addTempAssetData_frame (s : LLHTTPAssetStorage) (a g : LLUUID) (hn : String) :
    (addTempAssetData s a g hn).mTrace = s.mTrace
    ∧ (addTempAssetData s a g hn).mPendingDownloads = s.mPendingDownloads
    ∧ (addTempAssetData s a g hn).mPendingUploads = s.mPendingUploads
    ∧ (addTempAssetData s a g hn).mPendingLocalUploads = s.mPendingLocalUploads
    ∧ (addTempAssetData s a g hn).mVFS = s.mVFS := by
  unfold addTempAssetData
  split <;> simp

/-- Looking up a key just assigned yields the assigned entry. -/
theorem lookup_tempAssign (k : LLUUID) (v : LLTempAssetData)
    (m : List (LLUUID × LLTempAssetData)) :
    (tempAssign k v m).lookup k = some v := by
  induction m with
  | nil => simp [tempAssign, List.lookup]
  | cons e rest ih =>
    obtain ⟨k1, v1⟩ := e
    unfold tempAssign
    by_cases h1 : k < k1
    · simp [h1, List.lookup]
    · by_cases h2 : k = k1
      · simp [h2, List.lookup]
      · have h3 : (k == k1) = false := by simpa using h2
        simp [h1, h2, List.lookup, h3, ih]


/-- C6: a completed upload or local-upload whose outcome is not transient (transport result
neither could-not-connect nor operation-timed-out, HTTP status neither 502 nor 503) leads to
exactly one call of the shared upload-complete path, for the request's asset, with the success
flag true exactly when the transport result is OK and the HTTP status is 200, 201 or 204. -/
theorem upload_completion_callback (s : LLHTTPAssetStorage) (m : CURLMsg)
    (req : LLHTTPAssetRequest)
    (hdone : m.msg = CURLMSG.CURLMSG_DONE)
    (hfind : findTransfer s m.easy_handle = some req)
    (hclass : req.mIsUpload = true ∨ req.mIsLocalUpload = true)
    (hconn : m.result ≠ CURLcode.CURLE_COULDNT_CONNECT)
    (htime : m.result ≠ CURLcode.CURLE_OPERATION_TIMEOUTED)
    (h502 : m.http_code ≠ 502) (h503 : m.http_code ≠ 503) :
    uploadCallbacks (handleMsg s m).mTrace
      = uploadCallbacks s.mTrace ++
        [(req.mUUID, req.mType,
          decide (m.result = CURLcode.CURLE_OK
            ∧ (m.http_code = 200 ∨ m.http_code = 201 ∨ m.http_code = 204)))] := by
  have hor : (req.mIsUpload || req.mIsLocalUpload) = true := by
    rcases hclass with h | h <;> simp [h]
  unfold handleMsg
  simp only [hdone, if_true, hfind, hor]
  rw [(delete_frame _ req).2.2.2.2.2.2.1]
  unfold uploadDone
  simp only [HTTP_OK, HTTP_PUT_OK, HTTP_NO_CONTENT, HTTP_SERVER_BAD_GATEWAY,
    HTTP_SERVER_TEMP_UNAVAILABLE, hconn, htime, h502, h503, or_self, not_false_eq_true, if_true,
    if_false]
  by_cases hok : m.result = CURLcode.CURLE_OK
      ∧ (m.http_code = 200 ∨ m.http_code = 201 ∨ m.http_code = 204)
  · rw [if_pos hok]
    cases hl : req.mIsLocalUpload <;>
      simp [_callUploadCallbacks, emit, uploadCallbacks_append, hok,
        (addTempAssetData_frame s req.mUUID req.mRequestingAgentID s.mHostName).1] <;>
      simp [uploadCallbacks]
  · rw [if_neg hok]
    simp [_callUploadCallbacks, emit, uploadCallbacks_append, hok]
    simp [uploadCallbacks]


/-- C7: when a completed upload or local-upload has a transient outcome (transport result
could-not-connect or operation-timed-out, or HTTP status 502 or 503), no callback is called,
the three queues stay as they were, the Transfer is destroyed and its class's flag is cleared,
so that the promotion step of the next tick starts a new Transfer for the head of that class's
queue; and such an outcome is never the success outcome. -/
theorem upload_transient_retry (X : Externals) (t : LLUUID) (s : LLHTTPAssetStorage)
    (m : CURLMsg) (req : LLHTTPAssetRequest)
    (hdone : m.msg = CURLMSG.CURLMSG_DONE)
    (hfind : findTransfer s m.easy_handle = some req)
    (hclass : req.mIsUpload = true ∨ req.mIsLocalUpload = true)
    (hstore : req.mAssetStoragep = true)
    (htrans : m.result = CURLcode.CURLE_COULDNT_CONNECT
      ∨ m.result = CURLcode.CURLE_OPERATION_TIMEOUTED
      ∨ m.http_code = 502 ∨ m.http_code = 503) :
    (handleMsg s m).mTrace = s.mTrace
    ∧ (handleMsg s m).mPendingUploads = s.mPendingUploads
    ∧ (handleMsg s m).mPendingLocalUploads = s.mPendingLocalUploads
    ∧ (handleMsg s m).mPendingDownloads = s.mPendingDownloads
    ∧ findTransfer (handleMsg s m) m.easy_handle = none
    ∧ (req.mIsUpload = true →
        (handleMsg s m).mPendingUpload = false
        ∧ ∀ r rest, s.mPendingUploads = r :: rest →
          ∃ new, (promotePending X (handleMsg s m) t).mTransfers
              = (handleMsg s m).mTransfers ++ new
            ∧ ∃ tr ∈ new, tr.mUUID = r.mUUID ∧ tr.mType = r.mType ∧ tr.mIsUpload = true
                ∧ tr.mCurlHandle.isSome = true)
    ∧ (req.mIsUpload = false →
        (handleMsg s m).mPendingLocalUpload = false
        ∧ ∀ r rest, s.mPendingLocalUploads = r :: rest →
          ∃ new, (promotePending X (handleMsg s m) t).mTransfers
              = (handleMsg s m).mTransfers ++ new
            ∧ ∃ tr ∈ new, tr.mUUID = r.mUUID ∧ tr.mType = r.mType ∧ tr.mIsLocalUpload = true
                ∧ tr.mCurlHandle.isSome = true)
    ∧ ¬ (m.result = CURLcode.CURLE_OK
        ∧ (m.http_code = 200 ∨ m.http_code = 201 ∨ m.http_code = 204)) := by
  have hor : (req.mIsUpload || req.mIsLocalUpload) = true := by
    rcases hclass with h | h <;> simp [h]
  have hnok : ¬ (m.result = CURLcode.CURLE_OK
      ∧ (m.http_code = 200 ∨ m.http_code = 201 ∨ m.http_code = 204)) := by
    rintro ⟨h1, h2⟩
    rcases htrans with h | h | h | h
    · rw [h1] at h; cases h
    · rw [h1] at h; cases h
    · rcases h2 with h2 | h2 | h2 <;> omega
    · rcases h2 with h2 | h2 | h2 <;> omega
  have hup : uploadDone s req m = s := by
    unfold uploadDone
    simp only [HTTP_OK, HTTP_PUT_OK, HTTP_NO_CONTENT, HTTP_SERVER_BAD_GATEWAY,
      HTTP_SERVER_TEMP_UNAVAILABLE]
    rw [if_neg hnok, if_pos htrans]
    simp [htrans]
  have hh := findTransfer_handle s m.easy_handle req hfind
  have hres : handleMsg s m = LLHTTPAssetRequest_delete s req := by
    unfold handleMsg
    simp only [hdone, if_true, hfind, hor, hup]
  obtain ⟨q1, q2, q3, _, _, _, _, _, _⟩ := delete_frame s req
  obtain ⟨f1, f2, f3, f4, _⟩ := delete_flags s req m.easy_handle hh hstore
    (by rcases hclass with h | h <;> simp [h])
  rw [hres]
  refine ⟨f1, q2, q3, q1, ?_, ?_, ?_, hnok⟩
  · unfold findTransfer
    rw [f2]
    exact findTransfer_filter s.mTransfers m.easy_handle
  · intro hu
    refine ⟨f3 hu, ?_⟩
    intro r rest hq
    obtain ⟨_, _, _, new, hT, _, hU, _⟩ := promotePending_spec X (LLHTTPAssetRequest_delete s req) t
    obtain ⟨_, tr, hmem, h1, h2, h3, h4⟩ := hU r rest (by rw [q2]; exact hq) (f3 hu)
    exact ⟨new, hT, tr, hmem, h1, h2, h3, h4⟩
  · intro hu
    have hl : req.mIsLocalUpload = true := by
      rcases hclass with h | h
      · rw [hu] at h; cases h
      · exact h
    refine ⟨f4 hu hl, ?_⟩
    intro r rest hq
    obtain ⟨_, _, _, new, hT, _, _, hL⟩ := promotePending_spec X (LLHTTPAssetRequest_delete s req) t
    obtain ⟨_, tr, hmem, h1, h2, h3, h4⟩ := hL r rest (by rw [q3]; exact hq) (f4 hu hl)
    exact ⟨new, hT, tr, hmem, h1, h2, h3, h4⟩


/-- The temp-asset map after the upload branch of the completion loop: an entry is assigned
only on success of a request with `mIsLocalUpload`. -/
theorem uploadDone_tempAssets (s : LLHTTPAssetStorage) (req : LLHTTPAssetRequest)
    (m : CURLMsg) :
    (uploadDone s req m).mTempAssets
      = if (m.result = CURLcode.CURLE_OK
            ∧ (m.http_code = 200 ∨ m.http_code = 201 ∨ m.http_code = 204))
          ∧ req.mIsLocalUpload = true then
          (addTempAssetData s req.mUUID req.mRequestingAgentID s.mHostName).mTempAssets
        else s.mTempAssets := by
  have hcb : ∀ (st : LLHTTPAssetStorage) (u : LLUUID) (ty : EType) (b : Bool),
      (_callUploadCallbacks st u ty b).mTempAssets = st.mTempAssets := by
    intro st u ty b; rfl
  unfold uploadDone
  simp only [HTTP_OK, HTTP_PUT_OK, HTTP_NO_CONTENT, HTTP_SERVER_BAD_GATEWAY,
    HTTP_SERVER_TEMP_UNAVAILABLE]
  by_cases hok : m.result = CURLcode.CURLE_OK
      ∧ (m.http_code = 200 ∨ m.http_code = 201 ∨ m.http_code = 204)
  · by_cases htr : m.result = CURLcode.CURLE_COULDNT_CONNECT
        ∨ m.result = CURLcode.CURLE_OPERATION_TIMEOUTED
        ∨ m.http_code = 502 ∨ m.http_code = 503
    · cases hl : req.mIsLocalUpload <;> simp [hok, htr, hcb] <;> (split <;> rfl)
    · cases hl : req.mIsLocalUpload <;> simp [hok, htr, hcb] <;> (split <;> rfl)
  · by_cases htr : m.result = CURLcode.CURLE_COULDNT_CONNECT
        ∨ m.result = CURLcode.CURLE_OPERATION_TIMEOUTED
        ∨ m.http_code = 502 ∨ m.http_code = 503
    · simp [hok, htr, hcb]
    · simp [hok, htr, hcb]

/-- C8 (amended): after a local-upload completes successfully (transport OK and HTTP status
200, 201 or 204) with a non-null asset id and a non-null requesting-agent id, the temp-asset
map holds an entry for the asset id whose agent is the request's requesting agent and whose
host name is the storage's own host name. When either id is null the map is left as it was; a
plain upload success and every unsuccessful upload leave it as it was too. -/
theorem local_upload_registers (s : LLHTTPAssetStorage) (m : CURLMsg)
    (req : LLHTTPAssetRequest)
    (hdone : m.msg = CURLMSG.CURLMSG_DONE)
    (hfind : findTransfer s m.easy_handle = some req)
    (hclass : req.mIsUpload = true ∨ req.mIsLocalUpload = true) :
    (m.result = CURLcode.CURLE_OK
        ∧ (m.http_code = 200 ∨ m.http_code = 201 ∨ m.http_code = 204) →
      req.mIsLocalUpload = true → req.mUUID ≠ LLUUID_null →
      req.mRequestingAgentID ≠ LLUUID_null →
        hasTempAssetData (handleMsg s m) req.mUUID = true
        ∧ getTempAssetAgentID (handleMsg s m) req.mUUID = req.mRequestingAgentID
        ∧ getTempAssetHostName (handleMsg s m) req.mUUID = s.mHostName)
    ∧ (req.mUUID = LLUUID_null ∨ req.mRequestingAgentID = LLUUID_null →
        (handleMsg s m).mTempAssets = s.mTempAssets)
    ∧ (req.mIsLocalUpload = false → (handleMsg s m).mTempAssets = s.mTempAssets)
    ∧ (¬ (m.result = CURLcode.CURLE_OK
          ∧ (m.http_code = 200 ∨ m.http_code = 201 ∨ m.http_code = 204)) →
        (handleMsg s m).mTempAssets = s.mTempAssets) := by
  have hor : (req.mIsUpload || req.mIsLocalUpload) = true := by
    rcases hclass with h | h <;> simp [h]
  have hres : (handleMsg s m).mTempAssets = (uploadDone s req m).mTempAssets := by
    unfold handleMsg
    simp only [hdone, if_true, hfind, hor]
    exact (delete_frame _ req).2.2.2.1
  simp only [hasTempAssetData, getTempAssetAgentID, getTempAssetHostName, hres,
    uploadDone_tempAssets]
  refine ⟨?_, ?_, ?_, ?_⟩
  · intro hok hl hid hag
    have hnull : (isNull req.mRequestingAgentID || isNull req.mUUID) = false := by
      simp [isNull, hid, hag]
    rw [if_pos ⟨hok, hl⟩]
    simp [addTempAssetData, hnull, lookup_tempAssign]
  · intro hnull
    have hnull2 : (isNull req.mRequestingAgentID || isNull req.mUUID) = true := by
      rcases hnull with h | h <;> simp [isNull, h]
    split <;> simp [addTempAssetData, hnull2]
  · intro hl
    rw [if_neg (fun h => by rw [hl] at h; exact Bool.false_ne_true h.2)]
  · intro hok
    rw [if_neg (fun h => hok h.1)]

/-- C9: on completion of a download the staged file is renamed to the request's
(asset id, asset type) exactly when the HTTP status is 200, the transport result is OK and the
staged byte count is positive; in that case the download-complete callback is called once with
the success code, and otherwise it is called once with an error code and nothing is renamed.
The staged file is the one the write callback opens under the scratch id with type none. -/
theorem download_completion (s : LLHTTPAssetStorage) (m : CURLMsg)
    (req : LLHTTPAssetRequest)
    (hdone : m.msg = CURLMSG.CURLMSG_DONE)
    (hfind : findTransfer s m.easy_handle = some req)
    (hup : req.mIsUpload = false) (hloc : req.mIsLocalUpload = false)
    (hdown : req.mIsDownload = true) :
    (∀ f, req.mVFile = some f → m.http_code = 200 → m.result = CURLcode.CURLE_OK →
        0 < LLVFS_getSize s.mVFS f.mFileID f.mFileType →
      renames (handleMsg s m).mTrace
          = renames s.mTrace ++ [(f.mFileID, f.mFileType, req.mUUID, req.mType)]
      ∧ (handleMsg s m).mVFS
          = LLVFS_renameFile s.mVFS f.mFileID f.mFileType req.mUUID req.mType
      ∧ downloadCallbacks (handleMsg s m).mTrace
          = downloadCallbacks s.mTrace ++ [(LLErr.LL_ERR_NOERR, req.mUUID, req.mType)])
    ∧ (¬ (m.http_code = 200 ∧ m.result = CURLcode.CURLE_OK
          ∧ ∃ f, req.mVFile = some f ∧ 0 < LLVFS_getSize s.mVFS f.mFileID f.mFileType) →
      renames (handleMsg s m).mTrace = renames s.mTrace
      ∧ ∃ err, err ≠ LLErr.LL_ERR_NOERR
        ∧ downloadCallbacks (handleMsg s m).mTrace
            = downloadCallbacks s.mTrace ++ [(err, req.mUUID, req.mType)])
    ∧ (∀ c : WriteCall, c.handle = m.easy_handle → req.mVFile = none →
        ∃ r2, findTransfer (curlDownCallback s c) m.easy_handle = some r2
          ∧ r2.mVFile = some { mFileID := req.mTmpUUID, mFileType := EType.AT_NONE,
                               mMode := VFileMode.APPEND }) := by
  have hres : handleMsg s m = LLHTTPAssetRequest_delete (downloadDone s req m) req := by
    unfold handleMsg
    simp only [hdone, if_true, hfind, hup, hloc, hdown, Bool.or_self, Bool.false_eq_true,
      if_false]
  obtain ⟨_, _, _, _, dV, _, _, dD, dR⟩ := delete_frame (downloadDone s req m) req
  rw [hres, dV, dD, dR]
  refine ⟨?_, ?_, ?_⟩
  · intro f hf h200 hok hsize
    unfold downloadDone
    simp [HTTP_OK, hf, h200, hok, hsize, downloadCompleteCallback, LLVFile_rename, emit,
      renames_append, downloadCallbacks_append]
    simp [renames, downloadCallbacks]
  · intro hno
    unfold downloadDone
    by_cases hc : m.http_code = 200 ∧ m.result = CURLcode.CURLE_OK
    · have hsz : ∀ f, req.mVFile = some f → ¬ 0 < LLVFS_getSize s.mVFS f.mFileID f.mFileType := by
        intro f hf hpos
        exact hno ⟨hc.1, hc.2, f, hf, hpos⟩
      cases hv : req.mVFile with
      | none =>
        simp [HTTP_OK, hc.1, hc.2, downloadCompleteCallback, emit, renames_append,
          downloadCallbacks_append]
        simp [renames, downloadCallbacks]
      | some f =>
        have := hsz f hv
        simp [HTTP_OK, hc.1, hc.2, this, downloadCompleteCallback, emit, renames_append,
          downloadCallbacks_append]
        simp [renames, downloadCallbacks]
    · have hc2 : ¬ (m.http_code = HTTP_OK ∧ m.result = CURLcode.CURLE_OK) := by
        simpa [HTTP_OK] using hc
      simp only [if_neg hc2]
      cases hv : req.mVFile with
      | none =>
        by_cases h404 : m.http_code = HTTP_MISSING <;>
          simp [h404, downloadCompleteCallback, emit, renames_append,
            downloadCallbacks_append] <;>
          simp [renames, downloadCallbacks]
      | some f =>
        by_cases h404 : m.http_code = HTTP_MISSING <;>
          simp [h404, downloadCompleteCallback, LLVFile_remove, emit, renames_append,
            downloadCallbacks_append] <;>
          simp [renames, downloadCallbacks]
  · intro c hc hv
    have hfind2 : findTransfer s c.handle = some req := by rw [hc]; exact hfind
    have hh := findTransfer_handle s m.easy_handle req hfind
    unfold curlDownCallback
    simp only [hfind2, hv]
    unfold findTransfer updateTransfer
    simp only [List.find?_map]
    unfold findTransfer at hfind
    have hcomp : ((fun r : LLHTTPAssetRequest => decide (r.mCurlHandle = some m.easy_handle)) ∘
        fun r : LLHTTPAssetRequest =>
          if r.mCurlHandle = some c.handle then
            { r with mVFile := some { mFileID := req.mTmpUUID, mFileType := EType.AT_NONE,
                                      mMode := VFileMode.APPEND } }
          else r)
        = fun r : LLHTTPAssetRequest => decide (r.mCurlHandle = some m.easy_handle) := by
      funext r
      simp only [Function.comp]
      split <;> rfl
    rw [hcomp, hfind]
    simp [hc, hh]

/-- C10: a download that completes with HTTP status 200 and transport OK but without staged
bytes (no staging file was opened, or its size is 0) hands the not-in-database error to the
download-complete callback, and no file is renamed: the virtual file system is unchanged. -/
theorem download_empty_body (s : LLHTTPAssetStorage) (m : CURLMsg)
    (req : LLHTTPAssetRequest)
    (hdone : m.msg = CURLMSG.CURLMSG_DONE)
    (hfind : findTransfer s m.easy_handle = some req)
    (hup : req.mIsUpload = false) (hloc : req.mIsLocalUpload = false)
    (hdown : req.mIsDownload = true)
    (h200 : m.http_code = 200) (hok : m.result = CURLcode.CURLE_OK)
    (hzero : req.mVFile = none
      ∨ ∃ f, req.mVFile = some f ∧ LLVFS_getSize s.mVFS f.mFileID f.mFileType = 0) :
    downloadCallbacks (handleMsg s m).mTrace
      = downloadCallbacks s.mTrace
        ++ [(LLErr.LL_ERR_ASSET_REQUEST_NOT_IN_DATABASE, req.mUUID, req.mType)]
    ∧ renames (handleMsg s m).mTrace = renames s.mTrace
    ∧ (handleMsg s m).mVFS = s.mVFS := by
  have hres : handleMsg s m = LLHTTPAssetRequest_delete (downloadDone s req m) req := by
    unfold handleMsg
    simp only [hdone, if_true, hfind, hup, hloc, hdown, Bool.or_self, Bool.false_eq_true,
      if_false]
  obtain ⟨_, _, _, _, dV, _, _, dD, dR⟩ := delete_frame (downloadDone s req m) req
  rw [hres, dV, dD, dR]
  unfold downloadDone
  rcases hzero with hv | ⟨f, hv, hsz⟩
  · simp [HTTP_OK, h200, hok, hv, downloadCompleteCallback, emit, renames_append,
      downloadCallbacks_append]
    simp [renames, downloadCallbacks]
  · simp [HTTP_OK, h200, hok, hv, hsz, downloadCompleteCallback, emit, renames_append,
      downloadCallbacks_append]
    simp [renames, downloadCallbacks]


/-- Witness for C6: the upload of asset 7 completes with transport OK and HTTP 201. -/
theorem upload_completion_callback_witness :
    findTransfer transferringStorage 1 = some (transferOf transferringStorage 1)
    ∧ uploadCallbacks (handleMsg transferringStorage
        { msg := CURLMSG.CURLMSG_DONE, easy_handle := 1, result := CURLcode.CURLE_OK,
          http_code := 201 }).mTrace = [(7, EType.AT_SOUND, true)]
    ∧ uploadCallbacks (handleMsg transferringStorage
        { msg := CURLMSG.CURLMSG_DONE, easy_handle := 1, result := CURLcode.CURLE_OK,
          http_code := 201 }).mTrace
      = uploadCallbacks transferringStorage.mTrace ++
        [((transferOf transferringStorage 1).mUUID, (transferOf transferringStorage 1).mType,
          decide (CURLcode.CURLE_OK = CURLcode.CURLE_OK
            ∧ ((201 : Int) = 200 ∨ (201 : Int) = 201 ∨ (201 : Int) = 204)))] :=
  ⟨by decide, by decide,
    upload_completion_callback transferringStorage
      { msg := CURLMSG.CURLMSG_DONE, easy_handle := 1, result := CURLcode.CURLE_OK,
        http_code := 201 }
      (transferOf transferringStorage 1) (by decide) (by decide) (by decide) (by decide)
      (by decide) (by decide) (by decide)⟩

/-- Witness for C7: the upload of asset 7 completes with HTTP 503; nothing is called and the
request is still queued. -/
theorem upload_transient_retry_witness :
    findTransfer transferringStorage 1 = some (transferOf transferringStorage 1)
    ∧ (handleMsg transferringStorage
        { msg := CURLMSG.CURLMSG_DONE, easy_handle := 1, result := CURLcode.CURLE_OK,
          http_code := 503 }).mTrace = transferringStorage.mTrace
    ∧ (handleMsg transferringStorage
        { msg := CURLMSG.CURLMSG_DONE, easy_handle := 1, result := CURLcode.CURLE_OK,
          http_code := 503 }).mPendingUploads = transferringStorage.mPendingUploads
    ∧ transferringStorage.mPendingUploads.map (fun r => r.mUUID) = [7] :=
  ⟨by decide,
    (upload_transient_retry sampleExternals 101 transferringStorage
      { msg := CURLMSG.CURLMSG_DONE, easy_handle := 1, result := CURLcode.CURLE_OK,
        http_code := 503 }
      (transferOf transferringStorage 1) (by decide) (by decide) (by decide) (by decide)
      (by decide)).1,
    (upload_transient_retry sampleExternals 101 transferringStorage
      { msg := CURLMSG.CURLMSG_DONE, easy_handle := 1, result := CURLcode.CURLE_OK,
        http_code := 503 }
      (transferOf transferringStorage 1) (by decide) (by decide) (by decide) (by decide)
      (by decide)).2.1,
    by decide⟩

/-- C8, counterexample: a local store admitted without a requesting agent (null agent id)
completes successfully, the shared callback path reports success, and the temp-asset map has
no entry for the asset. -/
theorem local_upload_registers_counterexample :
    uploadCallbacks (run sampleExternals stockedStorage anonymousLocalUploadCalls).mTrace
      = [(8, EType.AT_OBJECT, true)]
    ∧ hasTempAssetData (run sampleExternals stockedStorage anonymousLocalUploadCalls) 8 = false
    ∧ (run sampleExternals stockedStorage anonymousLocalUploadCalls).mTempAssets = [] := by
  decide

/-- Witness for C8: the local-upload of asset 8 for agent 5 completes with HTTP 200. -/
theorem local_upload_registers_witness :
    findTransfer transferringStorage 2 = some (transferOf transferringStorage 2)
    ∧ (transferOf transferringStorage 2).mUUID = 8
    ∧ (transferOf transferringStorage 2).mRequestingAgentID = 5
    ∧ transferringStorage.mHostName = "sim1.example"
    ∧ (hasTempAssetData (handleMsg transferringStorage
          { msg := CURLMSG.CURLMSG_DONE, easy_handle := 2, result := CURLcode.CURLE_OK,
            http_code := 200 }) (transferOf transferringStorage 2).mUUID = true
      ∧ getTempAssetAgentID (handleMsg transferringStorage
          { msg := CURLMSG.CURLMSG_DONE, easy_handle := 2, result := CURLcode.CURLE_OK,
            http_code := 200 }) (transferOf transferringStorage 2).mUUID
          = (transferOf transferringStorage 2).mRequestingAgentID
      ∧ getTempAssetHostName (handleMsg transferringStorage
          { msg := CURLMSG.CURLMSG_DONE, easy_handle := 2, result := CURLcode.CURLE_OK,
            http_code := 200 }) (transferOf transferringStorage 2).mUUID
          = transferringStorage.mHostName) :=
  ⟨by decide, by decide, by decide, by decide,
    (local_upload_registers transferringStorage
      { msg := CURLMSG.CURLMSG_DONE, easy_handle := 2, result := CURLcode.CURLE_OK,
        http_code := 200 }
      (transferOf transferringStorage 2) (by decide) (by decide) (by decide)).1
      (by decide) (by decide) (by decide) (by decide)⟩

/-- Witness for C9: the download of asset 2, with three bytes staged under scratch id 100,
completes with HTTP 200 and transport OK. -/
theorem download_completion_witness :
    findTransfer stagedStorage 0 = some (transferOf stagedStorage 0)
    ∧ (transferOf stagedStorage 0).mVFile
        = some { mFileID := 100, mFileType := EType.AT_NONE, mMode := VFileMode.APPEND }
    ∧ LLVFS_getSize stagedStorage.mVFS 100 EType.AT_NONE = 3
    ∧ (handleMsg stagedStorage
        { msg := CURLMSG.CURLMSG_DONE, easy_handle := 0, result := CURLcode.CURLE_OK,
          http_code := 200 }).mVFS.lookup (2, EType.AT_SOUND)
        = some { mData := [9, 9, 9], mMaxSize := 3 }
    ∧ downloadCallbacks (handleMsg stagedStorage
        { msg := CURLMSG.CURLMSG_DONE, easy_handle := 0, result := CURLcode.CURLE_OK,
          http_code := 200 }).mTrace
      = downloadCallbacks stagedStorage.mTrace
        ++ [(LLErr.LL_ERR_NOERR, (transferOf stagedStorage 0).mUUID,
             (transferOf stagedStorage 0).mType)] :=
  ⟨by decide, by decide, by decide, by decide,
    ((download_completion stagedStorage
      { msg := CURLMSG.CURLMSG_DONE, easy_handle := 0, result := CURLcode.CURLE_OK,
        http_code := 200 }
      (transferOf stagedStorage 0) (by decide) (by decide) (by decide) (by decide)
      (by decide)).1
      { mFileID := 100, mFileType := EType.AT_NONE, mMode := VFileMode.APPEND }
      (by decide) (by decide) (by decide) (by decide)).2.2⟩

/-- Witness for C10: the download of asset 2 completes with HTTP 200 and transport OK before
any byte was staged. -/
theorem download_empty_body_witness :
    findTransfer transferringStorage 0 = some (transferOf transferringStorage 0)
    ∧ (transferOf transferringStorage 0).mVFile = none
    ∧ downloadCallbacks (handleMsg transferringStorage
        { msg := CURLMSG.CURLMSG_DONE, easy_handle := 0, result := CURLcode.CURLE_OK,
          http_code := 200 }).mTrace
      = downloadCallbacks transferringStorage.mTrace
        ++ [(LLErr.LL_ERR_ASSET_REQUEST_NOT_IN_DATABASE, (transferOf transferringStorage 0).mUUID,
             (transferOf transferringStorage 0).mType)] :=
  ⟨by decide, by decide,
    (download_empty_body transferringStorage
      { msg := CURLMSG.CURLMSG_DONE, easy_handle := 0, result := CURLcode.CURLE_OK,
        http_code := 200 }
      (transferOf transferringStorage 0) (by decide) (by decide) (by decide) (by decide)
      (by decide) (by decide) (by decide) (Or.inl (by decide))).1⟩

/-- C2, evaluated at the failing input: a queued download is in flight (one live download
Transfer, download flag raised); a blocking fetch then runs to success and, when its request
is destroyed, clears the download flag although the queued Transfer is still live; the next
tick promotes the head of the download queue again, and two download Transfers are live at
once. -/
theorem blocking_fetch_double_download :
    (run sampleExternals freshStorage (blockingFetchCalls.take 3)).mDisk = [("out.bin", [1, 2])]
    ∧ liveDownloads (run sampleExternals freshStorage (blockingFetchCalls.take 2)) = 1
    ∧ (run sampleExternals freshStorage (blockingFetchCalls.take 2)).mPendingDownload = true
    ∧ liveDownloads (run sampleExternals freshStorage (blockingFetchCalls.take 3)) = 1
    ∧ (run sampleExternals freshStorage (blockingFetchCalls.take 3)).mPendingDownload = false
    ∧ liveDownloads (run sampleExternals freshStorage blockingFetchCalls) = 2
    ∧ ((run sampleExternals freshStorage blockingFetchCalls).mTransfers.map
        (fun r => (r.mCurlHandle, r.mUUID, r.mIsDownload)))
      = [(some 0, 7, true), (some 2, 7, true)] := by
  decide


/-! ### The slot discipline of the queued paths -/

theorem liveDownloads_eq (s : LLHTTPAssetStorage) :
    liveDownloads s = (s.mTransfers.filter isLiveDownload).length := rfl

theorem liveUploads_eq (s : LLHTTPAssetStorage) :
    liveUploads s = (s.mTransfers.filter isLiveUpload).length := rfl

theorem liveLocalUploads_eq (s : LLHTTPAssetStorage) :
    liveLocalUploads s = (s.mTransfers.filter isLiveLocalUpload).length := rfl

/-- Detaching handles never adds a member to a class. -/
theorem filter_detach_le (p : LLHTTPAssetRequest → Bool) (l : List LLHTTPAssetRequest)
    (h : Nat) :
    ((l.filter (fun r => decide (r.mCurlHandle ≠ some h))).filter p).length
      ≤ (l.filter p).length := by
  exact ((List.filter_sublist l).filter p).length_le

/-- If a class has at most one member and that member carries handle `h`, the class is empty
once `h` is detached. -/
theorem filter_detach_zero (p : LLHTTPAssetRequest → Bool) (l : List LLHTTPAssetRequest)
    (h : Nat) (req : LLHTTPAssetRequest) (hmem : req ∈ l) (hp : p req = true)
    (hh : req.mCurlHandle = some h) (hle : (l.filter p).length ≤ 1) :
    ((l.filter (fun r => decide (r.mCurlHandle ≠ some h))).filter p).length = 0 := by
  have hreq : req ∈ l.filter p := List.mem_filter.mpr ⟨hmem, hp⟩
  have hone : l.filter p = [req] := by
    cases hl : l.filter p with
    | nil => rw [hl] at hreq; cases hreq
    | cons a rest =>
      rw [hl] at hreq hle
      cases rest with
      | nil =>
        rcases List.mem_singleton.mp hreq with rfl
        rfl
      | cons b rest2 => simp at hle
  rw [List.length_eq_zero, List.filter_filter, List.filter_eq_nil_iff]
  intro r hr
  by_cases hpr : p r = true
  · have : r ∈ l.filter p := List.mem_filter.mpr ⟨hr, hpr⟩
    rw [hone] at this
    rcases List.mem_singleton.mp this with rfl
    simp [hh]
  · simp [hpr]

/-- The destructor keeps the slot discipline. -/
theorem delete_slots (s : LLHTTPAssetStorage) (req : LLHTTPAssetRequest)
    (hmem : req ∈ s.mTransfers) (hs : SlotsHeld s) :
    SlotsHeld (LLHTTPAssetRequest_delete s req) := by
  obtain ⟨d0, d1, u0, u1, l0, l1⟩ := hs
  rw [liveDownloads_eq] at d0 d1
  rw [liveUploads_eq] at u0 u1
  rw [liveLocalUploads_eq] at l0 l1
  unfold LLHTTPAssetRequest_delete
  cases hh : req.mCurlHandle with
  | none => exact ⟨d0, d1, u0, u1, l0, l1⟩
  | some h =>
    have hD := filter_detach_le isLiveDownload s.mTransfers h
    have hU := filter_detach_le isLiveUpload s.mTransfers h
    have hL := filter_detach_le isLiveLocalUpload s.mTransfers h
    have zD := filter_detach_zero isLiveDownload s.mTransfers h req hmem
    have zU := filter_detach_zero isLiveUpload s.mTransfers h req hmem
    have zL := filter_detach_zero isLiveLocalUpload s.mTransfers h req hmem
    simp only [isLiveDownload, isLiveUpload, isLiveLocalUpload, hh, Option.isSome_some,
      Bool.true_and] at zD zU zL
    cases hst : req.mAssetStoragep <;> cases hu : req.mIsUpload <;>
      cases hl : req.mIsLocalUpload <;> cases hd : req.mIsDownload <;>
      simp only [hu, hl, hd, Bool.not_false, Bool.not_true, Bool.and_self, Bool.and_false,
        Bool.false_and, Bool.true_and, Bool.false_eq_true, forall_const, false_implies,
        true_implies] at zD zU zL <;>
      simp only [SlotsHeld, liveDownloads_eq, liveUploads_eq, liveLocalUploads_eq,
        curl_multi_remove_handle, emit, if_true, if_false, Bool.false_eq_true] <;>
      refine ⟨?_, ?_, ?_, ?_, ?_, ?_⟩ <;>
      first
        | (intro hf; have := d0 hf; omega)
        | (intro hf; have := u0 hf; omega)
        | (intro hf; have := l0 hf; omega)
        | (intro _; exact zD d1)
        | (intro _; exact zU u1)
        | (intro _; exact zL l1)
        | omega


/-- The download block keeps the slot discipline. -/
theorem promoteDownload_slots (X : Externals) (s : LLHTTPAssetStorage) (t : LLUUID)
    (hs : SlotsHeld s) : SlotsHeld (promoteDownload X s t) := by
  rcases promoteDownload_eq X s t with
    ⟨tr, heq, hh, hd, hu, hl, _, r0, rest0, _, hf, _, _⟩ | ⟨heq, _⟩
  · obtain ⟨d0, d1, u0, u1, l0, l1⟩ := hs
    have hz := d0 hf
    rw [liveDownloads_eq] at d0 d1
    rw [liveUploads_eq] at u0 u1
    rw [liveLocalUploads_eq] at l0 l1
    rw [liveDownloads_eq] at hz
    have cD : ((s.mTransfers ++ [tr]).filter isLiveDownload).length
        = (s.mTransfers.filter isLiveDownload).length + 1 := by
      simp [List.filter_append, List.filter_cons, isLiveDownload, hh, hd, hu, hl]
    have cU : ((s.mTransfers ++ [tr]).filter isLiveUpload).length
        = (s.mTransfers.filter isLiveUpload).length  := by
      simp [List.filter_append, List.filter_cons, isLiveUpload, hh, hd, hu, hl]
    have cL : ((s.mTransfers ++ [tr]).filter isLiveLocalUpload).length
        = (s.mTransfers.filter isLiveLocalUpload).length  := by
      simp [List.filter_append, List.filter_cons, isLiveLocalUpload, hh, hd, hu, hl]
    rw [heq]
    simp only [SlotsHeld, liveDownloads_eq, liveUploads_eq, liveLocalUploads_eq, cD, cU, cL]
    refine ⟨?_, ?_, ?_, ?_, ?_, ?_⟩ <;>
      first
        | omega
        | (intro hf2; simp_all)
  · rw [heq]; exact hs

/-- The upload block keeps the slot discipline. -/
theorem promoteUpload_slots (X : Externals) (s : LLHTTPAssetStorage)
    (hs : SlotsHeld s) : SlotsHeld (promoteUpload X s) := by
  rcases promoteUpload_eq X s with ⟨tr, heq, hh, hu, hl, _, r0, rest0, _, hf, _, _⟩ | ⟨heq, _⟩
  · obtain ⟨d0, d1, u0, u1, l0, l1⟩ := hs
    have hz := u0 hf
    rw [liveDownloads_eq] at d0 d1
    rw [liveUploads_eq] at u0 u1
    rw [liveLocalUploads_eq] at l0 l1
    rw [liveUploads_eq] at hz
    have cD : ((s.mTransfers ++ [tr]).filter isLiveDownload).length
        = (s.mTransfers.filter isLiveDownload).length  := by
      simp [List.filter_append, List.filter_cons, isLiveDownload, hh, hu, hl]
    have cU : ((s.mTransfers ++ [tr]).filter isLiveUpload).length
        = (s.mTransfers.filter isLiveUpload).length + 1 := by
      simp [List.filter_append, List.filter_cons, isLiveUpload, hh, hu, hl]
    have cL : ((s.mTransfers ++ [tr]).filter isLiveLocalUpload).length
        = (s.mTransfers.filter isLiveLocalUpload).length  := by
      simp [List.filter_append, List.filter_cons, isLiveLocalUpload, hh, hu, hl]
    rw [heq]
    simp only [SlotsHeld, liveDownloads_eq, liveUploads_eq, liveLocalUploads_eq, cD, cU, cL]
    refine ⟨?_, ?_, ?_, ?_, ?_, ?_⟩ <;>
      first
        | omega
        | (intro hf2; simp_all)
  · rw [heq]; exact hs

/-- The local-upload block keeps the slot discipline. -/
theorem promoteLocalUpload_slots (X : Externals) (s : LLHTTPAssetStorage)
    (hs : SlotsHeld s) : SlotsHeld (promoteLocalUpload X s) := by
  rcases promoteLocalUpload_eq X s with
    ⟨tr, heq, hh, hu, hl, _, r0, rest0, _, hf, _, _, _⟩ | ⟨heq, _⟩
  · obtain ⟨d0, d1, u0, u1, l0, l1⟩ := hs
    have hz := l0 hf
    rw [liveDownloads_eq] at d0 d1
    rw [liveUploads_eq] at u0 u1
    rw [liveLocalUploads_eq] at l0 l1
    rw [liveLocalUploads_eq] at hz
    have cD : ((s.mTransfers ++ [tr]).filter isLiveDownload).length
        = (s.mTransfers.filter isLiveDownload).length  := by
      simp [List.filter_append, List.filter_cons, isLiveDownload, hh, hu, hl]
    have cU : ((s.mTransfers ++ [tr]).filter isLiveUpload).length
        = (s.mTransfers.filter isLiveUpload).length  := by
      simp [List.filter_append, List.filter_cons, isLiveUpload, hh, hu, hl]
    have cL : ((s.mTransfers ++ [tr]).filter isLiveLocalUpload).length
        = (s.mTransfers.filter isLiveLocalUpload).length + 1 := by
      simp [List.filter_append, List.filter_cons, isLiveLocalUpload, hh, hu, hl]
    rw [heq]
    simp only [SlotsHeld, liveDownloads_eq, liveUploads_eq, liveLocalUploads_eq, cD, cU, cL]
    refine ⟨?_, ?_, ?_, ?_, ?_, ?_⟩ <;>
      first
        | omega
        | (intro hf2; simp_all)
  · rw [heq]; exact hs

/-- Rewriting the staged-file handle of requests does not change class membership. -/
theorem filter_setVFile_length (p : LLHTTPAssetRequest → Bool) (l : List LLHTTPAssetRequest)
    (h : Nat) (v : LLVFile)
    (hp : ∀ r : LLHTTPAssetRequest, p { r with mVFile := some v } = p r) :
    ((l.map (fun r => if r.mCurlHandle = some h then { r with mVFile := some v } else r)).filter
        p).length = (l.filter p).length := by
  have hcomp : (p ∘ fun r : LLHTTPAssetRequest =>
      if r.mCurlHandle = some h then { r with mVFile := some v } else r) = p := by
    funext r
    simp only [Function.comp]
    split
    · exact hp r
    · rfl
  rw [List.filter_map, List.length_map, hcomp]

/-- Delivering a chunk keeps the slot discipline. -/
theorem deliver_slots (s : LLHTTPAssetStorage) (c : WriteCall) (hs : SlotsHeld s) :
    SlotsHeld (deliver s c) := by
  have key : ∀ s2 : LLHTTPAssetStorage,
      (s2.mPendingDownload = s.mPendingDownload ∧ s2.mPendingUpload = s.mPendingUpload
        ∧ s2.mPendingLocalUpload = s.mPendingLocalUpload
        ∧ liveDownloads s2 = liveDownloads s ∧ liveUploads s2 = liveUploads s
        ∧ liveLocalUploads s2 = liveLocalUploads s) → SlotsHeld s2 := by
    intro s2 ⟨h1, h2, h3, h4, h5, h6⟩
    unfold SlotsHeld
    rw [h1, h2, h3, h4, h5, h6]
    exact hs
  cases hf : findTransfer s c.handle with
  | none => simp only [deliver, hf]; exact hs
  | some req =>
    cases hw : req.optWriteFunction with
    | unset => simp only [deliver, hf, hw]; exact hs
    | nullOutputCallback => simp only [deliver, hf, hw, nullOutputCallback]; exact hs
    | curlFileDownCallback =>
      simp only [deliver, hf, hw]
      apply key
      simp only [curlFileDownCallback, hf]
      cases req.mFP <;> simp [liveDownloads, liveUploads, liveLocalUploads]
    | curlDownCallback =>
      simp only [deliver, hf, hw]
      apply key
      simp only [curlDownCallback, hf, updateTransfer, liveDownloads_eq, liveUploads_eq,
        liveLocalUploads_eq]
      refine ⟨trivial, trivial, trivial, ?_, ?_, ?_⟩ <;>
        exact filter_setVFile_length _ _ _ _ (fun r => rfl)

/-- The engine's progress keeps the slot discipline. -/
theorem perform_slots (calls : List WriteCall) (s : LLHTTPAssetStorage) (hs : SlotsHeld s) :
    SlotsHeld (curl_multi_perform s calls) := by
  unfold curl_multi_perform
  induction calls generalizing s with
  | nil => exact hs
  | cons c rest ih => exact ih (deliver s c) (deliver_slots s c hs)

/-- The completion branches leave the attached requests and the flags alone. -/
theorem done_frame (s : LLHTTPAssetStorage) (req : LLHTTPAssetRequest) (m : CURLMsg) :
    ((uploadDone s req m).mTransfers = s.mTransfers
      ∧ (uploadDone s req m).mPendingDownload = s.mPendingDownload
      ∧ (uploadDone s req m).mPendingUpload = s.mPendingUpload
      ∧ (uploadDone s req m).mPendingLocalUpload = s.mPendingLocalUpload)
    ∧ ((downloadDone s req m).mTransfers = s.mTransfers
      ∧ (downloadDone s req m).mPendingDownload = s.mPendingDownload
      ∧ (downloadDone s req m).mPendingUpload = s.mPendingUpload
      ∧ (downloadDone s req m).mPendingLocalUpload = s.mPendingLocalUpload) := by
  constructor
  · unfold uploadDone
    simp only [_callUploadCallbacks, emit, addTempAssetData]
    split <;> split <;> (try split) <;> (try split) <;> simp
  · unfold downloadDone
    simp only [downloadCompleteCallback, emit, LLVFile_rename, LLVFile_remove]
    split
    · split
      · split <;> simp
      · simp
    · split <;> simp

/-- Handling one completion message keeps the slot discipline. -/
theorem handleMsg_slots (s : LLHTTPAssetStorage) (m : CURLMsg) (hs : SlotsHeld s) :
    SlotsHeld (handleMsg s m) := by
  unfold handleMsg
  split
  · cases hf : findTransfer s m.easy_handle with
    | none => exact hs
    | some req =>
      have hmem : req ∈ s.mTransfers := by
        unfold findTransfer at hf
        exact List.mem_of_find?_eq_some hf
      obtain ⟨⟨a1, a2, a3, a4⟩, ⟨b1, b2, b3, b4⟩⟩ := done_frame s req m
      simp only
      apply delete_slots
      · split
        · rw [a1]; exact hmem
        · split
          · rw [b1]; exact hmem
          · exact hmem
      · split
        · simpa [SlotsHeld, liveDownloads, liveUploads, liveLocalUploads, a1, a2, a3, a4]
            using hs
        · split
          · simpa [SlotsHeld, liveDownloads, liveUploads, liveLocalUploads, b1, b2, b3, b4]
              using hs
          · exact hs
  · exact hs

/-- The slot discipline only depends on the flags and the attached requests. -/
theorem slots_congr (s s2 : LLHTTPAssetStorage) (hT : s2.mTransfers = s.mTransfers)
    (hD : s2.mPendingDownload = s.mPendingDownload)
    (hU : s2.mPendingUpload = s.mPendingUpload)
    (hL : s2.mPendingLocalUpload = s.mPendingLocalUpload) (hs : SlotsHeld s) :
    SlotsHeld s2 := by
  unfold SlotsHeld liveDownloads liveUploads liveLocalUploads at *
  rw [hT, hD, hU, hL]
  exact hs

/-- Draining the completion messages keeps the slot discipline. -/
theorem drain_slots (msgs : List CURLMsg) (s : LLHTTPAssetStorage) (hs : SlotsHeld s) :
    SlotsHeld (msgs.foldl handleMsg s) := by
  induction msgs generalizing s with
  | nil => exact hs
  | cons m rest ih => exact ih (handleMsg s m) (handleMsg_slots s m hs)

/-- A tick keeps the slot discipline. -/
theorem checkForTimeouts_slots (X : Externals) (s : LLHTTPAssetStorage) (inp : TickInput)
    (hs : SlotsHeld s) : SlotsHeld (checkForTimeouts X s inp) := by
  unfold checkForTimeouts LLAssetStorage_checkForTimeouts promotePending
  exact drain_slots inp.msgs _ (perform_slots inp.calls _
    (promoteLocalUpload_slots X _ (promoteUpload_slots X _
      (promoteDownload_slots X s inp.tmp_uuid hs))))

/-- Admissions keep the slot discipline. -/
theorem admission_slots (s : LLHTTPAssetStorage) (uuid : LLUUID) (type : EType)
    (cb : Option Nat) (ud : Nat) (b1 b2 b3 : Bool) (a : LLUUID) (hs : SlotsHeld s) :
    SlotsHeld (storeAssetData s uuid type cb ud b1 b2 b3 a)
    ∧ SlotsHeld (_queueDataRequest s uuid type cb ud b1 b2) := by
  constructor
  · apply slots_congr s _ _ _ _ _ hs <;>
      (unfold storeAssetData; cases LLVFS_getExists s.mVFS uuid type <;> cases cb <;>
        cases b3 <;> cases b2 <;> rfl)
  · apply slots_congr s _ _ _ _ _ hs <;>
      (unfold _queueDataRequest; by_cases ht : type = EType.AT_TEXTURE <;> simp [ht])

/-- Without the blocking fetch, every state reached from a freshly initialised storage by
`storeAssetData`, `_queueDataRequest` and `checkForTimeouts` calls has at most one live
Transfer per class. -/
theorem queued_paths_bound (X : Externals) (vfs : LLVFS) (web_host local_web_host
    host_name : String) (calls : List Call)
    (hcalls : ∀ c ∈ calls, c.isBlockingFetch = false) :
    liveDownloads (run X (_init vfs web_host local_web_host host_name) calls) ≤ 1
    ∧ liveUploads (run X (_init vfs web_host local_web_host host_name) calls) ≤ 1
    ∧ liveLocalUploads (run X (_init vfs web_host local_web_host host_name) calls) ≤ 1 := by
  have hinit : SlotsHeld (_init vfs web_host local_web_host host_name) := by
    simp [SlotsHeld, _init, liveDownloads, liveUploads, liveLocalUploads]
  have hrun : ∀ (l : List Call) (s : LLHTTPAssetStorage), SlotsHeld s →
      (∀ c ∈ l, c.isBlockingFetch = false) → SlotsHeld (run X s l) := by
    intro l
    induction l with
    | nil => intro s hs _; exact hs
    | cons c rest ih =>
      intro s hs hc
      have hrest : ∀ c2 ∈ rest, c2.isBlockingFetch = false :=
        fun c2 h2 => hc c2 (List.mem_cons_of_mem c h2)
      have hstep : SlotsHeld (step X s c) := by
        cases c with
        | storeAssetData uuid type cb ud tf p l a =>
          exact (admission_slots s uuid type cb ud tf p l a hs).1
        | queueDataRequest uuid type cb ud d p =>
          exact (admission_slots s uuid type cb ud d p false 0 hs).2
        | checkForTimeouts inp => exact checkForTimeouts_slots X s inp hs
        | getURLToFile uuid ty url fn cb ud ok rounds =>
          have := hc _ (List.mem_cons_self _ _)
          simp [Call.isBlockingFetch] at this
      exact ih (step X s c) hstep hrest
  obtain ⟨_, d, _, u, _, l⟩ := hrun calls _ hinit hcalls
  exact ⟨d, u, l⟩


/-! ### Download failures -/

theorem removals_append (t u : List Event) :
    removals (t ++ u) = removals t ++ removals u := by
  simp [removals, List.filterMap_append]

/-- The destructor records no removal of a staged file. -/
theorem delete_removals (s : LLHTTPAssetStorage) (req : LLHTTPAssetRequest) :
    removals (LLHTTPAssetRequest_delete s req).mTrace = removals s.mTrace := by
  unfold LLHTTPAssetRequest_delete
  cases req.mCurlHandle with
  | none => rfl
  | some h =>
    cases req.mAssetStoragep <;> cases req.mIsUpload <;> cases req.mIsLocalUpload <;>
      cases req.mIsDownload <;>
      simp [curl_multi_remove_handle, emit, removals, List.filterMap_append]

/-- Nothing is stored under a key that was just removed. -/
theorem getExists_removeFile (vfs : LLVFS) (id : LLUUID) (type : EType) :
    LLVFS_getExists (LLVFS_removeFile vfs id type) id type = false := by
  unfold LLVFS_getExists LLVFS_removeFile
  induction vfs with
  | nil => rfl
  | cons e rest ih =>
    obtain ⟨k, b⟩ := e
    by_cases hk : k = (id, type)
    · simpa [List.filter_cons, hk] using ih
    · have hb : ((id, type) == k) = false := by
        simpa using fun h => hk h.symm
      simpa [List.filter_cons, hk, List.lookup, hb] using ih

/-- C11: a queued download that completes with an HTTP status other than 200 or a transport
result other than OK hands the download-complete callback the not-in-database error when the
status is 404 and the generic failure otherwise; a staged file, if one was opened, is removed
from the virtual file system, and nothing is renamed. -/
theorem download_failure (s : LLHTTPAssetStorage) (m : CURLMsg)
    (req : LLHTTPAssetRequest)
    (hdone : m.msg = CURLMSG.CURLMSG_DONE)
    (hfind : findTransfer s m.easy_handle = some req)
    (hup : req.mIsUpload = false) (hloc : req.mIsLocalUpload = false)
    (hdown : req.mIsDownload = true)
    (hfail : ¬ (m.http_code = 200 ∧ m.result = CURLcode.CURLE_OK)) :
    downloadCallbacks (handleMsg s m).mTrace
      = downloadCallbacks s.mTrace ++
        [(if m.http_code = 404 then LLErr.LL_ERR_ASSET_REQUEST_NOT_IN_DATABASE
          else LLErr.LL_ERR_ASSET_REQUEST_FAILED, req.mUUID, req.mType)]
    ∧ renames (handleMsg s m).mTrace = renames s.mTrace
    ∧ (∀ f, req.mVFile = some f →
        removals (handleMsg s m).mTrace = removals s.mTrace ++ [(f.mFileID, f.mFileType)]
        ∧ (handleMsg s m).mVFS = LLVFS_removeFile s.mVFS f.mFileID f.mFileType
        ∧ LLVFS_getExists (handleMsg s m).mVFS f.mFileID f.mFileType = false)
    ∧ (req.mVFile = none →
        removals (handleMsg s m).mTrace = removals s.mTrace
        ∧ (handleMsg s m).mVFS = s.mVFS) := by
  have hres : handleMsg s m = LLHTTPAssetRequest_delete (downloadDone s req m) req := by
    unfold handleMsg
    simp only [hdone, if_true, hfind, hup, hloc, hdown, Bool.or_self, Bool.false_eq_true,
      if_false]
  obtain ⟨_, _, _, _, dV, _, _, dD, dR⟩ := delete_frame (downloadDone s req m) req
  have dM := delete_removals (downloadDone s req m) req
  rw [hres, dV, dD, dR, dM]
  have hc2 : ¬ (m.http_code = HTTP_OK ∧ m.result = CURLcode.CURLE_OK) := by
    simpa [HTTP_OK] using hfail
  unfold downloadDone
  simp only [if_neg hc2]
  cases hv : req.mVFile with
  | none =>
    by_cases h404 : m.http_code = 404 <;>
      simp [HTTP_MISSING, h404, downloadCompleteCallback, emit, renames_append,
        downloadCallbacks_append, removals_append] <;>
      simp [renames, downloadCallbacks, removals]
  | some f =>
    by_cases h404 : m.http_code = 404 <;>
      simp [HTTP_MISSING, h404, downloadCompleteCallback, LLVFile_remove, emit, renames_append,
        downloadCallbacks_append, removals_append, getExists_removeFile] <;>
      simp [renames, downloadCallbacks, removals]

/-- Witness for C11: the download of asset 2, with three bytes staged under scratch id 100,
completes with HTTP 404; the staged file is gone afterwards. -/
theorem download_failure_witness :
    findTransfer stagedStorage 0 = some (transferOf stagedStorage 0)
    ∧ LLVFS_getExists stagedStorage.mVFS 100 EType.AT_NONE = true
    ∧ LLVFS_getExists (handleMsg stagedStorage
        { msg := CURLMSG.CURLMSG_DONE, easy_handle := 0, result := CURLcode.CURLE_OK,
          http_code := 404 }).mVFS 100 EType.AT_NONE = false
    ∧ downloadCallbacks (handleMsg stagedStorage
        { msg := CURLMSG.CURLMSG_DONE, easy_handle := 0, result := CURLcode.CURLE_OK,
          http_code := 404 }).mTrace
      = downloadCallbacks stagedStorage.mTrace ++
        [(if (404 : Int) = 404 then LLErr.LL_ERR_ASSET_REQUEST_NOT_IN_DATABASE
          else LLErr.LL_ERR_ASSET_REQUEST_FAILED, (transferOf stagedStorage 0).mUUID,
          (transferOf stagedStorage 0).mType)] :=
  ⟨by decide, by decide, by decide,
    (download_failure stagedStorage
      { msg := CURLMSG.CURLMSG_DONE, easy_handle := 0, result := CURLcode.CURLE_OK,
        http_code := 404 }
      (transferOf stagedStorage 0) (by decide) (by decide) (by decide) (by decide)
      (by decide) (by decide)).1⟩


/-! ### Destruction and the pending flags -/

/-- The destructor of a request with a handle and a storage pointer leaves the flags of the
classes other than its own as they were. -/
theorem delete_other_flags (s : LLHTTPAssetStorage) (req : LLHTTPAssetRequest) :
    (req.mIsUpload = true →
      (LLHTTPAssetRequest_delete s req).mPendingLocalUpload = s.mPendingLocalUpload
      ∧ (LLHTTPAssetRequest_delete s req).mPendingDownload = s.mPendingDownload)
    ∧ (req.mIsUpload = false → req.mIsLocalUpload = true →
      (LLHTTPAssetRequest_delete s req).mPendingUpload = s.mPendingUpload
      ∧ (LLHTTPAssetRequest_delete s req).mPendingDownload = s.mPendingDownload)
    ∧ (req.mIsUpload = false → req.mIsLocalUpload = false →
      (LLHTTPAssetRequest_delete s req).mPendingUpload = s.mPendingUpload
      ∧ (LLHTTPAssetRequest_delete s req).mPendingLocalUpload = s.mPendingLocalUpload) := by
  unfold LLHTTPAssetRequest_delete
  cases req.mCurlHandle with
  | none => simp
  | some h =>
    cases req.mAssetStoragep <;> cases req.mIsUpload <;> cases req.mIsLocalUpload <;>
      cases req.mIsDownload <;> simp [curl_multi_remove_handle, emit]

/-- A request that `setupCurlHandle` set up without a fatal error carries a handle, a storage
pointer and a direction flag. -/
theorem setupCurlHandle_sound (s : LLHTTPAssetStorage) (r : LLHTTPAssetRequest)
    (hquiet : (setupCurlHandle s r).1.mTrace = s.mTrace) :
    (setupCurlHandle s r).2.mCurlHandle = some s.mNextHandle
    ∧ (setupCurlHandle s r).2.mAssetStoragep = true
    ∧ ((setupCurlHandle s r).2.mIsUpload = true ∨ (setupCurlHandle s r).2.mIsLocalUpload = true
        ∨ (setupCurlHandle s r).2.mIsDownload = true) := by
  unfold setupCurlHandle at *
  cases hs : r.mAssetStoragep <;> cases hu : r.mIsUpload <;> cases hl : r.mIsLocalUpload <;>
    cases hd : r.mIsDownload <;> cases hz : r.mZInitialized <;>
    simp_all [emit]

/-- C12: whatever the outcome of a completion drained in a tick, the Transfer is destroyed
(its handle is detached), the pending flag of its own class is clear afterwards and the flags
of the other two classes are as before. More generally the destructor of any Transfer whose
handle was set up (so that it has a storage pointer and a direction) detaches the handle,
clears the flag of its own class and leaves the other two flags alone. -/
theorem completion_releases_slot (s : LLHTTPAssetStorage) (req : LLHTTPAssetRequest)
    (h : Nat) (hh : req.mCurlHandle = some h) (hs : req.mAssetStoragep = true)
    (hc : req.mIsUpload = true ∨ req.mIsLocalUpload = true ∨ req.mIsDownload = true) :
    ((LLHTTPAssetRequest_delete s req).mTransfers
        = s.mTransfers.filter (fun r => decide (r.mCurlHandle ≠ some h))
      ∧ (LLHTTPAssetRequest_delete s req).mTrace = s.mTrace
      ∧ (req.mIsUpload = true →
          (LLHTTPAssetRequest_delete s req).mPendingUpload = false
          ∧ (LLHTTPAssetRequest_delete s req).mPendingLocalUpload = s.mPendingLocalUpload
          ∧ (LLHTTPAssetRequest_delete s req).mPendingDownload = s.mPendingDownload)
      ∧ (req.mIsUpload = false → req.mIsLocalUpload = true →
          (LLHTTPAssetRequest_delete s req).mPendingLocalUpload = false
          ∧ (LLHTTPAssetRequest_delete s req).mPendingUpload = s.mPendingUpload
          ∧ (LLHTTPAssetRequest_delete s req).mPendingDownload = s.mPendingDownload)
      ∧ (req.mIsUpload = false → req.mIsLocalUpload = false →
          (LLHTTPAssetRequest_delete s req).mPendingDownload = false
          ∧ (LLHTTPAssetRequest_delete s req).mPendingUpload = s.mPendingUpload
          ∧ (LLHTTPAssetRequest_delete s req).mPendingLocalUpload = s.mPendingLocalUpload))
    ∧ ∀ m : CURLMsg, m.msg = CURLMSG.CURLMSG_DONE → m.easy_handle = h →
        findTransfer s h = some req →
        findTransfer (handleMsg s m) h = none
        ∧ (req.mIsUpload = true →
            (handleMsg s m).mPendingUpload = false
            ∧ (handleMsg s m).mPendingLocalUpload = s.mPendingLocalUpload
            ∧ (handleMsg s m).mPendingDownload = s.mPendingDownload)
        ∧ (req.mIsUpload = false → req.mIsLocalUpload = true →
            (handleMsg s m).mPendingLocalUpload = false
            ∧ (handleMsg s m).mPendingUpload = s.mPendingUpload
            ∧ (handleMsg s m).mPendingDownload = s.mPendingDownload)
        ∧ (req.mIsUpload = false → req.mIsLocalUpload = false →
            (handleMsg s m).mPendingDownload = false
            ∧ (handleMsg s m).mPendingUpload = s.mPendingUpload
            ∧ (handleMsg s m).mPendingLocalUpload = s.mPendingLocalUpload) := by
  have key : ∀ st : LLHTTPAssetStorage,
      (LLHTTPAssetRequest_delete st req).mTransfers
        = st.mTransfers.filter (fun r => decide (r.mCurlHandle ≠ some h))
      ∧ (LLHTTPAssetRequest_delete st req).mTrace = st.mTrace
      ∧ (req.mIsUpload = true →
          (LLHTTPAssetRequest_delete st req).mPendingUpload = false
          ∧ (LLHTTPAssetRequest_delete st req).mPendingLocalUpload = st.mPendingLocalUpload
          ∧ (LLHTTPAssetRequest_delete st req).mPendingDownload = st.mPendingDownload)
      ∧ (req.mIsUpload = false → req.mIsLocalUpload = true →
          (LLHTTPAssetRequest_delete st req).mPendingLocalUpload = false
          ∧ (LLHTTPAssetRequest_delete st req).mPendingUpload = st.mPendingUpload
          ∧ (LLHTTPAssetRequest_delete st req).mPendingDownload = st.mPendingDownload)
      ∧ (req.mIsUpload = false → req.mIsLocalUpload = false →
          (LLHTTPAssetRequest_delete st req).mPendingDownload = false
          ∧ (LLHTTPAssetRequest_delete st req).mPendingUpload = st.mPendingUpload
          ∧ (LLHTTPAssetRequest_delete st req).mPendingLocalUpload = st.mPendingLocalUpload) := by
    intro st
    obtain ⟨f1, f2, f3, f4, f5⟩ := delete_flags st req h hh hs hc
    obtain ⟨o1, o2, o3⟩ := delete_other_flags st req
    exact ⟨f2, f1, fun hu => ⟨f3 hu, o1 hu⟩, fun hu hl => ⟨f4 hu hl, o2 hu hl⟩,
      fun hu hl => ⟨f5 hu hl, o3 hu hl⟩⟩
  refine ⟨key s, ?_⟩
  intro m hdone hm hfind
  obtain ⟨⟨a1, a2, a3, a4⟩, ⟨b1, b2, b3, b4⟩⟩ := done_frame s req m
  have hres : ∃ st : LLHTTPAssetStorage, handleMsg s m = LLHTTPAssetRequest_delete st req
      ∧ st.mTransfers = s.mTransfers ∧ st.mPendingDownload = s.mPendingDownload
      ∧ st.mPendingUpload = s.mPendingUpload
      ∧ st.mPendingLocalUpload = s.mPendingLocalUpload := by
    unfold handleMsg
    rw [hm]
    simp only [hdone, if_true, hfind]
    by_cases hul : (req.mIsUpload || req.mIsLocalUpload) = true
    · exact ⟨uploadDone s req m, by simp [hul], a1, a2, a3, a4⟩
    · by_cases hd : req.mIsDownload = true
      · exact ⟨downloadDone s req m, by simp [hul, hd], b1, b2, b3, b4⟩
      · exact ⟨s, by simp [hul, hd], rfl, rfl, rfl, rfl⟩
  obtain ⟨st, heq, hT, hD, hU, hL⟩ := hres
  obtain ⟨k1, _, k3, k4, k5⟩ := key st
  rw [heq]
  refine ⟨?_, ?_, ?_, ?_⟩
  · unfold findTransfer
    rw [k1, hT]
    exact findTransfer_filter s.mTransfers h
  · intro hu
    rw [← hL, ← hD]
    exact k3 hu
  · intro hu hl
    rw [← hU, ← hD]
    exact k4 hu hl
  · intro hu hl
    rw [← hU, ← hL]
    exact k5 hu hl

/-- Witness for C12: the download Transfer (handle 0) of the transferring storage completes
with HTTP 500 while an upload and a local-upload are in flight. -/
theorem completion_releases_slot_witness :
    (transferOf transferringStorage 0).mCurlHandle = some 0
    ∧ transferringStorage.mPendingUpload = true
    ∧ transferringStorage.mPendingLocalUpload = true
    ∧ transferringStorage.mPendingDownload = true
    ∧ (findTransfer (handleMsg transferringStorage
          (CURLMsg.mk CURLMSG.CURLMSG_DONE 0 CURLcode.CURLE_OK 500)) 0 = none
      ∧ ((transferOf transferringStorage 0).mIsUpload = true →
          (handleMsg transferringStorage
            (CURLMsg.mk CURLMSG.CURLMSG_DONE 0 CURLcode.CURLE_OK 500)).mPendingUpload = false
          ∧ (handleMsg transferringStorage
              (CURLMsg.mk CURLMSG.CURLMSG_DONE 0 CURLcode.CURLE_OK 500)).mPendingLocalUpload
            = transferringStorage.mPendingLocalUpload
          ∧ (handleMsg transferringStorage
              (CURLMsg.mk CURLMSG.CURLMSG_DONE 0 CURLcode.CURLE_OK 500)).mPendingDownload
            = transferringStorage.mPendingDownload)
      ∧ ((transferOf transferringStorage 0).mIsUpload = false →
          (transferOf transferringStorage 0).mIsLocalUpload = true →
          (handleMsg transferringStorage
            (CURLMsg.mk CURLMSG.CURLMSG_DONE 0 CURLcode.CURLE_OK 500)).mPendingLocalUpload
            = false
          ∧ (handleMsg transferringStorage
              (CURLMsg.mk CURLMSG.CURLMSG_DONE 0 CURLcode.CURLE_OK 500)).mPendingUpload
            = transferringStorage.mPendingUpload
          ∧ (handleMsg transferringStorage
              (CURLMsg.mk CURLMSG.CURLMSG_DONE 0 CURLcode.CURLE_OK 500)).mPendingDownload
            = transferringStorage.mPendingDownload)
      ∧ ((transferOf transferringStorage 0).mIsUpload = false →
          (transferOf transferringStorage 0).mIsLocalUpload = false →
          (handleMsg transferringStorage
            (CURLMsg.mk CURLMSG.CURLMSG_DONE 0 CURLcode.CURLE_OK 500)).mPendingDownload = false
          ∧ (handleMsg transferringStorage
              (CURLMsg.mk CURLMSG.CURLMSG_DONE 0 CURLcode.CURLE_OK 500)).mPendingUpload
            = transferringStorage.mPendingUpload
          ∧ (handleMsg transferringStorage
              (CURLMsg.mk CURLMSG.CURLMSG_DONE 0 CURLcode.CURLE_OK 500)).mPendingLocalUpload
            = transferringStorage.mPendingLocalUpload)) :=
  ⟨by decide, by decide, by decide, by decide,
    (completion_releases_slot transferringStorage (transferOf transferringStorage 0) 0
      (by decide) (by decide) (by decide)).2
      (CURLMsg.mk CURLMSG.CURLMSG_DONE 0 CURLcode.CURLE_OK 500) (by decide) (by decide)
      (by decide)⟩


/-! ### URLs -/

/-- A string shorter than the buffer is copied whole by `snprintf`. -/
theorem snprintf_fits (size : Nat) (str : String) (h : str.length < size) :
    snprintf size str = str := by
  cases str with
  | mk data =>
    have hlen : data.length ≤ size - 1 := by
      simp only [String.length] at h
      omega
    simp [snprintf, List.take_of_length_le hlen]

/-- The conversion `%36s` leaves a string of 36 characters as it is. -/
theorem pad36_exact (str : String) (h : str.length = 36) : pad36 str = str := by
  cases str with
  | mk data =>
    simp only [String.length] at h
    simp only [pad36, String.length, h, Nat.sub_self, List.replicate_zero]
    rfl


/-- C13: when the URL fits the buffer, the Transfer that a tick starts for the head of a queue
carries this URL: for a download, `getBaseURL(id, type)`, a slash, the 36-character string of
the asset id, a dot and the asset type name; for an upload, the base URL, a slash, the id
string, a dot and the type name, followed by `.gz` exactly when the asset type is object; for
a local-upload, the local base URL, a slash, the id string, a dot and the type name, and
nothing more. -/
theorem tick_urls (X : Externals) (s : LLHTTPAssetStorage) (t : LLUUID) :
    (∀ r rest, s.mPendingDownloads = r :: rest → s.mPendingDownload = false →
      (X.uuidToString r.mUUID).length = 36 →
      (getBaseURL X s r.mUUID r.mType ++ "/" ++ X.uuidToString r.mUUID ++ "."
        ++ X.lookup r.mType).length < X.MAX_STRING →
      ∃ tr, (promoteDownload X s t).mTransfers = s.mTransfers ++ [tr]
        ∧ tr.mIsDownload = true
        ∧ tr.mURLBuffer = getBaseURL X s r.mUUID r.mType ++ "/" ++ X.uuidToString r.mUUID
            ++ "." ++ X.lookup r.mType)
    ∧ (∀ r rest, s.mPendingUploads = r :: rest → s.mPendingUpload = false →
      (s.mBaseURL ++ "/" ++ X.uuidToString r.mUUID ++ "." ++ X.lookup r.mType
        ++ (if r.mType = EType.AT_OBJECT then ".gz" else "")).length < X.MAX_STRING →
      ∃ tr, (promoteUpload X s).mTransfers = s.mTransfers ++ [tr]
        ∧ tr.mIsUpload = true
        ∧ (r.mType = EType.AT_OBJECT →
            tr.mURLBuffer = s.mBaseURL ++ "/" ++ X.uuidToString r.mUUID ++ "."
              ++ X.lookup r.mType ++ ".gz")
        ∧ (r.mType ≠ EType.AT_OBJECT →
            tr.mURLBuffer = s.mBaseURL ++ "/" ++ X.uuidToString r.mUUID ++ "."
              ++ X.lookup r.mType))
    ∧ (∀ r rest, s.mPendingLocalUploads = r :: rest → s.mPendingLocalUpload = false →
      (X.uuidToString r.mUUID).length = 36 →
      (s.mLocalBaseURL ++ "/" ++ X.uuidToString r.mUUID ++ "."
        ++ X.lookup r.mType).length < X.MAX_STRING →
      ∃ tr, (promoteLocalUpload X s).mTransfers = s.mTransfers ++ [tr]
        ∧ tr.mIsLocalUpload = true
        ∧ tr.mURLBuffer = s.mLocalBaseURL ++ "/" ++ X.uuidToString r.mUUID ++ "."
            ++ X.lookup r.mType) := by
  refine ⟨?_, ?_, ?_⟩
  · intro r rest hq hf h36 hfit
    unfold promoteDownload
    simp only [hq, hf, Bool.not_false, if_true]
    simp only [setupCurlHandle, curl_multi_add_handle, LLHTTPAssetRequest_new, pad36_exact _ h36,
      snprintf_fits _ _ hfit]
    exact ⟨_, rfl, rfl, rfl⟩
  · intro r rest hq hf hfit
    unfold promoteUpload
    simp only [hq, hf, Bool.not_false, if_true]
    by_cases hc : r.mType = EType.AT_OBJECT
    · simp only [hc, if_true, String.append_empty] at hfit
      simp only [hc, decide_True, if_true, snprintf_fits _ _ hfit, setupCurlHandle,
        curl_multi_add_handle, LLHTTPAssetRequest_new, prepareCompressedUpload]
      exact ⟨_, rfl, rfl, fun _ => rfl, fun h => absurd rfl h⟩
    · simp only [hc, if_false, String.append_empty] at hfit
      simp only [hc, decide_False, if_false, snprintf_fits _ _ hfit, setupCurlHandle,
        curl_multi_add_handle, LLHTTPAssetRequest_new, Bool.false_eq_true]
      exact ⟨_, rfl, rfl, fun h => h.elim, fun _ => rfl⟩
  · intro r rest hq hf h36 hfit
    unfold promoteLocalUpload
    simp only [hq, hf, Bool.not_false, if_true]
    simp only [setupCurlHandle, curl_multi_add_handle, LLHTTPAssetRequest_new, pad36_exact _ h36,
      snprintf_fits _ _ hfit]
    exact ⟨_, rfl, rfl, rfl⟩

/-- Witness for C13: the URLs of the three Transfers that a tick starts on the queued
storage (sound 2 to download, sound 7 to upload, object 8 to upload locally). -/
theorem tick_urls_witness :
    (∃ tr, (promoteDownload sampleExternals queuedStorage 100).mTransfers
        = queuedStorage.mTransfers ++ [tr]
      ∧ tr.mIsDownload = true
      ∧ tr.mURLBuffer = getBaseURL sampleExternals queuedStorage 2 EType.AT_SOUND ++ "/"
          ++ sampleExternals.uuidToString 2 ++ "." ++ sampleExternals.lookup EType.AT_SOUND)
    ∧ (promoteDownload sampleExternals queuedStorage 100).mTransfers.map (fun r => r.mURLBuffer)
        = ["http://asset.example/base/000000000000000000000000000000000002.sound"]
    ∧ (promoteUpload sampleExternals queuedStorage).mTransfers.map (fun r => r.mURLBuffer)
        = ["http://asset.example/base/000000000000000000000000000000000007.sound"]
    ∧ (promoteLocalUpload sampleExternals queuedStorage).mTransfers.map (fun r => r.mURLBuffer)
        = ["http://localhost:12041/asset/000000000000000000000000000000000008.object"]
    ∧ (promoteUpload sampleExternals
        (storeAssetData stockedStorage 8 EType.AT_OBJECT none 0 false false false 0)).mTransfers.map
        (fun r => r.mURLBuffer)
        = ["http://asset.example/base/000000000000000000000000000000000008.object.gz"] :=
  ⟨(tick_urls sampleExternals queuedStorage 100).1
      { mUUID := 2, mType := EType.AT_SOUND, mDownCallback := some 4, mUserData := 45 }
      [{ mUUID := 1, mType := EType.AT_TEXTURE, mDownCallback := some 3, mUserData := 44 }]
      (by decide) (by decide) (by decide) (by decide),
    by decide, by decide, by decide, by decide⟩


/-! ### The temp-asset map -/

/-- Assigning one key does not change what is found under another. -/
theorem lookup_tempAssign_ne (k k2 : LLUUID) (v : LLTempAssetData)
    (m : List (LLUUID × LLTempAssetData)) (hne : k2 ≠ k) :
    (tempAssign k v m).lookup k2 = m.lookup k2 := by
  have hb : (k2 == k) = false := by simpa using hne
  induction m with
  | nil => simp [tempAssign, List.lookup, hb]
  | cons e rest ih =>
    obtain ⟨k1, v1⟩ := e
    unfold tempAssign
    by_cases h1 : k < k1
    · simp [h1, List.lookup, hb]
    · by_cases h2 : k = k1
      · subst h2
        simp [List.lookup, hb]
      · simp only [h1, h2, if_false, List.lookup]
        cases (k2 == k1) with
        | true => rfl
        | false => exact ih

/-- Nothing is found under a key that no entry carries. -/
theorem lookup_absent (k : LLUUID) (m : List (LLUUID × LLTempAssetData))
    (h : ∀ e ∈ m, e.1 ≠ k) : m.lookup k = none := by
  induction m with
  | nil => rfl
  | cons e rest ih =>
    obtain ⟨k1, v1⟩ := e
    have h1 : k1 ≠ k := h (k1, v1) (List.mem_cons_self _ _)
    have hb : (k == k1) = false := by simpa using fun hh => h1 hh.symm
    simp only [List.lookup, hb]
    exact ih (fun e he => h e (List.mem_cons_of_mem _ he))

/-- The iterator loop of `removeTempAssetDataByAgentID` keeps exactly the entries of other
agents, in their order. -/
theorem eraseByAgent_eq_filter (g : LLUUID) (m : List (LLUUID × LLTempAssetData)) :
    eraseByAgent g m = m.filter (fun e => decide (e.2.mAgentID ≠ g)) := by
  induction m with
  | nil => rfl
  | cons e rest ih =>
    obtain ⟨k, d⟩ := e
    unfold eraseByAgent
    by_cases h : d.mAgentID = g
    · simp [h, ih]
    · simp [h, ih]

/-- C14: `addTempAssetData` called with a null asset id or a null agent id returns without a
fatal error and changes nothing: the storage, its temp-asset map included, is as before. -/
theorem addTempAssetData_null (s : LLHTTPAssetStorage) (asset_id agent_id : LLUUID)
    (host_name : String)
    (hnull : asset_id = LLUUID_null ∨ agent_id = LLUUID_null) :
    addTempAssetData s asset_id agent_id host_name = s := by
  unfold addTempAssetData
  rcases hnull with h | h <;> simp [isNull, h]

/-- Witness for C14: registering texture 23 without an agent on the registered storage. -/
theorem addTempAssetData_null_witness :
    addTempAssetData registeredStorage 23 LLUUID_null "simC" = registeredStorage
    ∧ registeredStorage.mTempAssets.map (fun e => e.1) = [21, 22] :=
  ⟨addTempAssetData_null registeredStorage 23 LLUUID_null "simC" (Or.inr rfl), by decide⟩

/-- C15: after `addTempAssetData(a, g, h)` with non-null `a` and `g`, `hasTempAssetData(a)`
holds, `getTempAssetHostName(a)` is `h` and `getTempAssetAgentID(a)` is `g`, and the three
queries answer as before for every other asset id; for an asset id that no entry of the map
carries, the queries answer false, the empty string and the null id. -/
theorem tempAsset_queries (s : LLHTTPAssetStorage) (a g : LLUUID) (h : String)
    (ha : a ≠ LLUUID_null) (hg : g ≠ LLUUID_null) :
    hasTempAssetData (addTempAssetData s a g h) a = true
    ∧ getTempAssetHostName (addTempAssetData s a g h) a = h
    ∧ getTempAssetAgentID (addTempAssetData s a g h) a = g
    ∧ (∀ b, b ≠ a →
        hasTempAssetData (addTempAssetData s a g h) b = hasTempAssetData s b
        ∧ getTempAssetHostName (addTempAssetData s a g h) b = getTempAssetHostName s b
        ∧ getTempAssetAgentID (addTempAssetData s a g h) b = getTempAssetAgentID s b)
    ∧ (∀ (st : LLHTTPAssetStorage) (b : LLUUID), (∀ e ∈ st.mTempAssets, e.1 ≠ b) →
        hasTempAssetData st b = false
        ∧ getTempAssetHostName st b = ""
        ∧ getTempAssetAgentID st b = LLUUID_null) := by
  have hnull : (isNull g || isNull a) = false := by simp [isNull, ha, hg]
  have hmap : (addTempAssetData s a g h).mTempAssets
      = tempAssign a { mAssetID := a, mAgentID := g, mHostName := h } s.mTempAssets := by
    simp [addTempAssetData, hnull]
  refine ⟨?_, ?_, ?_, ?_, ?_⟩
  · simp [hasTempAssetData, hmap, lookup_tempAssign]
  · simp [getTempAssetHostName, hmap, lookup_tempAssign]
  · simp [getTempAssetAgentID, hmap, lookup_tempAssign]
  · intro b hb
    simp [hasTempAssetData, getTempAssetHostName, getTempAssetAgentID, hmap,
      lookup_tempAssign_ne a b _ _ hb]
  · intro st b hb
    simp [hasTempAssetData, getTempAssetHostName, getTempAssetAgentID,
      lookup_absent b st.mTempAssets hb]

/-- Witness for C15: texture 22 is registered for agent 6 on host `simB` on top of texture
21; the entry of texture 21 answers as before and texture 23 has no entry. -/
theorem tempAsset_queries_witness :
    hasTempAssetData registeredStorage 22 = true
    ∧ getTempAssetHostName registeredStorage 22 = "simB"
    ∧ getTempAssetAgentID registeredStorage 22 = 6
    ∧ getTempAssetHostName registeredStorage 21 = "simA"
    ∧ hasTempAssetData registeredStorage 23 = false :=
  ⟨(tempAsset_queries (addTempAssetData stockedStorage 21 5 "simA") 22 6 "simB"
      (by decide) (by decide)).1,
    (tempAsset_queries (addTempAssetData stockedStorage 21 5 "simA") 22 6 "simB"
      (by decide) (by decide)).2.1,
    (tempAsset_queries (addTempAssetData stockedStorage 21 5 "simA") 22 6 "simB"
      (by decide) (by decide)).2.2.1,
    by decide, by decide⟩

/-- C16: `removeTempAssetDataByAgentID(g)` leaves a map that holds exactly the entries of the
original map whose agent id differs from `g`, unchanged and in their order; no entry of agent
`g` remains, and nothing else in the storage changes. -/
theorem removeByAgent_exact (s : LLHTTPAssetStorage) (g : LLUUID) :
    (removeTempAssetDataByAgentID s g).mTempAssets
      = s.mTempAssets.filter (fun e => decide (e.2.mAgentID ≠ g))
    ∧ (∀ e, e ∈ (removeTempAssetDataByAgentID s g).mTempAssets
        ↔ e ∈ s.mTempAssets ∧ e.2.mAgentID ≠ g)
    ∧ (∀ e ∈ (removeTempAssetDataByAgentID s g).mTempAssets, e.2.mAgentID ≠ g)
    ∧ { removeTempAssetDataByAgentID s g with mTempAssets := s.mTempAssets } = s := by
  have heq : (removeTempAssetDataByAgentID s g).mTempAssets
      = s.mTempAssets.filter (fun e => decide (e.2.mAgentID ≠ g)) :=
    eraseByAgent_eq_filter g s.mTempAssets
  refine ⟨heq, ?_, ?_, rfl⟩
  · intro e
    rw [heq, List.mem_filter]
    simp
  · intro e he
    rw [heq, List.mem_filter] at he
    simpa using he.2

/-- C17: `getBaseURL` returns the per-host URL built from the registered host name when the
asset type is texture and the asset id has an entry in the temp-asset map; for a texture
without an entry and for every other asset type, registered or not, it returns the base URL.
It only reads the storage. -/
theorem getBaseURL_cases (X : Externals) (s : LLHTTPAssetStorage) (asset_id : LLUUID)
    (asset_type : EType) :
    (asset_type = EType.AT_TEXTURE → hasTempAssetData s asset_id = true →
      getBaseURL X s asset_id asset_type
        = X.localAssetURL (getTempAssetHostName s asset_id))
    ∧ (asset_type = EType.AT_TEXTURE → hasTempAssetData s asset_id = false →
      getBaseURL X s asset_id asset_type = s.mBaseURL)
    ∧ (asset_type ≠ EType.AT_TEXTURE → getBaseURL X s asset_id asset_type = s.mBaseURL) := by
  unfold getBaseURL hasTempAssetData getTempAssetHostName
  refine ⟨?_, ?_, ?_⟩
  · intro ht hhas
    cases hl : s.mTempAssets.lookup asset_id with
    | none => simp [hl] at hhas
    | some d => simp [ht]
  · intro ht hhas
    cases hl : s.mTempAssets.lookup asset_id with
    | none => simp [ht]
    | some d => simp [hl] at hhas
  · intro ht
    have : ¬ EType.AT_TEXTURE = asset_type := fun h => ht h.symm
    simp [this]

/-- Examples for C16 and C17 on the registered storage: removing the entries of agent 5
leaves texture 22 only; texture 21 resolves to its host, sound 21 and texture 23 to the base
URL. -/
theorem registry_examples :
    (removeTempAssetDataByAgentID registeredStorage 5).mTempAssets.map (fun e => e.1) = [22]
    ∧ getBaseURL sampleExternals registeredStorage 21 EType.AT_TEXTURE
        = "http://simA:12041/asset"
    ∧ getBaseURL sampleExternals registeredStorage 21 EType.AT_SOUND
        = "http://asset.example/base"
    ∧ getBaseURL sampleExternals registeredStorage 23 EType.AT_TEXTURE
        = "http://asset.example/base" := by
  decide


/-! ### The blocking fetch -/

/-- The poll loop stops either on a `CURLMSG_DONE` message, with `xfer_result` still 0, or on
the expiry of the timer, with the generic failure. -/
theorem pollLoop_result (callback : Option Nat) (userdata : Nat) (rounds : List PollRound)
    (s : LLHTTPAssetStorage) :
    ((pollLoop callback userdata s rounds).2.1 = none
      ∧ (pollLoop callback userdata s rounds).2.2 = LLErr.LL_ERR_ASSET_REQUEST_FAILED)
    ∨ (∃ m, (pollLoop callback userdata s rounds).2.1 = some m
      ∧ m.msg = CURLMSG.CURLMSG_DONE
      ∧ (pollLoop callback userdata s rounds).2.2 = LLErr.LL_ERR_NOERR) := by
  induction rounds generalizing s with
  | nil => left; exact ⟨rfl, rfl⟩
  | cons r rest ih =>
    unfold pollLoop
    cases hm : r.curl_msg with
    | none =>
      cases he : r.expired with
      | true => left; simp
      | false => simpa using ih _
    | some m =>
      by_cases hd : m.msg = CURLMSG.CURLMSG_DONE
      · right; exact ⟨m, by simp [hd], hd, by simp [hd]⟩
      · cases he : r.expired with
        | true => left; simp [hd]
        | false => simpa [hd] using ih _

/-- Without a `CURLMSG_DONE` message the poll loop ends on the expiry of the timer. -/
theorem pollLoop_timeout (callback : Option Nat) (userdata : Nat) (rounds : List PollRound)
    (s : LLHTTPAssetStorage)
    (hnone : ∀ r ∈ rounds, ∀ m, r.curl_msg = some m → m.msg ≠ CURLMSG.CURLMSG_DONE) :
    (pollLoop callback userdata s rounds).2.1 = none := by
  induction rounds generalizing s with
  | nil => rfl
  | cons r rest ih =>
    have hrest : ∀ r2 ∈ rest, ∀ m, r2.curl_msg = some m → m.msg ≠ CURLMSG.CURLMSG_DONE :=
      fun r2 h2 => hnone r2 (List.mem_cons_of_mem _ h2)
    unfold pollLoop
    cases hm : r.curl_msg with
    | none =>
      cases he : r.expired with
      | true => simp
      | false => simpa using ih _ hrest
    | some m =>
      have hd := hnone r (List.mem_cons_self _ _) m hm
      cases he : r.expired with
      | true => simp [hd]
      | false => simpa [hd] using ih _ hrest

/-- A removed file is not on the disk. -/
theorem lookup_diskRemove (name : String) (disk : List (String × List Nat)) :
    (diskRemove name disk).lookup name = none := by
  unfold diskRemove
  induction disk with
  | nil => rfl
  | cons e rest ih =>
    obtain ⟨n1, d1⟩ := e
    by_cases hk : n1 = name
    · simpa [List.filter_cons, hk] using ih
    · have hb : (name == n1) = false := by
        simpa using fun h => hk h.symm
      simpa [List.filter_cons, hk, List.lookup, hb] using ih

/-- The destructor does not touch the disk. -/
theorem delete_mDisk (s : LLHTTPAssetStorage) (req : LLHTTPAssetRequest) :
    (LLHTTPAssetRequest_delete s req).mDisk = s.mDisk := by
  unfold LLHTTPAssetRequest_delete
  cases req.mCurlHandle with
  | none => rfl
  | some h =>
    cases req.mAssetStoragep <;> cases req.mIsUpload <;> cases req.mIsLocalUpload <;>
      cases req.mIsDownload <;> simp [curl_multi_remove_handle, emit]

/-- A positive `ftell` means the file is on the disk and is not empty. -/
theorem ftell_pos (disk : List (String × List Nat)) (name : String)
    (h : 0 < ftell disk name) : ∃ d, disk.lookup name = some d ∧ d ≠ [] := by
  unfold ftell at h
  cases hl : disk.lookup name with
  | none => simp [hl] at h
  | some d =>
    refine ⟨d, rfl, ?_⟩
    intro hd
    simp [hl, hd] at h

/-- What `getURLToFile` returns and leaves on the disk once the destination was opened, in
terms of the outcome of its poll loop. -/
theorem getURLToFile_opened (s : LLHTTPAssetStorage) (uuid : LLUUID) (asset_type : EType)
    (url filename : String) (callback : Option Nat) (userdata : Nat)
    (rounds : List PollRound) :
    ∃ (s3 : LLHTTPAssetStorage) (curl_msg : Option CURLMsg) (x0 : LLErr),
      ((curl_msg = none ∧ x0 = LLErr.LL_ERR_ASSET_REQUEST_FAILED)
        ∨ (∃ m, curl_msg = some m ∧ m.msg = CURLMSG.CURLMSG_DONE ∧ x0 = LLErr.LL_ERR_NOERR))
      ∧ ((∀ r ∈ rounds, ∀ m, r.curl_msg = some m → m.msg ≠ CURLMSG.CURLMSG_DONE) →
          curl_msg = none)
      ∧ (getURLToFile s uuid asset_type url filename callback userdata true rounds).1
        = (match curl_msg with
          | some m =>
            if m.http_code = HTTP_OK ∧ m.result = CURLcode.CURLE_OK then
              if ftell s3.mDisk filename > 0 then x0 else LLErr.LL_ERR_ASSET_REQUEST_FAILED
            else
              if m.http_code = HTTP_MISSING then LLErr.LL_ERR_ASSET_REQUEST_NOT_IN_DATABASE
              else LLErr.LL_ERR_ASSET_REQUEST_FAILED
          | none => x0)
      ∧ (getURLToFile s uuid asset_type url filename callback userdata true rounds).2.mDisk
        = (if (getURLToFile s uuid asset_type url filename callback userdata true rounds).1
              ≠ LLErr.LL_ERR_NOERR then diskRemove filename s3.mDisk
          else s3.mDisk) := by
  unfold getURLToFile
  simp only [Bool.not_true, Bool.false_eq_true, if_false]
  generalize hp : pollLoop callback userdata _ rounds = p
  have h1 : (p.2.1 = none ∧ p.2.2 = LLErr.LL_ERR_ASSET_REQUEST_FAILED)
      ∨ (∃ m, p.2.1 = some m ∧ m.msg = CURLMSG.CURLMSG_DONE ∧ p.2.2 = LLErr.LL_ERR_NOERR) := by
    rw [← hp]
    exact pollLoop_result callback userdata rounds _
  have h2 : (∀ r ∈ rounds, ∀ m, r.curl_msg = some m → m.msg ≠ CURLMSG.CURLMSG_DONE) →
      p.2.1 = none := by
    intro hnone
    rw [← hp]
    exact pollLoop_timeout callback userdata rounds _ hnone
  obtain ⟨s3, curl_msg, x0⟩ := p
  refine ⟨s3, curl_msg, x0, h1, h2, rfl, ?_⟩
  simp only [delete_mDisk, apply_ite LLHTTPAssetStorage.mDisk]

/-- Once `getURLToFile` has opened the destination, a failure code means the destination
file is gone from the disk when it returns, and the code 0 means it is still there (and holds
the downloaded bytes); when no completion is reported at all, the result is the generic failure
and the destination file is removed. -/
theorem getURLToFile_outcome (s : LLHTTPAssetStorage) (uuid : LLUUID) (asset_type : EType)
    (url filename : String) (callback : Option Nat) (userdata : Nat)
    (rounds : List PollRound) :
    ((getURLToFile s uuid asset_type url filename callback userdata true rounds).1
        ≠ LLErr.LL_ERR_NOERR →
      (getURLToFile s uuid asset_type url filename callback userdata true rounds).2.mDisk.lookup
        filename = none)
    ∧ ((getURLToFile s uuid asset_type url filename callback userdata true rounds).1
        = LLErr.LL_ERR_NOERR →
      ∃ d, (getURLToFile s uuid asset_type url filename callback userdata true
          rounds).2.mDisk.lookup filename = some d ∧ d ≠ [])
    ∧ ((∀ r ∈ rounds, ∀ m, r.curl_msg = some m → m.msg ≠ CURLMSG.CURLMSG_DONE) →
      (getURLToFile s uuid asset_type url filename callback userdata true rounds).1
        = LLErr.LL_ERR_ASSET_REQUEST_FAILED
      ∧ (getURLToFile s uuid asset_type url filename callback userdata true
          rounds).2.mDisk.lookup filename = none) := by
  obtain ⟨s3, cm, x0, h1, h2, hr, hd⟩ :=
    getURLToFile_opened s uuid asset_type url filename callback userdata rounds
  have part1 : (getURLToFile s uuid asset_type url filename callback userdata true rounds).1
        ≠ LLErr.LL_ERR_NOERR →
      (getURLToFile s uuid asset_type url filename callback userdata true rounds).2.mDisk.lookup
        filename = none := by
    intro hne
    rw [hd, if_pos hne]
    exact lookup_diskRemove filename s3.mDisk
  refine ⟨part1, ?_, ?_⟩
  · intro heq
    rw [hd, if_neg (not_not.mpr heq)]
    apply ftell_pos
    rw [hr] at heq
    rcases h1 with ⟨hc, hx⟩ | ⟨m, hc, _, hx⟩
    · rw [hc, hx] at heq
      cases heq
    · rw [hc] at heq
      simp only at heq
      by_cases hcond : m.http_code = HTTP_OK ∧ m.result = CURLcode.CURLE_OK
      · rw [if_pos hcond] at heq
        by_cases hsz : ftell s3.mDisk filename > 0
        · exact hsz
        · rw [if_neg hsz] at heq
          cases heq
      · rw [if_neg hcond] at heq
        split at heq <;> cases heq
  · intro hnone
    have hc := h2 hnone
    have hx : x0 = LLErr.LL_ERR_ASSET_REQUEST_FAILED := by
      rcases h1 with ⟨_, hx⟩ | ⟨m, hm, _, _⟩
      · exact hx
      · rw [hc] at hm
        cases hm
    have hres : (getURLToFile s uuid asset_type url filename callback userdata true rounds).1
        = LLErr.LL_ERR_ASSET_REQUEST_FAILED := by
      rw [hr, hc, hx]
    refine ⟨hres, part1 ?_⟩
    rw [hres]
    decide

/-- The poll loop stops at the first round that reports a completion or finds the timer
expired: the rounds after it are never run. -/
theorem pollLoop_stop (callback : Option Nat) (userdata : Nat) (pre post : List PollRound)
    (r : PollRound)
    (hpre : ∀ p ∈ pre, p.expired = false
      ∧ ∀ m, p.curl_msg = some m → m.msg ≠ CURLMSG.CURLMSG_DONE)
    (hr : r.expired = true ∨ ∃ m, r.curl_msg = some m ∧ m.msg = CURLMSG.CURLMSG_DONE) :
    ∀ s, pollLoop callback userdata s (pre ++ r :: post)
      = pollLoop callback userdata s (pre ++ [r]) := by
  induction pre with
  | nil =>
    intro s
    simp only [List.nil_append]
    unfold pollLoop
    cases hm : r.curl_msg with
    | none =>
      rcases hr with he | ⟨m, hm2, _⟩
      · simp [he]
      · rw [hm] at hm2
        cases hm2
    | some m =>
      by_cases hd : m.msg = CURLMSG.CURLMSG_DONE
      · simp [hd]
      · rcases hr with he | ⟨m2, hm2, hd2⟩
        · simp [hd, he]
        · rw [hm] at hm2
          cases hm2
          exact absurd hd2 hd
  | cons p pre ih =>
    intro s
    have hp := hpre p (List.mem_cons_self _ _)
    have hrest : ∀ q ∈ pre, q.expired = false
        ∧ ∀ m, q.curl_msg = some m → m.msg ≠ CURLMSG.CURLMSG_DONE :=
      fun q hq => hpre q (List.mem_cons_of_mem _ hq)
    simp only [List.cons_append]
    unfold pollLoop
    cases hm : p.curl_msg with
    | none => simp [hp.1, ih hrest]
    | some m =>
      have hd := hp.2 m hm
      simp [hd, hp.1, ih hrest]

/-- While the timer has not expired and no completion is reported the poll loop goes on: a
completion reported after such rounds is the message the loop stops on. -/
theorem pollLoop_done (callback : Option Nat) (userdata : Nat) (pre post : List PollRound)
    (r : PollRound) (m : CURLMsg)
    (hpre : ∀ p ∈ pre, p.expired = false
      ∧ ∀ m, p.curl_msg = some m → m.msg ≠ CURLMSG.CURLMSG_DONE)
    (hm : r.curl_msg = some m) (hd : m.msg = CURLMSG.CURLMSG_DONE) :
    ∀ s, (pollLoop callback userdata s (pre ++ r :: post)).2
      = (some m, LLErr.LL_ERR_NOERR) := by
  induction pre with
  | nil =>
    intro s
    simp only [List.nil_append]
    unfold pollLoop
    simp [hm, hd]
  | cons p pre ih =>
    intro s
    have hp := hpre p (List.mem_cons_self _ _)
    have hrest : ∀ q ∈ pre, q.expired = false
        ∧ ∀ m, q.curl_msg = some m → m.msg ≠ CURLMSG.CURLMSG_DONE :=
      fun q hq => hpre q (List.mem_cons_of_mem _ hq)
    simp only [List.cons_append]
    unfold pollLoop
    cases hm2 : p.curl_msg with
    | none => simp [hp.1, ih hrest]
    | some m2 =>
      have hd2 := hp.2 m2 hm2
      simp [hd2, hp.1, ih hrest]

/-- C19: once `getURLToFile` has opened the destination, a failure code means the destination
file is gone from the disk when it returns, and the code 0 means it is still there (and holds
the downloaded bytes). When the timer is found expired in a round that reports no completion,
after rounds in which it had not expired and no completion was reported, the function leaves
its poll loop there (whatever the engine would have done afterwards plays no part), returns the
generic failure and removes the destination file; the same holds when the rounds end without
any completion. While the timer has not expired the loop goes on: a completion reported after
such rounds is the one that is classified (HTTP 404 gives the not-in-database error). -/
theorem getURLToFile_cleanup (s : LLHTTPAssetStorage) (uuid : LLUUID) (asset_type : EType)
    (url filename : String) (callback : Option Nat) (userdata : Nat)
    (rounds : List PollRound) :
    ((getURLToFile s uuid asset_type url filename callback userdata true rounds).1
        ≠ LLErr.LL_ERR_NOERR →
      (getURLToFile s uuid asset_type url filename callback userdata true rounds).2.mDisk.lookup
        filename = none)
    ∧ ((getURLToFile s uuid asset_type url filename callback userdata true rounds).1
        = LLErr.LL_ERR_NOERR →
      ∃ d, (getURLToFile s uuid asset_type url filename callback userdata true
          rounds).2.mDisk.lookup filename = some d ∧ d ≠ [])
    ∧ ((∀ r ∈ rounds, ∀ m, r.curl_msg = some m → m.msg ≠ CURLMSG.CURLMSG_DONE) →
      (getURLToFile s uuid asset_type url filename callback userdata true rounds).1
        = LLErr.LL_ERR_ASSET_REQUEST_FAILED
      ∧ (getURLToFile s uuid asset_type url filename callback userdata true
          rounds).2.mDisk.lookup filename = none)
    ∧ (∀ (pre post : List PollRound) (r : PollRound), rounds = pre ++ r :: post →
      (∀ p ∈ pre, p.expired = false
        ∧ ∀ m, p.curl_msg = some m → m.msg ≠ CURLMSG.CURLMSG_DONE) →
      (∀ m, r.curl_msg = some m → m.msg ≠ CURLMSG.CURLMSG_DONE) →
      r.expired = true →
      (getURLToFile s uuid asset_type url filename callback userdata true rounds).1
        = LLErr.LL_ERR_ASSET_REQUEST_FAILED
      ∧ (getURLToFile s uuid asset_type url filename callback userdata true
          rounds).2.mDisk.lookup filename = none
      ∧ getURLToFile s uuid asset_type url filename callback userdata true rounds
        = getURLToFile s uuid asset_type url filename callback userdata true (pre ++ [r]))
    ∧ (∀ (pre post : List PollRound) (r : PollRound) (m : CURLMsg),
      rounds = pre ++ r :: post →
      (∀ p ∈ pre, p.expired = false
        ∧ ∀ m, p.curl_msg = some m → m.msg ≠ CURLMSG.CURLMSG_DONE) →
      r.curl_msg = some m → m.msg = CURLMSG.CURLMSG_DONE →
      getURLToFile s uuid asset_type url filename callback userdata true rounds
        = getURLToFile s uuid asset_type url filename callback userdata true (pre ++ [r])
      ∧ (m.http_code = HTTP_MISSING →
        (getURLToFile s uuid asset_type url filename callback userdata true rounds).1
          = LLErr.LL_ERR_ASSET_REQUEST_NOT_IN_DATABASE)) := by
  obtain ⟨h1, h2, h3⟩ :=
    getURLToFile_outcome s uuid asset_type url filename callback userdata rounds
  refine ⟨h1, h2, h3, ?_, ?_⟩
  · intro pre post r hrounds hpre hr hexp
    have heq : getURLToFile s uuid asset_type url filename callback userdata true rounds
        = getURLToFile s uuid asset_type url filename callback userdata true (pre ++ [r]) := by
      rw [hrounds]
      unfold getURLToFile
      simp only [pollLoop_stop callback userdata pre post r hpre (Or.inl hexp)]
    have hquiet : ∀ q ∈ pre ++ [r], ∀ m, q.curl_msg = some m →
        m.msg ≠ CURLMSG.CURLMSG_DONE := by
      intro q hq
      rcases List.mem_append.mp hq with h | h
      · exact (hpre q h).2
      · rw [List.mem_singleton] at h
        rw [h]
        exact hr
    obtain ⟨_, _, h3b⟩ :=
      getURLToFile_outcome s uuid asset_type url filename callback userdata (pre ++ [r])
    rw [heq]
    exact ⟨(h3b hquiet).1, (h3b hquiet).2, rfl⟩
  · intro pre post r m hrounds hpre hm hd
    have heq : getURLToFile s uuid asset_type url filename callback userdata true rounds
        = getURLToFile s uuid asset_type url filename callback userdata true (pre ++ [r]) := by
      rw [hrounds]
      unfold getURLToFile
      simp only [pollLoop_stop callback userdata pre post r hpre (Or.inr ⟨m, hm, hd⟩)]
    refine ⟨heq, ?_⟩
    intro h404
    rw [hrounds]
    unfold getURLToFile
    simp only [Bool.not_true, Bool.false_eq_true, if_false]
    generalize hp : pollLoop callback userdata _ (pre ++ r :: post) = p
    have hp2 : p.2 = (some m, LLErr.LL_ERR_NOERR) := by
      rw [← hp]
      exact pollLoop_done callback userdata pre post r m hpre hm hd _
    obtain ⟨s3, cm, x0⟩ := p
    simp only [Prod.mk.injEq] at hp2
    obtain ⟨hcm, hx0⟩ := hp2
    subst hcm hx0
    simp [h404, HTTP_MISSING, HTTP_OK]

/-- Examples for C19 on a fresh storage: a fetch that receives two bytes and completes with
HTTP 200 returns 0 and leaves the file; a fetch whose timer expires after a partial body
returns the generic failure and leaves no file, also when the engine would have reported a
completion in the next round; a fetch whose body and completion arrive in a second round,
the timer not having expired in the first, returns 0. -/
theorem getURLToFile_cleanup_examples :
    (getURLToFile freshStorage 9 EType.AT_SOUND "http://sim.example/state" "out.bin" none 0 true
        [PollRound.mk [WriteCall.mk 0 [1, 2] 2]
          (some (CURLMsg.mk CURLMSG.CURLMSG_DONE 0 CURLcode.CURLE_OK 200)) false]).1
      = LLErr.LL_ERR_NOERR
    ∧ (getURLToFile freshStorage 9 EType.AT_SOUND "http://sim.example/state" "out.bin" none 0
        true
        [PollRound.mk [WriteCall.mk 0 [1, 2] 2]
          (some (CURLMsg.mk CURLMSG.CURLMSG_DONE 0 CURLcode.CURLE_OK 200)) false]).2.mDisk
      = [("out.bin", [1, 2])]
    ∧ (getURLToFile freshStorage 9 EType.AT_SOUND "http://sim.example/state" "out.bin" none 0
        true [PollRound.mk [WriteCall.mk 0 [1, 2] 9] none false,
              PollRound.mk [] none true]).1
      = LLErr.LL_ERR_ASSET_REQUEST_FAILED
    ∧ (getURLToFile freshStorage 9 EType.AT_SOUND "http://sim.example/state" "out.bin" none 0
        true [PollRound.mk [WriteCall.mk 0 [1, 2] 9] none false,
              PollRound.mk [] none true]).2.mDisk
      = []
    ∧ (getURLToFile freshStorage 9 EType.AT_SOUND "http://sim.example/state" "out.bin" none 0
        true [PollRound.mk [WriteCall.mk 0 [1, 2] 9] none true,
              PollRound.mk [WriteCall.mk 0 [3] 9]
                (some (CURLMsg.mk CURLMSG.CURLMSG_DONE 0 CURLcode.CURLE_OK 200)) false])
      = (LLErr.LL_ERR_ASSET_REQUEST_FAILED,
          (getURLToFile freshStorage 9 EType.AT_SOUND "http://sim.example/state" "out.bin" none
            0 true [PollRound.mk [WriteCall.mk 0 [1, 2] 9] none true]).2)
    ∧ (getURLToFile freshStorage 9 EType.AT_SOUND "http://sim.example/state" "out.bin" none 0
        true [PollRound.mk [] none false,
              PollRound.mk [WriteCall.mk 0 [1, 2] 2]
                (some (CURLMsg.mk CURLMSG.CURLMSG_DONE 0 CURLcode.CURLE_OK 200)) false]).1
      = LLErr.LL_ERR_NOERR := by
  decide


/-! ### Order of the queues under admission -/

/-- The download queue after a sequence of admissions: the non-texture requests, latest
first, then the queue as it was, then the texture requests, earliest first. -/
theorem queueDataRequests_shape (l : List DownloadAdmission) (s : LLHTTPAssetStorage) :
    (queueDataRequests s l).mPendingDownloads
      = ((l.filter (fun a => decide (a.type ≠ EType.AT_TEXTURE))).map
            DownloadAdmission.toRequest).reverse
        ++ s.mPendingDownloads
        ++ (l.filter (fun a => decide (a.type = EType.AT_TEXTURE))).map
            DownloadAdmission.toRequest := by
  induction l generalizing s with
  | nil => simp [queueDataRequests]
  | cons a rest ih =>
    have hstep : queueDataRequests s (a :: rest)
        = queueDataRequests (_queueDataRequest s a.uuid a.type a.callback a.user_data
            a.duplicate a.is_priority) rest := rfl
    rw [hstep, ih]
    by_cases ht : a.type = EType.AT_TEXTURE
    · simp [_queueDataRequest, ht, DownloadAdmission.toRequest]
    · simp [_queueDataRequest, ht, DownloadAdmission.toRequest]

/-- The upload queues after a sequence of store admissions: priority requests, latest first,
then the upload queue as it was, then the ordinary requests, earliest first; the local-upload
queue as it was, then the local requests, earliest first. Requests for assets that the
virtual file system does not hold are not queued. -/
theorem storeAssetDatas_shape (l : List StoreAdmission) (s : LLHTTPAssetStorage) :
    (storeAssetDatas s l).mVFS = s.mVFS
    ∧ (storeAssetDatas s l).mPendingUploads
      = ((l.filter (fun a => LLVFS_getExists s.mVFS a.uuid a.type && !a.store_local
            && a.is_priority)).map StoreAdmission.toRequest).reverse
        ++ s.mPendingUploads
        ++ (l.filter (fun a => LLVFS_getExists s.mVFS a.uuid a.type && !a.store_local
            && !a.is_priority)).map StoreAdmission.toRequest
    ∧ (storeAssetDatas s l).mPendingLocalUploads
      = s.mPendingLocalUploads
        ++ (l.filter (fun a => LLVFS_getExists s.mVFS a.uuid a.type && a.store_local)).map
            StoreAdmission.toRequest := by
  induction l generalizing s with
  | nil => simp [storeAssetDatas]
  | cons a rest ih =>
    have hstep : storeAssetDatas s (a :: rest)
        = storeAssetDatas (storeAssetData s a.uuid a.type a.callback a.user_data a.temp_file
            a.is_priority a.store_local a.requesting_agent_id) rest := rfl
    have hvfs : (storeAssetData s a.uuid a.type a.callback a.user_data a.temp_file
        a.is_priority a.store_local a.requesting_agent_id).mVFS = s.mVFS := by
      unfold storeAssetData
      cases LLVFS_getExists s.mVFS a.uuid a.type <;> cases a.callback <;>
        cases a.store_local <;> cases a.is_priority <;> rfl
    obtain ⟨i1, i2, i3⟩ := ih (storeAssetData s a.uuid a.type a.callback a.user_data a.temp_file
      a.is_priority a.store_local a.requesting_agent_id)
    rw [hstep, i1, i2, i3, hvfs]
    refine ⟨rfl, ?_, ?_⟩
    · unfold storeAssetData
      cases he : LLVFS_getExists s.mVFS a.uuid a.type <;> cases hc : a.callback <;>
        cases hl : a.store_local <;> cases hp : a.is_priority <;>
        simp [he, hl, hp, emit, StoreAdmission.toRequest, hc]
    · unfold storeAssetData
      cases he : LLVFS_getExists s.mVFS a.uuid a.type <;> cases hc : a.callback <;>
        cases hl : a.store_local <;> cases hp : a.is_priority <;>
        simp [he, hl, hp, emit, StoreAdmission.toRequest, hc]

/-- C20 (amended): within a queue, requests admitted at the back keep their order of
admission (texture downloads, ordinary uploads, local-uploads: first in, first out), while
requests admitted at the front stand in the reverse order of admission (non-texture downloads,
priority uploads: the later one is nearer the head). The queue as it was before the admissions
stays together and in order between the two groups, so an admission never changes the relative
order of requests already queued. -/
theorem admission_order (s : LLHTTPAssetStorage) :
    (∀ l : List DownloadAdmission,
      (queueDataRequests s l).mPendingDownloads
        = ((l.filter (fun a => decide (a.type ≠ EType.AT_TEXTURE))).map
              DownloadAdmission.toRequest).reverse
          ++ s.mPendingDownloads
          ++ (l.filter (fun a => decide (a.type = EType.AT_TEXTURE))).map
              DownloadAdmission.toRequest
      ∧ s.mPendingDownloads.Sublist (queueDataRequests s l).mPendingDownloads)
    ∧ (∀ l : List StoreAdmission,
      (storeAssetDatas s l).mPendingUploads
        = ((l.filter (fun a => LLVFS_getExists s.mVFS a.uuid a.type && !a.store_local
              && a.is_priority)).map StoreAdmission.toRequest).reverse
          ++ s.mPendingUploads
          ++ (l.filter (fun a => LLVFS_getExists s.mVFS a.uuid a.type && !a.store_local
              && !a.is_priority)).map StoreAdmission.toRequest
      ∧ (storeAssetDatas s l).mPendingLocalUploads
        = s.mPendingLocalUploads
          ++ (l.filter (fun a => LLVFS_getExists s.mVFS a.uuid a.type && a.store_local)).map
              StoreAdmission.toRequest
      ∧ s.mPendingUploads.Sublist (storeAssetDatas s l).mPendingUploads
      ∧ s.mPendingLocalUploads.Sublist (storeAssetDatas s l).mPendingLocalUploads) := by
  constructor
  · intro l
    refine ⟨queueDataRequests_shape l s, ?_⟩
    rw [queueDataRequests_shape l s]
    exact (List.sublist_append_right _ _).trans (List.sublist_append_left _ _)
  · intro l
    obtain ⟨_, hu, hl⟩ := storeAssetDatas_shape l s
    refine ⟨hu, hl, ?_, ?_⟩
    · rw [hu]
      exact (List.sublist_append_right _ _).trans (List.sublist_append_left _ _)
    · rw [hl]
      exact List.sublist_append_left _ _

/-- C20, counterexample: two non-texture downloads (sounds 1 then 2) end with the later
one at the head, and so do two priority uploads (asset 7 then asset 8): in both queues the
request admitted earlier is farther from the head, not nearer. -/
theorem fifo_same_priority_counterexample :
    (queueDataRequests freshStorage
        [{ uuid := 1, type := EType.AT_SOUND }, { uuid := 2, type := EType.AT_SOUND }]
      ).mPendingDownloads.map (fun r => r.mUUID) = [2, 1]
    ∧ ¬ (List.indexOf 1 ((queueDataRequests freshStorage
          [{ uuid := 1, type := EType.AT_SOUND }, { uuid := 2, type := EType.AT_SOUND }]
        ).mPendingDownloads.map (fun r => r.mUUID))
        < List.indexOf 2 ((queueDataRequests freshStorage
          [{ uuid := 1, type := EType.AT_SOUND }, { uuid := 2, type := EType.AT_SOUND }]
        ).mPendingDownloads.map (fun r => r.mUUID)))
    ∧ (storeAssetDatas stockedStorage
        [{ uuid := 7, type := EType.AT_SOUND, is_priority := true },
         { uuid := 8, type := EType.AT_OBJECT, is_priority := true }]
      ).mPendingUploads.map (fun r => r.mUUID) = [8, 7] := by
  decide

/-- Example for C20: textures 1 and 3 and ordinary uploads 7 and 8 keep their order of
admission. -/
theorem admission_order_example :
    (queueDataRequests freshStorage
        [{ uuid := 1, type := EType.AT_TEXTURE }, { uuid := 3, type := EType.AT_TEXTURE }]
      ).mPendingDownloads.map (fun r => r.mUUID) = [1, 3]
    ∧ (storeAssetDatas stockedStorage
        [{ uuid := 7, type := EType.AT_SOUND }, { uuid := 8, type := EType.AT_OBJECT }]
      ).mPendingUploads.map (fun r => r.mUUID) = [7, 8] := by
  decide


/-! ### Fatal errors at destruction -/

/-- C21 (amended): destroying a Transfer whose handle was set up and none of whose direction
flags is set raises a fatal error; a Transfer whose handle was never set up is destroyed
without any fatal error, whatever its flags (the storage is left exactly as it was); and
destroying a Transfer with a direction flag set and an associated storage raises no fatal
error. -/
theorem delete_fatal_cases (s : LLHTTPAssetStorage) (req : LLHTTPAssetRequest) :
    (req.mCurlHandle ≠ none → req.mIsUpload = false → req.mIsLocalUpload = false →
      req.mIsDownload = false →
      ∃ message, (LLHTTPAssetRequest_delete s req).mTrace = s.mTrace ++ [Event.llerrs message])
    ∧ (req.mCurlHandle = none → LLHTTPAssetRequest_delete s req = s)
    ∧ (req.mAssetStoragep = true →
      (req.mIsUpload = true ∨ req.mIsLocalUpload = true ∨ req.mIsDownload = true) →
      (LLHTTPAssetRequest_delete s req).mTrace = s.mTrace) := by
  refine ⟨?_, ?_, ?_⟩
  · intro hh hu hl hd
    unfold LLHTTPAssetRequest_delete
    cases hc : req.mCurlHandle with
    | none => exact absurd hc hh
    | some h =>
      cases hs : req.mAssetStoragep
      · exact ⟨"LLHTTPAssetRequest::~LLHTTPAssetRequest - No asset storage associated with this request!",
          by simp [emit, curl_multi_remove_handle]⟩
      · exact ⟨"LLHTTPAssetRequest::~LLHTTPAssetRequest - Destroyed request is not upload OR download, this is bad!",
          by simp [hu, hl, hd, emit, curl_multi_remove_handle]⟩
  · intro hh
    unfold LLHTTPAssetRequest_delete
    rw [hh]
  · intro hs hc
    unfold LLHTTPAssetRequest_delete
    cases hh : req.mCurlHandle with
    | none => rfl
    | some h =>
      cases hu : req.mIsUpload <;> cases hl : req.mIsLocalUpload <;>
        cases hd : req.mIsDownload <;> simp_all [curl_multi_remove_handle]

/-- C21, counterexample: a request that was constructed but never set up (no handle, no
direction flag) is destroyed without a fatal error; the same request with a handle raises
one. -/
theorem delete_unset_direction_counterexample :
    (LLHTTPAssetRequest_new 1 EType.AT_SOUND "http://asset.example/x").mIsUpload = false
    ∧ (LLHTTPAssetRequest_new 1 EType.AT_SOUND "http://asset.example/x").mIsLocalUpload = false
    ∧ (LLHTTPAssetRequest_new 1 EType.AT_SOUND "http://asset.example/x").mIsDownload = false
    ∧ (LLHTTPAssetRequest_delete freshStorage
        (LLHTTPAssetRequest_new 1 EType.AT_SOUND "http://asset.example/x")).mTrace = []
    ∧ (LLHTTPAssetRequest_delete freshStorage
        { LLHTTPAssetRequest_new 1 EType.AT_SOUND "http://asset.example/x" with
          mCurlHandle := some 0 }).mTrace.length = 1 := by
  decide


/-! ### Staged downloads -/

/-- C22, evaluated at the failing input: the download of asset 2 receives an empty body (the
write function is called with zero bytes, which opens a staging file of size 0 under scratch
id 100) and completes with HTTP 200 and transport OK. The callback gets the not-in-database
error, but no removal is made and the staging file is still in the virtual file system; on the
failure path (HTTP 404) the same file is removed. -/
theorem empty_body_keeps_staging_file :
    LLVFS_getExists emptyStagedStorage.mVFS 100 EType.AT_NONE = true
    ∧ LLVFS_getSize emptyStagedStorage.mVFS 100 EType.AT_NONE = 0
    ∧ downloadCallbacks (handleMsg emptyStagedStorage
        (CURLMsg.mk CURLMSG.CURLMSG_DONE 0 CURLcode.CURLE_OK 200)).mTrace
      = [(LLErr.LL_ERR_ASSET_REQUEST_NOT_IN_DATABASE, 2, EType.AT_SOUND)]
    ∧ removals (handleMsg emptyStagedStorage
        (CURLMsg.mk CURLMSG.CURLMSG_DONE 0 CURLcode.CURLE_OK 200)).mTrace = []
    ∧ LLVFS_getExists (handleMsg emptyStagedStorage
        (CURLMsg.mk CURLMSG.CURLMSG_DONE 0 CURLcode.CURLE_OK 200)).mVFS 100 EType.AT_NONE = true
    ∧ LLVFS_getExists (handleMsg emptyStagedStorage
        (CURLMsg.mk CURLMSG.CURLMSG_DONE 0 CURLcode.CURLE_OK 404)).mVFS 100 EType.AT_NONE
      = false := by
  decide

theorem getSize_eq_length (vfs : LLVFS) (id : LLUUID) (type : EType) :
    LLVFS_getSize vfs id type = ((LLVFS_getData vfs id type).length : Int) := by
  unfold LLVFS_getSize LLVFS_getData
  split <;> simp

/-- The message on which the poll loop stops is one that `curl_multi_info_read` returned in
some round. -/
theorem pollLoop_msg_mem (callback : Option Nat) (userdata : Nat) (rounds : List PollRound)
    (s : LLHTTPAssetStorage) (m : CURLMsg)
    (h : (pollLoop callback userdata s rounds).2.1 = some m) :
    ∃ r ∈ rounds, r.curl_msg = some m := by
  induction rounds generalizing s with
  | nil => simp [pollLoop] at h
  | cons r rest ih =>
    unfold pollLoop at h
    cases hm : r.curl_msg with
    | none =>
      rw [hm] at h
      cases he : r.expired with
      | true => simp [he] at h
      | false =>
        simp only [he, Bool.false_eq_true, if_false] at h
        obtain ⟨r2, hr2, h2⟩ := ih _ h
        exact ⟨r2, List.mem_cons_of_mem _ hr2, h2⟩
    | some m2 =>
      rw [hm] at h
      by_cases hd : m2.msg = CURLMSG.CURLMSG_DONE
      · simp only [hd, if_true] at h
        cases h
        exact ⟨r, List.mem_cons_self _ _, hm⟩
      · cases he : r.expired with
        | true => simp [hd, he] at h
        | false =>
          simp only [hd, he, Bool.false_eq_true, if_false] at h
          obtain ⟨r2, hr2, h2⟩ := ih _ h
          exact ⟨r2, List.mem_cons_of_mem _ hr2, h2⟩

/-- The blocking fetch returns the not-in-database error only on a completion message with
HTTP status 404; an empty body with status 200 never yields it. -/
theorem getURLToFile_not_found (s : LLHTTPAssetStorage) (uuid : LLUUID) (asset_type : EType)
    (url filename : String) (callback : Option Nat) (userdata : Nat) (fopen_ok : Bool)
    (rounds : List PollRound)
    (h : (getURLToFile s uuid asset_type url filename callback userdata fopen_ok rounds).1
      = LLErr.LL_ERR_ASSET_REQUEST_NOT_IN_DATABASE) :
    ∃ r ∈ rounds, ∃ m, r.curl_msg = some m ∧ m.msg = CURLMSG.CURLMSG_DONE
      ∧ m.http_code = 404 := by
  cases fopen_ok with
  | false => simp [getURLToFile] at h
  | true =>
    unfold getURLToFile at h
    simp only [Bool.not_true, Bool.false_eq_true, if_false] at h
    generalize hp : pollLoop callback userdata _ rounds = p at h
    have h1 : (p.2.1 = none ∧ p.2.2 = LLErr.LL_ERR_ASSET_REQUEST_FAILED)
        ∨ (∃ m, p.2.1 = some m ∧ m.msg = CURLMSG.CURLMSG_DONE
          ∧ p.2.2 = LLErr.LL_ERR_NOERR) := by
      rw [← hp]
      exact pollLoop_result callback userdata rounds _
    have h3 : ∀ m, p.2.1 = some m → ∃ r ∈ rounds, r.curl_msg = some m := by
      intro m hm
      rw [← hp] at hm
      exact pollLoop_msg_mem callback userdata rounds _ m hm
    obtain ⟨s3, cm, x0⟩ := p
    simp only at h h1 h3
    rcases h1 with ⟨hc, hx⟩ | ⟨m, hc, hd, hx⟩
    · rw [hc, hx] at h
      cases h
    · obtain ⟨r, hr, hrm⟩ := h3 m hc
      refine ⟨r, hr, m, hrm, hd, ?_⟩
      rw [hc, hx] at h
      simp only at h
      by_cases hcond : m.http_code = HTTP_OK ∧ m.result = CURLcode.CURLE_OK
      · rw [if_pos hcond] at h
        split at h <;> cases h
      · rw [if_neg hcond] at h
        by_cases h404 : m.http_code = HTTP_MISSING
        · exact h404
        · rw [if_neg h404] at h
          cases h

/-- C26, evaluated at the failing input: the blocking fetch completes with HTTP 200 and
transport OK without a single byte written to the destination; it returns the generic failure,
whereas for HTTP 404 it returns the not-in-database error. -/
theorem blocking_fetch_empty_body :
    (getURLToFile freshStorage 9 EType.AT_SOUND "http://sim.example/state" "out.bin" none 0 true
        [PollRound.mk [] (some (CURLMsg.mk CURLMSG.CURLMSG_DONE 0 CURLcode.CURLE_OK 200))
          false]).1
      = LLErr.LL_ERR_ASSET_REQUEST_FAILED
    ∧ (getURLToFile freshStorage 9 EType.AT_SOUND "http://sim.example/state" "out.bin" none 0
        true
        [PollRound.mk [WriteCall.mk 0 [] 0]
          (some (CURLMsg.mk CURLMSG.CURLMSG_DONE 0 CURLcode.CURLE_OK 200)) false]).1
      = LLErr.LL_ERR_ASSET_REQUEST_FAILED
    ∧ (getURLToFile freshStorage 9 EType.AT_SOUND "http://sim.example/state" "out.bin" none 0
        true
        [PollRound.mk [] (some (CURLMsg.mk CURLMSG.CURLMSG_DONE 0 CURLcode.CURLE_OK 404))
          false]).1
      = LLErr.LL_ERR_ASSET_REQUEST_NOT_IN_DATABASE := by
  decide

/-- C28, evaluated at the failing input: a queued download is in flight under handle 0 when
the blocking fetch starts (its own handle is 1). The engine delivers two of ten bytes to the
fetch and reports the completion of handle 0. The fetch leaves its loop on that message: with
HTTP 200 it returns 0 although its own operation has not finished, with HTTP 404 it returns
the not-in-database error; the queued Transfer, whose completion was consumed, stays
attached. -/
theorem blocking_fetch_foreign_completion :
    inFlightStorage.mNextHandle = 1
    ∧ (findTransfer inFlightStorage 0).map (fun r => (r.mUUID, r.mIsDownload))
        = some (7, true)
    ∧ (getURLToFile inFlightStorage 9 EType.AT_SOUND "http://sim.example/state" "out.bin" none 0
        true
        [PollRound.mk [WriteCall.mk 1 [1, 2] 10]
          (some (CURLMsg.mk CURLMSG.CURLMSG_DONE 0 CURLcode.CURLE_OK 200)) false]).1
      = LLErr.LL_ERR_NOERR
    ∧ (getURLToFile inFlightStorage 9 EType.AT_SOUND "http://sim.example/state" "out.bin" none 0
        true
        [PollRound.mk [WriteCall.mk 1 [1, 2] 10]
          (some (CURLMsg.mk CURLMSG.CURLMSG_DONE 0 CURLcode.CURLE_OK 200)) false]).2.mDisk
      = [("out.bin", [1, 2])]
    ∧ (getURLToFile inFlightStorage 9 EType.AT_SOUND "http://sim.example/state" "out.bin" none 0
        true
        [PollRound.mk [WriteCall.mk 1 [1, 2] 10]
          (some (CURLMsg.mk CURLMSG.CURLMSG_DONE 0 CURLcode.CURLE_OK 404)) false]).1
      = LLErr.LL_ERR_ASSET_REQUEST_NOT_IN_DATABASE
    ∧ ((getURLToFile inFlightStorage 9 EType.AT_SOUND "http://sim.example/state" "out.bin" none
        0 true
        [PollRound.mk [WriteCall.mk 1 [1, 2] 10]
          (some (CURLMsg.mk CURLMSG.CURLMSG_DONE 0 CURLcode.CURLE_OK 200)) false]).2.mTransfers.map
        (fun r => r.mCurlHandle)) = [some 0] := by
  decide


/-! ### The plain upload read callback -/

theorem toS32_id (x : Int) (h0 : 0 ≤ x) (h1 : x < 2147483648) : toS32 x = x := by
  unfold toS32
  omega

/-- The request found under a handle after an in-place update of that handle. -/
theorem findTransfer_update (s : LLHTTPAssetStorage) (h : Nat) (req : LLHTTPAssetRequest)
    (g : LLHTTPAssetRequest → LLHTTPAssetRequest)
    (hg : ∀ r, (g r).mCurlHandle = r.mCurlHandle)
    (hfind : findTransfer s h = some req) :
    findTransfer (updateTransfer s h g) h = some (g req) := by
  unfold findTransfer updateTransfer at *
  simp only [List.find?_map]
  have hcomp : ((fun r : LLHTTPAssetRequest => decide (r.mCurlHandle = some h)) ∘
      fun r : LLHTTPAssetRequest => if r.mCurlHandle = some h then g r else r)
      = fun r : LLHTTPAssetRequest => decide (r.mCurlHandle = some h) := by
    funext r
    simp only [Function.comp]
    split
    · rw [hg]
    · rfl
  rw [hcomp, hfind]
  have hh : req.mCurlHandle = some h := by
    have := List.find?_some hfind
    simpa using this
  simp [hh]

/-- One call of `curlUpCallback` on a request whose source handle stands at position `p`. -/
theorem curlUpCallback_step (s : LLHTTPAssetStorage) (h size nmemb : Nat)
    (req : LLHTTPAssetRequest) (f : LLVFile) (p : Nat)
    (hfind : findTransfer s h = some req)
    (hf : f = (match req.mVFile with
      | some f0 => f0
      | none => { mFileID := req.mUUID, mFileType := req.mType, mMode := VFileMode.READ }))
    (hp : f.mPosition = (p : Int))
    (hpL : p ≤ (LLVFS_getData s.mVFS f.mFileID f.mFileType).length)
    (hn : size * nmemb < 2147483648) :
    (curlUpCallback s h size nmemb).2.1
      = ((LLVFS_getData s.mVFS f.mFileID f.mFileType).drop p).take
          (min (size * nmemb) ((LLVFS_getData s.mVFS f.mFileID f.mFileType).length - p))
    ∧ (curlUpCallback s h size nmemb).2.2
      = ((min (size * nmemb)
          ((LLVFS_getData s.mVFS f.mFileID f.mFileType).length - p) : Nat) : Int)
    ∧ (curlUpCallback s h size nmemb).1.mVFS = s.mVFS
    ∧ findTransfer (curlUpCallback s h size nmemb).1 h
      = some { req with
          mVFile := some { f with
            mPosition := ((p + min (size * nmemb)
              ((LLVFS_getData s.mVFS f.mFileID f.mFileType).length - p) : Nat) : Int)
            mBytesRead := ((min (size * nmemb)
              ((LLVFS_getData s.mVFS f.mFileID f.mFileType).length - p) : Nat) : Int) } } := by
  have hbytes : min (toS32 ((size * nmemb : Nat) : Int))
      (LLVFS_getSize s.mVFS f.mFileID f.mFileType - f.mPosition)
      = ((min (size * nmemb)
          ((LLVFS_getData s.mVFS f.mFileID f.mFileType).length - p) : Nat) : Int) := by
    rw [toS32_id _ (Int.ofNat_nonneg _) (by exact_mod_cast hn), getSize_eq_length, hp]
    omega
  have hlen : (((LLVFS_getData s.mVFS f.mFileID f.mFileType).drop p).take
      (min (size * nmemb) ((LLVFS_getData s.mVFS f.mFileID f.mFileType).length - p))).length
      = min (size * nmemb) ((LLVFS_getData s.mVFS f.mFileID f.mFileType).length - p) := by
    rw [List.length_take, List.length_drop]
    omega
  have hread : LLVFile_read s.mVFS f (min (toS32 ((size * nmemb : Nat) : Int))
      (LLVFS_getSize s.mVFS f.mFileID f.mFileType - f.mPosition))
      = ({ f with
            mPosition := ((p + min (size * nmemb)
              ((LLVFS_getData s.mVFS f.mFileID f.mFileType).length - p) : Nat) : Int)
            mBytesRead := ((min (size * nmemb)
              ((LLVFS_getData s.mVFS f.mFileID f.mFileType).length - p) : Nat) : Int) },
          ((LLVFS_getData s.mVFS f.mFileID f.mFileType).drop p).take
            (min (size * nmemb)
              ((LLVFS_getData s.mVFS f.mFileID f.mFileType).length - p))) := by
    unfold LLVFile_read
    rw [hbytes, hp]
    simp only [Int.toNat_ofNat, hlen, Nat.cast_add]
  have hcall : curlUpCallback s h size nmemb
      = (updateTransfer s h (fun q => { q with mVFile := some (LLVFile_read s.mVFS f
            (min (toS32 ((size * nmemb : Nat) : Int))
              (LLVFS_getSize s.mVFS f.mFileID f.mFileType - f.mPosition))).1 }),
          (LLVFile_read s.mVFS f (min (toS32 ((size * nmemb : Nat) : Int))
              (LLVFS_getSize s.mVFS f.mFileID f.mFileType - f.mPosition))).2,
          (LLVFile_read s.mVFS f (min (toS32 ((size * nmemb : Nat) : Int))
              (LLVFS_getSize s.mVFS f.mFileID f.mFileType - f.mPosition))).1.mBytesRead) := by
    unfold curlUpCallback
    simp only [hfind]
    rw [← hf]
  rw [hcall, hread]
  refine ⟨rfl, rfl, rfl, ?_⟩
  exact findTransfer_update s h req _ (fun r => rfl) hfind

/-- Serving `n` bytes and then `m` more is serving `n + m` bytes. -/
theorem take_chain (D : List Nat) (n m : Nat) :
    D.take (min n D.length) ++ (D.drop (min n D.length)).take m = D.take (n + m) := by
  by_cases hle : n ≤ D.length
  · rw [Nat.min_eq_left hle, List.take_add]
  · have hge : D.length ≤ n := Nat.le_of_lt (Nat.lt_of_not_le hle)
    rw [Nat.min_eq_right hge, List.take_of_length_le (Nat.le_refl _),
      List.drop_of_length_le (Nat.le_refl _), List.take_nil, List.append_nil,
      List.take_of_length_le (by omega)]

/-- Successive calls of `curlUpCallback` from position `p` serve the source bytes that follow
`p`, in order, up to the sum of the requested amounts. -/
theorem curlUpCalls_spec (ns : List Nat) (s : LLHTTPAssetStorage) (h : Nat)
    (req : LLHTTPAssetRequest) (f : LLVFile) (p : Nat)
    (hfind : findTransfer s h = some req)
    (hf : f = (match req.mVFile with
      | some f0 => f0
      | none => { mFileID := req.mUUID, mFileType := req.mType, mMode := VFileMode.READ }))
    (hp : f.mPosition = (p : Int))
    (hpL : p ≤ (LLVFS_getData s.mVFS f.mFileID f.mFileType).length)
    (hns : ∀ n ∈ ns, n < 2147483648) :
    (curlUpCalls s h ns).2
      = ((LLVFS_getData s.mVFS f.mFileID f.mFileType).drop p).take ns.sum
    ∧ (curlUpCalls s h ns).1.mVFS = s.mVFS
    ∧ ∃ req2 f2, findTransfer (curlUpCalls s h ns).1 h = some req2
      ∧ f2 = (match req2.mVFile with
        | some f0 => f0
        | none => { mFileID := req2.mUUID, mFileType := req2.mType, mMode := VFileMode.READ })
      ∧ f2.mFileID = f.mFileID ∧ f2.mFileType = f.mFileType
      ∧ f2.mPosition
        = ((p + min ns.sum
            ((LLVFS_getData s.mVFS f.mFileID f.mFileType).length - p) : Nat) : Int) := by
  induction ns generalizing s req f p with
  | nil =>
    refine ⟨by simp [curlUpCalls], rfl, req, f, hfind, hf, rfl, rfl, ?_⟩
    simp [hp]
  | cons n rest ih =>
    have hn : 1 * n < 2147483648 := by
      rw [Nat.one_mul]
      exact hns n (List.mem_cons_self _ _)
    obtain ⟨s1, s2, s3, s4⟩ := curlUpCallback_step s h 1 n req f p hfind hf hp hpL hn
    rw [Nat.one_mul] at s1 s2 s4
    have hrest : ∀ n2 ∈ rest, n2 < 2147483648 :=
      fun n2 h2 => hns n2 (List.mem_cons_of_mem _ h2)
    obtain ⟨i1, i2, req2, f2, i3, i4, i5, i6, i7⟩ := ih (curlUpCallback s h 1 n).1
      { req with
          mVFile := some { f with
            mPosition := ((p + min n
              ((LLVFS_getData s.mVFS f.mFileID f.mFileType).length - p) : Nat) : Int)
            mBytesRead := ((min n
              ((LLVFS_getData s.mVFS f.mFileID f.mFileType).length - p) : Nat) : Int) } }
      { f with
          mPosition := ((p + min n
            ((LLVFS_getData s.mVFS f.mFileID f.mFileType).length - p) : Nat) : Int)
          mBytesRead := ((min n
            ((LLVFS_getData s.mVFS f.mFileID f.mFileType).length - p) : Nat) : Int) }
      (p + min n ((LLVFS_getData s.mVFS f.mFileID f.mFileType).length - p))
      s4 rfl rfl (by rw [s3]; simp only; omega) hrest
    simp only [s3] at i1 i7
    have hout : (curlUpCalls s h (n :: rest)).2
        = (curlUpCallback s h 1 n).2.1 ++ (curlUpCalls (curlUpCallback s h 1 n).1 h rest).2 :=
      rfl
    have hst : (curlUpCalls s h (n :: rest)).1
        = (curlUpCalls (curlUpCallback s h 1 n).1 h rest).1 := rfl
    refine ⟨?_, ?_, req2, f2, ?_, i4, i5, i6, ?_⟩
    · rw [hout, s1, i1, List.sum_cons]
      have hD := take_chain ((LLVFS_getData s.mVFS f.mFileID f.mFileType).drop p) n rest.sum
      rw [List.length_drop, List.drop_drop] at hD
      exact hD
    · rw [hst, i2, s3]
    · rw [hst]; exact i3
    · rw [i7, List.sum_cons]
      congr 1
      omega

/-- C23: for a source of length `L`, a read position `p <= L` and a requested amount
`n = size * nmemb` that fits a non-negative `S32`, `curlUpCallback` produces exactly
`min(n, L - p)` bytes, namely the source bytes from position `p` on, advances the position by
that amount and returns that count; it returns 0 exactly when `n = 0` or `p = L`. Successive
calls therefore deliver the source bytes after `p` once each and in order, and once they are
all delivered every further call produces nothing and returns 0. -/
theorem curlUpCallback_serves (s : LLHTTPAssetStorage) (h size nmemb : Nat)
    (req : LLHTTPAssetRequest) (f : LLVFile) (p : Nat) (src : List Nat)
    (hfind : findTransfer s h = some req)
    (hf : f = (match req.mVFile with
      | some f0 => f0
      | none => { mFileID := req.mUUID, mFileType := req.mType, mMode := VFileMode.READ }))
    (hsrc : src = LLVFS_getData s.mVFS f.mFileID f.mFileType)
    (hp : f.mPosition = (p : Int)) (hpL : p ≤ src.length)
    (hn : size * nmemb < 2147483648) :
    (curlUpCallback s h size nmemb).2.1
      = (src.drop p).take (min (size * nmemb) (src.length - p))
    ∧ (curlUpCallback s h size nmemb).2.1.length = min (size * nmemb) (src.length - p)
    ∧ (curlUpCallback s h size nmemb).2.2
      = ((min (size * nmemb) (src.length - p) : Nat) : Int)
    ∧ (∃ req2 f2, findTransfer (curlUpCallback s h size nmemb).1 h = some req2
        ∧ req2.mVFile = some f2
        ∧ f2.mPosition = ((p + min (size * nmemb) (src.length - p) : Nat) : Int))
    ∧ ((curlUpCallback s h size nmemb).2.2 = 0 ↔ (size * nmemb = 0 ∨ p = src.length))
    ∧ ∀ ns : List Nat, (∀ n ∈ ns, n < 2147483648) →
        (curlUpCalls s h ns).2 = (src.drop p).take ns.sum
        ∧ (src.length - p ≤ ns.sum →
            (curlUpCalls s h ns).2 = src.drop p
            ∧ ∀ n2, n2 < 2147483648 →
                (curlUpCallback (curlUpCalls s h ns).1 h 1 n2).2.1 = []
                ∧ (curlUpCallback (curlUpCalls s h ns).1 h 1 n2).2.2 = 0) := by
  subst hsrc
  obtain ⟨s1, s2, _, s4⟩ := curlUpCallback_step s h size nmemb req f p hfind hf hp hpL hn
  refine ⟨s1, ?_, s2, ⟨_, _, s4, rfl, rfl⟩, ?_, ?_⟩
  · rw [s1, List.length_take, List.length_drop]
    omega
  · rw [s2]
    omega
  · intro ns hns
    obtain ⟨c1, c2, req2, f2, c3, c4, c5, c6, c7⟩ :=
      curlUpCalls_spec ns s h req f p hfind hf hp hpL hns
    refine ⟨c1, ?_⟩
    intro hall
    refine ⟨?_, ?_⟩
    · rw [c1, List.take_of_length_le]
      rw [List.length_drop]
      exact hall
    · intro n2 hn2
      have hn2b : 1 * n2 < 2147483648 := by rw [Nat.one_mul]; exact hn2
      have hpos : f2.mPosition
          = (((LLVFS_getData s.mVFS f.mFileID f.mFileType).length : Nat) : Int) := by
        rw [c7]
        congr 1
        omega
      obtain ⟨t1, t2, _, _⟩ := curlUpCallback_step (curlUpCalls s h ns).1 h 1 n2 req2 f2
        (LLVFS_getData s.mVFS f.mFileID f.mFileType).length c3 c4 hpos
        (by rw [c2, c5, c6]) hn2b
      rw [c2, c5, c6] at t1 t2
      refine ⟨?_, ?_⟩
      · rw [t1]
        simp
      · rw [t2]
        simp

/-- Witness for C23: the plain upload of asset 7 (bytes 1, 2, 3), Transfer under handle 1 of
the transferring storage, is read two bytes at a time. -/
theorem curlUpCallback_serves_witness :
    findTransfer transferringStorage 1 = some (transferOf transferringStorage 1)
    ∧ (curlUpCallback transferringStorage 1 1 2).2 = ([1, 2], 2)
    ∧ (curlUpCalls transferringStorage 1 [2, 2]).2 = [1, 2, 3]
    ∧ (curlUpCallback (curlUpCalls transferringStorage 1 [2, 2]).1 1 1 2).2 = ([], 0)
    ∧ (curlUpCallback transferringStorage 1 1 2).2.1
      = (([1, 2, 3] : List Nat).drop 0).take (min (1 * 2) (([1, 2, 3] : List Nat).length - 0)) :=
  ⟨by decide, by decide, by decide, by decide,
    (curlUpCallback_serves transferringStorage 1 1 2 (transferOf transferringStorage 1)
      { mFileID := 7, mFileType := EType.AT_SOUND, mMode := VFileMode.READ } 0 [1, 2, 3]
      (by decide) (by decide) (by decide) (by decide) (by decide) (by decide)).1⟩


/-! ### Invariants of the temp-asset map -/

/-- An entry of the map after an assignment is the assigned one or an old one. -/
theorem mem_tempAssign (k : LLUUID) (v : LLTempAssetData)
    (m : List (LLUUID × LLTempAssetData)) (e : LLUUID × LLTempAssetData)
    (he : e ∈ tempAssign k v m) : e = (k, v) ∨ e ∈ m := by
  induction m with
  | nil =>
    simp only [tempAssign, List.mem_singleton] at he
    exact Or.inl he
  | cons e1 rest ih =>
    obtain ⟨k1, v1⟩ := e1
    unfold tempAssign at he
    by_cases h1 : k < k1
    · simp only [h1, if_true, List.mem_cons] at he
      rcases he with he | he | he
      · exact Or.inl he
      · exact Or.inr (by simp [he])
      · exact Or.inr (by simp [he])
    · by_cases h2 : k = k1
      · subst h2
        simp only [Nat.lt_irrefl, if_true, if_false, List.mem_cons] at he
        rcases he with he | he
        · exact Or.inl he
        · exact Or.inr (by simp [he])
      · simp only [h1, h2, if_false, List.mem_cons] at he
        rcases he with he | he
        · exact Or.inr (by simp [he])
        · rcases ih he with h3 | h3
          · exact Or.inl h3
          · exact Or.inr (by simp [h3])

/-- Assignment keeps the keys strictly ascending. -/
theorem tempAssign_sorted (k : LLUUID) (v : LLTempAssetData)
    (m : List (LLUUID × LLTempAssetData)) (hm : m.Pairwise (fun a b => a.1 < b.1)) :
    (tempAssign k v m).Pairwise (fun a b => a.1 < b.1) := by
  induction m with
  | nil => simp [tempAssign]
  | cons e1 rest ih =>
    obtain ⟨k1, v1⟩ := e1
    rw [List.pairwise_cons] at hm
    obtain ⟨hhead, htail⟩ := hm
    unfold tempAssign
    by_cases h1 : k < k1
    · simp only [h1, if_true]
      refine List.pairwise_cons.mpr ⟨?_, List.pairwise_cons.mpr ⟨hhead, htail⟩⟩
      intro e he
      rcases List.mem_cons.mp he with he | he
      · rw [he]; exact h1
      · exact Nat.lt_trans h1 (hhead e he)
    · by_cases h2 : k = k1
      · subst h2
        simp only [Nat.lt_irrefl, if_true, if_false]
        exact List.pairwise_cons.mpr ⟨hhead, htail⟩
      · simp only [h1, h2, if_false]
        refine List.pairwise_cons.mpr ⟨?_, ih htail⟩
        intro e he
        rcases mem_tempAssign k v rest e he with he | he
        · rw [he]
          exact Nat.lt_of_le_of_ne (Nat.le_of_not_lt h1) (Ne.symm h2)
        · exact hhead e he

/-- Assigning a key that is present keeps the number of entries, on a map with ascending
keys. -/
theorem tempAssign_length_present (k : LLUUID) (v : LLTempAssetData)
    (m : List (LLUUID × LLTempAssetData)) (hm : m.Pairwise (fun a b => a.1 < b.1))
    (hk : ∃ e ∈ m, e.1 = k) : (tempAssign k v m).length = m.length := by
  induction m with
  | nil =>
    obtain ⟨e, he, _⟩ := hk
    cases he
  | cons e1 rest ih =>
    obtain ⟨k1, v1⟩ := e1
    rw [List.pairwise_cons] at hm
    obtain ⟨hhead, htail⟩ := hm
    obtain ⟨e, he, hek⟩ := hk
    unfold tempAssign
    by_cases h1 : k < k1
    · exfalso
      rcases List.mem_cons.mp he with he | he
      · rw [he] at hek
        simp only at hek
        rw [hek] at h1
        exact Nat.lt_irrefl _ h1
      · have := hhead e he
        simp only at this
        rw [hek] at this
        exact Nat.lt_asymm h1 this
    · by_cases h2 : k = k1
      · simp [h2]
      · simp only [h1, h2, if_false, List.length_cons]
        rcases List.mem_cons.mp he with he | he
        · rw [he] at hek
          exact absurd hek.symm h2
        · rw [ih htail ⟨e, he, hek⟩]

/-- A key that is found in the map is the key of one of its entries. -/
theorem mem_of_lookup (k : LLUUID) (m : List (LLUUID × LLTempAssetData))
    (h : (m.lookup k).isSome = true) : ∃ e ∈ m, e.1 = k := by
  by_contra hno
  have habs : ∀ e ∈ m, e.1 ≠ k := fun e he hk => hno ⟨e, he, hk⟩
  rw [lookup_absent k m habs] at h
  cases h

/-- `addTempAssetData` keeps the map well-formed. -/
theorem addTempAssetData_ok (s : LLHTTPAssetStorage) (a g : LLUUID) (h : String)
    (hs : RegistryOK s.mTempAssets) : RegistryOK (addTempAssetData s a g h).mTempAssets := by
  unfold addTempAssetData
  by_cases hnull : (isNull g || isNull a) = true
  · simp only [hnull, if_true]
    exact hs
  · simp only [hnull, Bool.false_eq_true, if_false]
    have hg : g ≠ LLUUID_null := by
      intro hg
      exact hnull (by simp [isNull, hg])
    have ha : a ≠ LLUUID_null := by
      intro ha
      exact hnull (by simp [isNull, ha])
    refine ⟨tempAssign_sorted _ _ _ hs.1, ?_⟩
    intro e he
    rcases mem_tempAssign _ _ _ e he with he | he
    · rw [he]
      exact ⟨rfl, ha, hg⟩
    · exact hs.2 e he

/-- Keeping part of a well-formed map leaves it well-formed. -/
theorem filter_ok (p : LLUUID × LLTempAssetData → Bool) (m : List (LLUUID × LLTempAssetData))
    (hm : RegistryOK m) : RegistryOK (m.filter p) :=
  ⟨hm.1.filter p, fun e he => hm.2 e (List.mem_filter.mp he).1⟩

/-- The handling of a completion message keeps the map well-formed. -/
theorem handleMsg_ok (s : LLHTTPAssetStorage) (m : CURLMsg)
    (hs : RegistryOK s.mTempAssets) : RegistryOK (handleMsg s m).mTempAssets := by
  unfold handleMsg
  split
  · cases hf : findTransfer s m.easy_handle with
    | none => exact hs
    | some req =>
      simp only
      rw [(delete_frame _ req).2.2.2.1]
      split
      · rw [uploadDone_tempAssets]
        split
        · exact addTempAssetData_ok s _ _ _ hs
        · exact hs
      · split
        · have : (downloadDone s req m).mTempAssets = s.mTempAssets := by
            unfold downloadDone
            simp only [downloadCompleteCallback, emit, LLVFile_rename, LLVFile_remove]
            split
            · split
              · split <;> rfl
              · rfl
            · split <;> rfl
          rw [this]
          exact hs
        · exact hs
  · exact hs

/-! ### Media priorities -/

/-- C29, evaluated at the failing input: for an instance with focus the predicate holds of
the instance and itself, and for two instances with focus it holds in both directions; it is
neither irreflexive nor asymmetric. -/
theorem compare_focus_not_strict :
    compare_impl_interest (focusedImpl 5) (focusedImpl 5) = true
    ∧ compare_impl_interest (focusedImpl 5) (focusedImpl 9) = true
    ∧ compare_impl_interest (focusedImpl 9) (focusedImpl 5) = true := by
  decide

/-- Apart from focus the predicate behaves as an ordering: it is transitive throughout,
irreflexive on instances without focus, and asymmetric unless both instances have focus. -/
theorem compare_impl_interest_order (a b c : LLViewerMediaImpl) :
    (compare_impl_interest a b = true → compare_impl_interest b c = true →
      compare_impl_interest a c = true)
    ∧ (a.hasFocus = false → compare_impl_interest a a = false)
    ∧ (¬ (a.hasFocus = true ∧ b.hasFocus = true) →
      ¬ (compare_impl_interest a b = true ∧ compare_impl_interest b a = true)) := by
  unfold compare_impl_interest
  refine ⟨?_, ?_, ?_⟩
  · cases a.hasFocus <;> cases b.hasFocus <;> cases c.hasFocus <;>
      cases a.getUsedInUI <;> cases b.getUsedInUI <;> cases c.getUsedInUI <;>
      simp <;> omega
  · intro hf
    cases a.getUsedInUI <;> simp [hf]
  · cases a.hasFocus <;> cases b.hasFocus <;>
      cases a.getUsedInUI <;> cases b.getUsedInUI <;> simp <;> omega

/-- The priority loop counts every instance, and sets a priority other than
`PRIORITY_UNLOADED` only while the count has not passed `PluginInstancesTotal`. -/
theorem assignPriority_count (cfg : PluginSettings) (c : PriorityCounters)
    (pimpl : LLViewerMediaImpl) :
    (assignPriority cfg c pimpl).2.impl_count_total = toS32 (c.impl_count_total + 1)
    ∧ ((assignPriority cfg c pimpl).1 ≠ EPriority.PRIORITY_UNLOADED →
      c.impl_count_total ≤ toS32 (cfg.PluginInstancesTotal : Int))
    ∧ (c.impl_count_total ≤ toS32 (cfg.PluginInstancesTotal : Int) →
      (assignPriority cfg c pimpl).1 ≠ EPriority.PRIORITY_UNLOADED) := by
  unfold assignPriority
  simp only
  split_ifs <;> simp_all

/-- Counting the loaded instances of a list, head first. -/
theorem loadedCount_cons (p : EPriority) (l : List EPriority) :
    loadedCount (p :: l)
      = (if p = EPriority.PRIORITY_UNLOADED then 0 else 1) + loadedCount l := by
  unfold loadedCount
  by_cases hp : p = EPriority.PRIORITY_UNLOADED
  · simp [hp]
  · simp [hp, Nat.add_comm]

/-- One pass of the priority loop leaves at most `PluginInstancesTotal + 1` instances, less
those already counted, with a priority other than `PRIORITY_UNLOADED`, as long as the count of
instances stays within an `int`. -/
theorem priorityPass_bound (cfg : PluginSettings) (l : List LLViewerMediaImpl)
    (c : PriorityCounters) (h0 : 0 ≤ c.impl_count_total)
    (hlen : c.impl_count_total + (l.length : Int) < 2147483648) :
    (loadedCount (priorityPass cfg c l) : Int)
      ≤ max 0 (toS32 (cfg.PluginInstancesTotal : Int) + 1 - c.impl_count_total) := by
  induction l generalizing c with
  | nil => simp [priorityPass, loadedCount]
  | cons p rest ih =>
    obtain ⟨h1, h2, _⟩ := assignPriority_count cfg c p
    simp only [List.length_cons, Nat.cast_add, Nat.cast_one] at hlen
    have hc : toS32 (c.impl_count_total + 1) = c.impl_count_total + 1 :=
      toS32_id _ (by omega) (by omega)
    rw [hc] at h1
    have hrest := ih (assignPriority cfg c p).2 (by rw [h1]; omega) (by rw [h1]; omega)
    rw [h1] at hrest
    have hcons : priorityPass cfg c (p :: rest)
        = (assignPriority cfg c p).1 :: priorityPass cfg (assignPriority cfg c p).2 rest := rfl
    rw [hcons, loadedCount_cons]
    by_cases hp : (assignPriority cfg c p).1 = EPriority.PRIORITY_UNLOADED
    · rw [if_pos hp]
      omega
    · have := h2 hp
      rw [if_neg hp]
      omega

/-- C27, evaluated at the failing input: with `PluginInstancesTotal` set to 1 and three
in-world instances, one pass of `updateMedia` leaves two instances with a priority other than
`PRIORITY_UNLOADED` (only the third is unloaded); with the limit set to 0 a single instance is
still loaded. -/
theorem instance_limit_off_by_one :
    (updateMedia
        { PluginInstancesTotal := 1, PluginInstancesNormal := 2, PluginInstancesLow := 2,
          PluginInstancesCPULimit := 0 }
        [inworldImpl 7, inworldImpl 9, inworldImpl 8]).map
      (fun r => (r.1.getInterest, r.2))
      = [(9, EPriority.PRIORITY_NORMAL), (8, EPriority.PRIORITY_NORMAL),
         (7, EPriority.PRIORITY_UNLOADED)]
    ∧ loadedCount ((updateMedia
        { PluginInstancesTotal := 1, PluginInstancesNormal := 2, PluginInstancesLow := 2,
          PluginInstancesCPULimit := 0 }
        [inworldImpl 7, inworldImpl 9, inworldImpl 8]).map (fun r => r.2)) = 2
    ∧ loadedCount ((updateMedia
        { PluginInstancesTotal := 0, PluginInstancesNormal := 2, PluginInstancesLow := 2,
          PluginInstancesCPULimit := 0 }
        [inworldImpl 7]).map (fun r => r.2)) = 1 := by
  decide

/-- The sort keeps the number of instances. -/
theorem stable_sort_length (comp : LLViewerMediaImpl → LLViewerMediaImpl → Bool)
    (l : List LLViewerMediaImpl) : (stable_sort comp l).length = l.length := by
  have hins : ∀ (x : LLViewerMediaImpl) (m : List LLViewerMediaImpl),
      (stableInsert comp x m).length = m.length + 1 := by
    intro x m
    induction m with
    | nil => rfl
    | cons e rest ih =>
      unfold stableInsert
      split
      · simp [ih]
      · simp
  induction l with
  | nil => rfl
  | cons x rest ih =>
    unfold stable_sort
    rw [hins, ih, List.length_cons]

/-- Whatever the list, one pass of `updateMedia` leaves at most `PluginInstancesTotal + 1`
instances with a priority other than `PRIORITY_UNLOADED` (limit and number of instances within
an `int`). -/
theorem updateMedia_bound (cfg : PluginSettings) (impls : List LLViewerMediaImpl)
    (hN : cfg.PluginInstancesTotal < 2147483648) (hlen : impls.length < 2147483648) :
    loadedCount ((updateMedia cfg impls).map (fun r => r.2)) ≤ cfg.PluginInstancesTotal + 1 := by
  have hlen2 : ∀ (l : List LLViewerMediaImpl) (c : PriorityCounters),
      (priorityPass cfg c l).length = l.length := by
    intro l
    induction l with
    | nil => intro c; rfl
    | cons p rest ih => intro c; simp [priorityPass, ih]
  have hmap : (updateMedia cfg impls).map (fun r => r.2)
      = priorityPass cfg {} (stable_sort compare_impl_interest impls) := by
    unfold updateMedia
    simp only
    rw [List.map_snd_zip]
    rw [hlen2]
  rw [hmap]
  have hb := priorityPass_bound cfg (stable_sort compare_impl_interest impls) {}
    (le_refl _) (by
      rw [stable_sort_length]
      simp only [zero_add]
      exact_mod_cast hlen)
  have hs : toS32 (cfg.PluginInstancesTotal : Int) = (cfg.PluginInstancesTotal : Int) :=
    toS32_id _ (Int.ofNat_nonneg _) (by exact_mod_cast hN)
  rw [hs] at hb
  simp only at hb
  omega


/-! ### The compression codec -/

theorem storeEncoder_stepping : SteppingEncoder storeEncoder := by
  intro st inp avail_out finish
  refine ⟨Nat.min_le_left _ _, ?_, ?_⟩
  · simp only [storeEncoder, List.length_take]
    exact Nat.min_le_left _ _
  · intro hwork hroom
    simp only [storeEncoder, List.length_take]
    cases inp with
    | nil =>
      rcases hwork with h | h
      · exact absurd rfl h
      · right; right
        simp [h]
    | cons a rest =>
      left
      simp only [List.length_cons]
      omega

/-- Example: the sample encoder run on the prepared codec with room for 10 bytes returns the
two bytes of the source and leaves the codec at the end of the source, marked exhausted. -/
theorem readCompressedData_example :
    (readCompressedData storeEncoder stockedStorage.mVFS 20 preparedCodec 10).map
        (fun r => (r.2.1, r.2.2, r.1.next_in, r.1.mZInputExhausted, r.1.mVFile.mPosition))
      = some ([4, 5], 2, [], true, 2) := by
  decide

/-- What the input-refill step does, in the terms of the protocol: it reads exactly when no
input is pending and the source is not marked exhausted, and then takes the next bytes of the
source, at most 4096; the flag is raised exactly by a read that returns nothing. -/
theorem pullInput_point {σ : Type} (vfs : LLVFS) (z : ZCodec σ)
    (hpos : 0 ≤ z.mVFile.mPosition)
    (hle : z.mVFile.mPosition.toNat
      ≤ (LLVFS_getData vfs z.mVFile.mFileID z.mVFile.mFileType).length)
    (hL : (LLVFS_getData vfs z.mVFile.mFileID z.mVFile.mFileType).length < 2147483648) :
    ∃ pulled : Option (List Nat),
      pulled = (if z.next_in = [] ∧ z.mZInputExhausted = false then
          some (((LLVFS_getData vfs z.mVFile.mFileID z.mVFile.mFileType).drop
            z.mVFile.mPosition.toNat).take 4096)
        else none)
      ∧ (pullInput vfs z).state = z.state
      ∧ (pullInput vfs z).mVFile.mFileID = z.mVFile.mFileID
      ∧ (pullInput vfs z).mVFile.mFileType = z.mVFile.mFileType
      ∧ (pullInput vfs z).next_in = pulled.getD z.next_in
      ∧ (pullInput vfs z).mZInputExhausted
          = (z.mZInputExhausted || decide (pulled = some []))
      ∧ (pullInput vfs z).mVFile.mPosition
          = z.mVFile.mPosition + ((pulled.getD []).length : Int)
      ∧ (pulled.getD []).length
          ≤ (LLVFS_getData vfs z.mVFile.mFileID z.mVFile.mFileType).length
            - z.mVFile.mPosition.toNat
      ∧ ((pullInput vfs z).next_in ≠ [] ∨ (pullInput vfs z).mZInputExhausted = true)
      ∧ ∀ ao, codecMeasure vfs (pullInput vfs z) ao ≤ codecMeasure vfs z ao := by
  by_cases hfresh : z.next_in = [] ∧ z.mZInputExhausted = false
  · obtain ⟨h0, he⟩ := hfresh
    have hlen : z.next_in.length = 0 := by rw [h0]; rfl
    have hread : ((LLVFS_getData vfs z.mVFile.mFileID z.mVFile.mFileType).drop
          z.mVFile.mPosition.toNat).take
          (min 4096 (toS32 (LLVFS_getSize vfs z.mVFile.mFileID z.mVFile.mFileType
            - z.mVFile.mPosition))).toNat
        = ((LLVFS_getData vfs z.mVFile.mFileID z.mVFile.mFileType).drop
          z.mVFile.mPosition.toNat).take 4096 := by
      rw [getSize_eq_length, List.take_eq_take, List.length_drop]
      have hs : toS32 (((LLVFS_getData vfs z.mVFile.mFileID z.mVFile.mFileType).length : Int)
          - z.mVFile.mPosition)
          = ((LLVFS_getData vfs z.mVFile.mFileID z.mVFile.mFileType).length : Int)
            - z.mVFile.mPosition := toS32_id _ (by omega) (by omega)
      rw [hs]
      omega
    have hpull : pullInput vfs z
        = { z with
            mVFile := { z.mVFile with
              mPosition := z.mVFile.mPosition
                + ((((LLVFS_getData vfs z.mVFile.mFileID z.mVFile.mFileType).drop
                    z.mVFile.mPosition.toNat).take 4096).length : Int)
              mBytesRead := ((((LLVFS_getData vfs z.mVFile.mFileID z.mVFile.mFileType).drop
                    z.mVFile.mPosition.toNat).take 4096).length : Int) }
            next_in := ((LLVFS_getData vfs z.mVFile.mFileID z.mVFile.mFileType).drop
              z.mVFile.mPosition.toNat).take 4096
            mZInputExhausted := decide ((((LLVFS_getData vfs z.mVFile.mFileID
              z.mVFile.mFileType).drop z.mVFile.mPosition.toNat).take 4096).length = 0) } := by
      unfold pullInput
      rw [if_pos ⟨hlen, he⟩]
      simp only [LLVFile_read, hread]
    refine ⟨_, rfl, ?_⟩
    rw [hpull, if_pos ⟨h0, he⟩]
    refine ⟨rfl, rfl, rfl, rfl, ?_, rfl, ?_, ?_, ?_⟩
    · rw [he, Bool.false_or]
      exact decide_eq_decide.mpr (by rw [Option.some.injEq]; exact List.length_eq_zero)
    · simp only [Option.getD_some]
      rw [List.length_take, List.length_drop]
      exact Nat.min_le_right _ _
    · by_cases hk : (((LLVFS_getData vfs z.mVFile.mFileID z.mVFile.mFileType).drop
          z.mVFile.mPosition.toNat).take 4096).length = 0
      · right
        simp [hk]
      · left
        exact fun hnil => hk (congrArg List.length hnil)
    · intro ao
      simp only [codecMeasure, he, h0, List.length_nil]
      have hk : (((LLVFS_getData vfs z.mVFile.mFileID z.mVFile.mFileType).drop
          z.mVFile.mPosition.toNat).take 4096).length
          ≤ (LLVFS_getData vfs z.mVFile.mFileID z.mVFile.mFileType).length
            - z.mVFile.mPosition.toNat := by
        rw [List.length_take, List.length_drop]
        exact Nat.min_le_right _ _
      by_cases hz : (((LLVFS_getData vfs z.mVFile.mFileID z.mVFile.mFileType).drop
          z.mVFile.mPosition.toNat).take 4096).length = 0
      · simp [hz]
      · simp only [hz, decide_False, Bool.false_eq_true, if_false]
        omega
  · have hpull : pullInput vfs z = z := by
      unfold pullInput
      rw [if_neg]
      intro ⟨hlen, he⟩
      exact hfresh ⟨List.length_eq_zero.mp hlen, he⟩
    refine ⟨_, rfl, ?_⟩
    rw [hpull, if_neg hfresh]
    refine ⟨rfl, rfl, rfl, rfl, by simp, by simp, by simp, ?_, fun _ => le_refl _⟩
    by_cases h0 : z.next_in = []
    · right
      cases he : z.mZInputExhausted with
      | true => rfl
      | false => exact absurd ⟨h0, he⟩ hfresh
    · exact Or.inl h0

theorem callsFrom_nil {σ : Type} (deflate : Deflate σ) (src : List Nat) (p : CodecPoint σ)
    (h : p.ended = true ∨ p.room = 0) : CallsFrom deflate src p [] p := by
  unfold CallsFrom
  exact ⟨h, rfl⟩

theorem callsFrom_cons {σ : Type} (deflate : Deflate σ) (src : List Nat)
    (p q : CodecPoint σ) (c : DeflateCall σ) (rest : List (DeflateCall σ))
    (h1 : p.ended = false) (h2 : 0 < p.room)
    (h3 : c.pulled = (if p.pending = [] ∧ p.exhausted = false then
        some ((src.drop p.position).take 4096) else none))
    (h4 : c.state = p.state) (h5 : c.next_in = c.pulled.getD p.pending)
    (h6 : c.avail_out = p.room)
    (h7 : c.finish = (p.exhausted || decide (c.pulled = some [])))
    (h8 : CallsFrom deflate src (pointAfter deflate p c) rest q) :
    CallsFrom deflate src p (c :: rest) q := by
  unfold CallsFrom
  exact ⟨h1, h2, h3, h4, h5, h6, h7, h8⟩

/-- With a stepping encoder and enough fuel the loop of `readCompressedData` ends, and what it
did is a run of encoder calls that follows the protocol: the bytes written are what those
calls produced, and the codec is left where the last call left it. -/
theorem readLoop_calls {σ : Type} (deflate : Deflate σ) (henc : SteppingEncoder deflate)
    (vfs : LLVFS) (src : List Nat) (hL : src.length < 2147483648) :
    ∀ (fuel : Nat) (z : ZCodec σ) (ao : Nat),
      src = LLVFS_getData vfs z.mVFile.mFileID z.mVFile.mFileType →
      0 ≤ z.mVFile.mPosition → z.mVFile.mPosition.toNat ≤ src.length →
      codecMeasure vfs z ao < fuel →
      ∃ run calls q, readLoop deflate vfs fuel z ao = some run
        ∧ CallsFrom deflate src (pointOf z ao) calls q
        ∧ run.data = producedBy deflate calls
        ∧ run.data.length + run.avail_out = ao
        ∧ q.state = run.codec.state ∧ q.pending = run.codec.next_in
        ∧ q.exhausted = run.codec.mZInputExhausted
        ∧ (q.position : Int) = run.codec.mVFile.mPosition
        ∧ q.room = run.avail_out
        ∧ (0 < run.avail_out → q.ended = true)
        ∧ (q.ended = true → ∃ c ∈ calls,
            (deflate c.state c.next_in c.avail_out c.finish).stream_end = true)
        ∧ run.codec.mVFile.mFileID = z.mVFile.mFileID
        ∧ run.codec.mVFile.mFileType = z.mVFile.mFileType
        ∧ q.position ≤ src.length := by
  intro fuel
  induction fuel with
  | zero => intro z ao _ _ _ h; exact absurd h (Nat.not_lt_zero _)
  | succ fuel ih =>
    intro z ao hsrc hpos hle hfuel
    by_cases hao : ao > 0
    · have hp := pullInput_point vfs z hpos (hsrc ▸ hle) (hsrc ▸ hL)
      rw [← hsrc] at hp
      obtain ⟨pulled, hpulled, hst, hid, hty, hin, hex, hps, hbound, hwork, hmeas⟩ := hp
      obtain ⟨hcons, hout, hprog⟩ := henc z.state (pullInput vfs z).next_in
        ao (pullInput vfs z).mZInputExhausted
      have hposn : ((z.mVFile.mPosition.toNat + (pulled.getD []).length : Nat) : Int)
          = (pullInput vfs z).mVFile.mPosition := by
        rw [hps, Nat.cast_add, Int.toNat_of_nonneg hpos]
      simp only [readLoop, if_pos hao, hst]
      by_cases hse : (deflate z.state (pullInput vfs z).next_in ao
          (pullInput vfs z).mZInputExhausted).stream_end = true
      · rw [if_pos hse]
        refine ⟨_, [DeflateCall.mk pulled z.state (pullInput vfs z).next_in ao
            (pullInput vfs z).mZInputExhausted],
          pointAfter deflate (pointOf z ao) (DeflateCall.mk pulled z.state
            (pullInput vfs z).next_in ao (pullInput vfs z).mZInputExhausted),
          rfl, ?_, ?_, ?_, rfl, rfl, rfl, hposn, rfl, fun _ => hse,
          fun _ => ⟨_, List.mem_singleton.mpr rfl, hse⟩, hid, hty, ?_⟩
        · exact callsFrom_cons deflate src _ _ _ _ rfl hao hpulled rfl hin rfl hex
            (callsFrom_nil deflate src _ (Or.inl hse))
        · simp [producedBy]
        · simp only
          omega
        · show z.mVFile.mPosition.toNat + (pulled.getD []).length ≤ src.length
          omega
      · rw [if_neg hse]
        have hstep := hprog hwork hao
        have hmeas2 : codecMeasure vfs
            { pullInput vfs z with
              state := (deflate z.state (pullInput vfs z).next_in ao
                (pullInput vfs z).mZInputExhausted).state
              next_in := (pullInput vfs z).next_in.drop
                (deflate z.state (pullInput vfs z).next_in ao
                  (pullInput vfs z).mZInputExhausted).consumed }
            (ao - (deflate z.state (pullInput vfs z).next_in ao
                (pullInput vfs z).mZInputExhausted).output.length) < fuel := by
          have h1 := hmeas ao
          simp only [codecMeasure, List.length_drop] at h1 hfuel ⊢
          rcases hstep with h | h | h
          · omega
          · omega
          · exact absurd h hse
        have hsrc2 : src = LLVFS_getData vfs (pullInput vfs z).mVFile.mFileID
            (pullInput vfs z).mVFile.mFileType := by
          rw [hid, hty]
          exact hsrc
        have hpos2 : 0 ≤ (pullInput vfs z).mVFile.mPosition := by
          rw [← hposn]
          exact Int.ofNat_nonneg _
        have hle2 : (pullInput vfs z).mVFile.mPosition.toNat ≤ src.length := by
          rw [← hposn, Int.toNat_ofNat]
          omega
        obtain ⟨run, calls, q, hrun, hcalls, hdata, hlen, q1, q2, q3, q4, q5, q6, q7, q8, q9,
            q10⟩ := ih
            { pullInput vfs z with
              state := (deflate z.state (pullInput vfs z).next_in ao
                (pullInput vfs z).mZInputExhausted).state
              next_in := (pullInput vfs z).next_in.drop
                (deflate z.state (pullInput vfs z).next_in ao
                  (pullInput vfs z).mZInputExhausted).consumed }
            _ hsrc2 hpos2 hle2 hmeas2
        rw [hrun]
        have hpt : pointAfter deflate (pointOf z ao) (DeflateCall.mk pulled z.state
              (pullInput vfs z).next_in ao (pullInput vfs z).mZInputExhausted)
            = pointOf
              { pullInput vfs z with
                state := (deflate z.state (pullInput vfs z).next_in ao
                  (pullInput vfs z).mZInputExhausted).state
                next_in := (pullInput vfs z).next_in.drop
                  (deflate z.state (pullInput vfs z).next_in ao
                    (pullInput vfs z).mZInputExhausted).consumed }
              (ao - (deflate z.state (pullInput vfs z).next_in ao
                (pullInput vfs z).mZInputExhausted).output.length) := by
          simp only [pointAfter, pointOf, CodecPoint.mk.injEq, true_and]
          refine ⟨?_, ?_⟩
          · rw [← hposn, Int.toNat_ofNat]
          · simpa using hse
        refine ⟨_, DeflateCall.mk pulled z.state (pullInput vfs z).next_in ao
            (pullInput vfs z).mZInputExhausted :: calls, q, rfl, ?_, ?_, ?_,
          q1, q2, q3, q4, q5, q6, ?_, q8.trans hid, q9.trans hty, q10⟩
        · exact callsFrom_cons deflate src _ _ _ _ rfl hao hpulled rfl hin rfl hex
            (hpt ▸ hcalls)
        · simp only [producedBy, hdata]
        · simp only [List.length_append]
          omega
        · intro hq
          obtain ⟨c, hc, hcs⟩ := q7 hq
          exact ⟨c, List.mem_cons_of_mem _ hc, hcs⟩
    · have h0 : ao = 0 := by omega
      subst h0
      simp only [readLoop, gt_iff_lt, Nat.lt_irrefl, if_false]
      refine ⟨_, [], pointOf z 0, rfl, callsFrom_nil deflate src _ (Or.inr rfl), rfl, rfl,
        rfl, rfl, rfl, ?_, rfl, ?_, ?_, rfl, rfl, hle⟩
      · exact Int.toNat_of_nonneg hpos
      · intro h
        exact absurd h (Nat.lt_irrefl 0)
      · intro h
        cases h

theorem readLoop_fuel {σ : Type} (deflate : Deflate σ) (vfs : LLVFS) :
    ∀ (fuel : Nat) (z : ZCodec σ) (ao : Nat) (run : ZRun σ),
      readLoop deflate vfs fuel z ao = some run →
      ∀ more, readLoop deflate vfs (fuel + more) z ao = some run := by
  intro fuel
  induction fuel with
  | zero => intro z ao run h; simp [readLoop] at h
  | succ fuel ih =>
    intro z ao run h more
    rw [Nat.add_right_comm]
    simp only [readLoop] at h ⊢
    by_cases hao : ao > 0
    · rw [if_pos hao] at h ⊢
      by_cases hse : (deflate (pullInput vfs z).state (pullInput vfs z).next_in ao
          (pullInput vfs z).mZInputExhausted).stream_end = true
      · rw [if_pos hse] at h ⊢
        exact h
      · rw [if_neg hse] at h ⊢
        cases hrec : readLoop deflate vfs fuel
            { pullInput vfs z with
              state := (deflate (pullInput vfs z).state (pullInput vfs z).next_in ao
                (pullInput vfs z).mZInputExhausted).state
              next_in := (pullInput vfs z).next_in.drop
                (deflate (pullInput vfs z).state (pullInput vfs z).next_in ao
                  (pullInput vfs z).mZInputExhausted).consumed }
            (ao - (deflate (pullInput vfs z).state (pullInput vfs z).next_in ao
                (pullInput vfs z).mZInputExhausted).output.length) with
        | none => rw [hrec] at h; cases h
        | some run1 =>
          rw [hrec] at h
          rw [ih _ _ _ hrec more]
          exact h
    · rw [if_neg hao] at h ⊢
      exact h

/-- Along a run of encoder calls that follows the protocol, no read brings more than 4096
bytes. -/
theorem callsFrom_chunks {σ : Type} (deflate : Deflate σ) (src : List Nat)
    (calls : List (DeflateCall σ)) :
    ∀ (p q : CodecPoint σ), CallsFrom deflate src p calls q →
      ∀ c ∈ calls, ∀ chunk, c.pulled = some chunk → chunk.length ≤ 4096 := by
  induction calls with
  | nil => intro p q _ c hc; cases hc
  | cons c0 rest ih =>
    intro p q h c hc chunk hchunk
    unfold CallsFrom at h
    obtain ⟨_, _, h3, _, _, _, _, h8⟩ := h
    rcases List.mem_cons.mp hc with hc0 | hc0
    · rw [hc0, h3] at hchunk
      split at hchunk
      · cases hchunk
        rw [List.length_take]
        exact Nat.min_le_left _ _
      · cases hchunk
    · exact ih _ _ h8 c hc0 chunk hchunk

/-- Along a run of encoder calls that follows the protocol, a call uses the finish flush
exactly when the source was marked exhausted at the start or a read returned no bytes, before
this call or an earlier one. -/
theorem callsFrom_finish {σ : Type} (deflate : Deflate σ) (src : List Nat)
    (l1 : List (DeflateCall σ)) :
    ∀ (p q : CodecPoint σ) (c : DeflateCall σ) (l2 : List (DeflateCall σ)),
      CallsFrom deflate src p (l1 ++ c :: l2) q →
      (c.finish = true
        ↔ (p.exhausted = true ∨ c.pulled = some [] ∨ ∃ c0 ∈ l1, c0.pulled = some [])) := by
  induction l1 with
  | nil =>
    intro p q c l2 h
    simp only [List.nil_append] at h
    unfold CallsFrom at h
    obtain ⟨_, _, _, _, _, _, h7, _⟩ := h
    rw [h7]
    simp
  | cons c0 rest ih =>
    intro p q c l2 h
    simp only [List.cons_append] at h
    unfold CallsFrom at h
    obtain ⟨_, _, _, _, _, _, h7, h8⟩ := h
    have hrec := ih _ _ c l2 h8
    rw [hrec]
    simp only [pointAfter, h7, Bool.or_eq_true, decide_eq_true_eq, List.mem_cons,
      exists_eq_or_imp]
    constructor
    · rintro ((h | h) | h | h)
      · exact Or.inl h
      · exact Or.inr (Or.inr (Or.inl h))
      · exact Or.inr (Or.inl h)
      · exact Or.inr (Or.inr (Or.inr h))
    · rintro (h | h | h | h)
      · exact Or.inl (Or.inl h)
      · exact Or.inr (Or.inl h)
      · exact Or.inl (Or.inr h)
      · exact Or.inr (Or.inr h)

/-- A call `readCompressedData(data, size)` with a stepping encoder ends, and what it does is
a run of encoder calls that follows the protocol; the bytes written, the value returned and the
codec afterwards are those of that run. -/
theorem readCompressedData_protocol {σ : Type} (deflate : Deflate σ)
    (henc : SteppingEncoder deflate) (vfs : LLVFS) (z : ZCodec σ) (size : Nat)
    (hpos : 0 ≤ z.mVFile.mPosition)
    (hle : z.mVFile.mPosition.toNat
      ≤ (LLVFS_getData vfs z.mVFile.mFileID z.mVFile.mFileType).length)
    (hL : (LLVFS_getData vfs z.mVFile.mFileID z.mVFile.mFileType).length < 2147483648) :
    ∃ z1 data r calls q,
      (∀ fuel, codecMeasure vfs z size < fuel →
        readCompressedData deflate vfs fuel z size = some (z1, data, r))
      ∧ CallsFrom deflate (LLVFS_getData vfs z.mVFile.mFileID z.mVFile.mFileType)
          (pointOf z size) calls q
      ∧ data = producedBy deflate calls
      ∧ r = data.length ∧ r ≤ size
      ∧ (r < size → ∃ c ∈ calls,
          (deflate c.state c.next_in c.avail_out c.finish).stream_end = true)
      ∧ (∀ c ∈ calls, ∀ chunk, c.pulled = some chunk → chunk.length ≤ 4096)
      ∧ (∀ l1 c l2, calls = l1 ++ c :: l2 →
          (c.finish = true
            ↔ (z.mZInputExhausted = true ∨ c.pulled = some []
              ∨ ∃ c0 ∈ l1, c0.pulled = some [])))
      ∧ z1.state = q.state ∧ z1.next_in = q.pending
      ∧ z1.mZInputExhausted = q.exhausted
      ∧ z1.mVFile.mPosition = (q.position : Int)
      ∧ z1.mVFile.mFileID = z.mVFile.mFileID ∧ z1.mVFile.mFileType = z.mVFile.mFileType
      ∧ q.room = size - r
      ∧ q.position ≤ (LLVFS_getData vfs z.mVFile.mFileID z.mVFile.mFileType).length := by
  obtain ⟨run, calls, q, hrun, hcalls, hdata, hlen, q1, q2, q3, q4, q5, q6, q7, q8, q9, q10⟩ :=
    readLoop_calls deflate henc vfs _ hL (codecMeasure vfs z size + 1) z size rfl hpos hle
      (Nat.lt_succ_self _)
  refine ⟨run.codec, run.data, size - run.avail_out, calls, q, ?_, hcalls, hdata, ?_, ?_, ?_,
    callsFrom_chunks deflate _ calls _ _ hcalls, ?_, q1.symm, q2.symm, q3.symm, q4.symm, q8, q9,
    ?_, q10⟩
  · intro fuel hfuel
    have hrun2 := readLoop_fuel deflate vfs _ z size run hrun
      (fuel - (codecMeasure vfs z size + 1))
    have hf : codecMeasure vfs z size + 1 + (fuel - (codecMeasure vfs z size + 1)) = fuel := by
      omega
    rw [hf] at hrun2
    simp only [readCompressedData, hrun2, Option.map_some']
  · omega
  · omega
  · intro hlt
    exact q7 (q6 (by omega))
  · intro l1 c l2 hsplit
    rw [hsplit] at hcalls
    exact callsFrom_finish deflate _ l1 _ _ c l2 hcalls
  · rw [q5]
    omega

/-- C25: a call `readCompressedData(data, size)` with an encoder that on each invocation
consumes input, produces output or reports stream-end comes to an end (every fuel above
`codecMeasure` gives the same result). What it does is a run of calls of the encoder that
follows the protocol `CallsFrom` from the point where the codec stood, over the bytes of the
source: the source is read only when no input is pending and it is not marked exhausted, the
next bytes of the source and at most 4096 at a time, and the encoder is called on its own
latest state with what was read or was pending. The bytes written are exactly what these calls
produced, the value returned is their number and is at most `size`, and it is below `size` only
if one of these calls reported stream-end. The codec is left where the last call left it. The
finish flush is used exactly from the first read that returns zero bytes onwards (from the
start if the source was already marked exhausted). -/
theorem readCompressedData_spec {σ : Type} (deflate : Deflate σ)
    (henc : SteppingEncoder deflate) (vfs : LLVFS) (z : ZCodec σ) (size : Nat)
    (hpos : 0 ≤ z.mVFile.mPosition)
    (hle : z.mVFile.mPosition.toNat
      ≤ (LLVFS_getData vfs z.mVFile.mFileID z.mVFile.mFileType).length)
    (hL : (LLVFS_getData vfs z.mVFile.mFileID z.mVFile.mFileType).length < 2147483648) :
    ∃ z1 data r calls q,
      (∀ fuel, codecMeasure vfs z size < fuel →
        readCompressedData deflate vfs fuel z size = some (z1, data, r))
      ∧ CallsFrom deflate (LLVFS_getData vfs z.mVFile.mFileID z.mVFile.mFileType)
          (pointOf z size) calls q
      ∧ data = producedBy deflate calls
      ∧ r = data.length ∧ r ≤ size
      ∧ (r < size → ∃ c ∈ calls,
          (deflate c.state c.next_in c.avail_out c.finish).stream_end = true)
      ∧ (∀ c ∈ calls, ∀ chunk, c.pulled = some chunk → chunk.length ≤ 4096)
      ∧ (∀ l1 c l2, calls = l1 ++ c :: l2 →
          (c.finish = true
            ↔ (z.mZInputExhausted = true ∨ c.pulled = some []
              ∨ ∃ c0 ∈ l1, c0.pulled = some [])))
      ∧ z1.state = q.state ∧ z1.next_in = q.pending
      ∧ z1.mZInputExhausted = q.exhausted
      ∧ z1.mVFile.mPosition = (q.position : Int)
      ∧ z1.mVFile.mFileID = z.mVFile.mFileID ∧ z1.mVFile.mFileType = z.mVFile.mFileType
      ∧ q.room = size - r
      ∧ q.position ≤ (LLVFS_getData vfs z.mVFile.mFileID z.mVFile.mFileType).length :=
  readCompressedData_protocol deflate henc vfs z size hpos hle hL

/-- C25 at a concrete input: the storing encoder on the prepared codec of the object asset 8
(bytes 4, 5), with room for 10 bytes. -/
theorem readCompressedData_spec_witness :
    SteppingEncoder storeEncoder
    ∧ (0 : Int) ≤ preparedCodec.mVFile.mPosition
    ∧ (LLVFS_getData stockedStorage.mVFS preparedCodec.mVFile.mFileID
        preparedCodec.mVFile.mFileType).length < 2147483648
    ∧ ∃ z1 data r calls q,
      (∀ fuel, codecMeasure stockedStorage.mVFS preparedCodec 10 < fuel →
        readCompressedData storeEncoder stockedStorage.mVFS fuel preparedCodec 10
          = some (z1, data, r))
      ∧ CallsFrom storeEncoder (LLVFS_getData stockedStorage.mVFS
            preparedCodec.mVFile.mFileID preparedCodec.mVFile.mFileType)
          (pointOf preparedCodec 10) calls q
      ∧ data = producedBy storeEncoder calls
      ∧ r = data.length ∧ r ≤ 10
      ∧ (r < 10 → ∃ c ∈ calls,
          (storeEncoder c.state c.next_in c.avail_out c.finish).stream_end = true) :=
  ⟨storeEncoder_stepping, by decide, by decide,
    (readCompressedData_spec storeEncoder storeEncoder_stepping stockedStorage.mVFS
      preparedCodec 10 (by decide) (by decide) (by decide)).imp
      (fun _ h1 => h1.imp (fun _ h2 => h2.imp (fun _ h3 => h3.imp (fun _ h4 => h4.imp
        (fun _ h => ⟨h.1, h.2.1, h.2.2.1, h.2.2.2.1, h.2.2.2.2.1, h.2.2.2.2.2.1⟩)))))⟩

theorem recordingEncoder_stepping {σ : Type} (deflate : Deflate σ)
    (henc : SteppingEncoder deflate) : SteppingEncoder (recordingEncoder deflate) := by
  intro st inp avail_out finish
  exact henc st.1 inp avail_out finish

/-- Along a run that follows the protocol, a recording encoder has recorded exactly the calls
of the run. -/
theorem callsFrom_recorded {σ : Type} (deflate : Deflate σ) (src : List Nat)
    (calls : List (DeflateCall (σ × List (σ × List Nat × Nat × Bool)))) :
    ∀ (p q : CodecPoint (σ × List (σ × List Nat × Nat × Bool))),
      CallsFrom (recordingEncoder deflate) src p calls q →
      q.state.2
        = p.state.2 ++ calls.map (fun c => (c.state.1, c.next_in, c.avail_out, c.finish)) := by
  induction calls with
  | nil =>
    intro p q h
    unfold CallsFrom at h
    rw [h.2]
    simp
  | cons c rest ih =>
    intro p q h
    unfold CallsFrom at h
    obtain ⟨_, _, _, h4, _, _, _, h8⟩ := h
    rw [ih _ _ h8]
    simp [pointAfter, recordingEncoder, h4]

/-- The calls of the protocol run are the calls the encoder receives: run with a recording
encoder, `readCompressedData` leaves in the encoder's record exactly the calls of the run;
the value returned is the number of bytes the encoder produced on them, and when it is less than
`size` the encoder reported stream-end on one of them. -/
theorem readCompressedData_recorded {σ : Type} (deflate : Deflate σ)
    (henc : SteppingEncoder deflate) (vfs : LLVFS) (z : ZCodec σ) (size : Nat)
    (log : List (σ × List Nat × Nat × Bool))
    (hpos : 0 ≤ z.mVFile.mPosition)
    (hle : z.mVFile.mPosition.toNat
      ≤ (LLVFS_getData vfs z.mVFile.mFileID z.mVFile.mFileType).length)
    (hL : (LLVFS_getData vfs z.mVFile.mFileID z.mVFile.mFileType).length < 2147483648) :
    ∃ z1 data r calls,
      (∀ fuel, codecMeasure vfs z size < fuel →
        readCompressedData (recordingEncoder deflate) vfs fuel
          { state := (z.state, log), next_in := z.next_in,
            mZInputExhausted := z.mZInputExhausted, mVFile := z.mVFile } size
          = some (z1, data, r))
      ∧ z1.state.2 = log ++ calls
      ∧ (r < size → ∃ c ∈ calls, (deflate c.1 c.2.1 c.2.2.1 c.2.2.2).stream_end = true)
      ∧ r = (calls.map (fun c => (deflate c.1 c.2.1 c.2.2.1 c.2.2.2).output.length)).sum := by
  obtain ⟨z1, data, r, calls, q, h1, h2, h3, h4, _, h6, _, _, h9, _⟩ :=
    readCompressedData_protocol (recordingEncoder deflate)
      (recordingEncoder_stepping deflate henc)
      vfs { state := (z.state, log), next_in := z.next_in,
            mZInputExhausted := z.mZInputExhausted, mVFile := z.mVFile } size hpos hle hL
  have hlog := callsFrom_recorded deflate _ calls _ _ h2
  have hprod : ∀ cs : List (DeflateCall (σ × List (σ × List Nat × Nat × Bool))),
      (producedBy (recordingEncoder deflate) cs).length
        = ((cs.map (fun c => (c.state.1, c.next_in, c.avail_out, c.finish))).map
            (fun c => (deflate c.1 c.2.1 c.2.2.1 c.2.2.2).output.length)).sum := by
    intro cs
    induction cs with
    | nil => rfl
    | cons c rest ih => simp [producedBy, recordingEncoder, ih]
  refine ⟨z1, data, r, calls.map (fun c => (c.state.1, c.next_in, c.avail_out, c.finish)),
    h1, ?_, ?_, ?_⟩
  · rw [h9, hlog]
    rfl
  · intro hlt
    obtain ⟨c, hc, hse⟩ := h6 hlt
    exact ⟨(c.state.1, c.next_in, c.avail_out, c.finish), List.mem_map.mpr ⟨c, hc, rfl⟩, hse⟩
  · rw [h4, h3]
    exact hprod calls

/-! ### What the surface calls leave alone -/

/-- Setting up a handle touches neither the queues nor the temp-asset map. -/
theorem setupCurlHandle_frame (s : LLHTTPAssetStorage) (req : LLHTTPAssetRequest) :
    (setupCurlHandle s req).1.mPendingDownloads = s.mPendingDownloads
    ∧ (setupCurlHandle s req).1.mPendingUploads = s.mPendingUploads
    ∧ (setupCurlHandle s req).1.mPendingLocalUploads = s.mPendingLocalUploads
    ∧ (setupCurlHandle s req).1.mTempAssets = s.mTempAssets
    ∧ uploadCallbacks (setupCurlHandle s req).1.mTrace = uploadCallbacks s.mTrace
    ∧ downloadCallbacks (setupCurlHandle s req).1.mTrace = downloadCallbacks s.mTrace := by
  unfold setupCurlHandle
  simp only
  split_ifs <;>
    simp [emit, uploadCallbacks, downloadCallbacks, List.filterMap_append]

/-- A delivery to a write function touches neither the queues, nor the temp-asset map, nor
the trace. -/
theorem deliver_frame (s : LLHTTPAssetStorage) (c : WriteCall) :
    (deliver s c).mPendingDownloads = s.mPendingDownloads
    ∧ (deliver s c).mPendingUploads = s.mPendingUploads
    ∧ (deliver s c).mPendingLocalUploads = s.mPendingLocalUploads
    ∧ (deliver s c).mTempAssets = s.mTempAssets
    ∧ (deliver s c).mTrace = s.mTrace := by
  cases hf : findTransfer s c.handle with
  | none => simp [deliver, hf]
  | some req =>
    cases hw : req.optWriteFunction with
    | unset => simp [deliver, hf, hw]
    | nullOutputCallback => simp [deliver, hf, hw, nullOutputCallback]
    | curlFileDownCallback =>
      cases hfp : req.mFP <;> simp [deliver, hf, hw, curlFileDownCallback, hfp]
    | curlDownCallback => simp [deliver, hf, hw, curlDownCallback, updateTransfer]

/-- The engine's progress touches neither the queues, nor the temp-asset map, nor the trace. -/
theorem perform_frame (calls : List WriteCall) (s : LLHTTPAssetStorage) :
    (curl_multi_perform s calls).mPendingDownloads = s.mPendingDownloads
    ∧ (curl_multi_perform s calls).mPendingUploads = s.mPendingUploads
    ∧ (curl_multi_perform s calls).mPendingLocalUploads = s.mPendingLocalUploads
    ∧ (curl_multi_perform s calls).mTempAssets = s.mTempAssets
    ∧ (curl_multi_perform s calls).mTrace = s.mTrace := by
  unfold curl_multi_perform
  induction calls generalizing s with
  | nil => exact ⟨rfl, rfl, rfl, rfl, rfl⟩
  | cons c rest ih =>
    obtain ⟨a1, a2, a3, a4, a5⟩ := deliver_frame s c
    obtain ⟨b1, b2, b3, b4, b5⟩ := ih (deliver s c)
    simp only [List.foldl_cons]
    exact ⟨b1.trans a1, b2.trans a2, b3.trans a3, b4.trans a4, b5.trans a5⟩

/-- The poll loop of the blocking fetch touches neither the queues nor the temp-asset map,
and calls no completion callback. -/
theorem pollLoop_frame (callback : Option Nat) (userdata : Nat) (rounds : List PollRound)
    (s : LLHTTPAssetStorage) :
    (pollLoop callback userdata s rounds).1.mPendingDownloads = s.mPendingDownloads
    ∧ (pollLoop callback userdata s rounds).1.mPendingUploads = s.mPendingUploads
    ∧ (pollLoop callback userdata s rounds).1.mPendingLocalUploads = s.mPendingLocalUploads
    ∧ (pollLoop callback userdata s rounds).1.mTempAssets = s.mTempAssets
    ∧ uploadCallbacks (pollLoop callback userdata s rounds).1.mTrace
      = uploadCallbacks s.mTrace
    ∧ downloadCallbacks (pollLoop callback userdata s rounds).1.mTrace
      = downloadCallbacks s.mTrace := by
  cases callback with
  | none =>
    induction rounds generalizing s with
    | nil => exact ⟨rfl, rfl, rfl, rfl, rfl, rfl⟩
    | cons r rest ih =>
      obtain ⟨a1, a2, a3, a4, a5⟩ := perform_frame r.calls s
      have hb : (curl_multi_perform s r.calls).mPendingDownloads = s.mPendingDownloads
          ∧ (curl_multi_perform s r.calls).mPendingUploads = s.mPendingUploads
          ∧ (curl_multi_perform s r.calls).mPendingLocalUploads = s.mPendingLocalUploads
          ∧ (curl_multi_perform s r.calls).mTempAssets = s.mTempAssets
          ∧ uploadCallbacks (curl_multi_perform s r.calls).mTrace = uploadCallbacks s.mTrace
          ∧ downloadCallbacks (curl_multi_perform s r.calls).mTrace = downloadCallbacks s.mTrace := by
        exact ⟨a1, a2, a3, a4, by rw [a5], by rw [a5]⟩
      obtain ⟨b1, b2, b3, b4, b5, b6⟩ := hb
      obtain ⟨c1, c2, c3, c4, c5, c6⟩ := ih (curl_multi_perform s r.calls)
      unfold pollLoop
      cases hm : r.curl_msg with
      | none =>
        cases he : r.expired with
        | true => simpa using ⟨b1, b2, b3, b4, b5, b6⟩
        | false =>
          simp only [Bool.false_eq_true, if_false]
          exact ⟨c1.trans b1, c2.trans b2, c3.trans b3, c4.trans b4, c5.trans b5,
            c6.trans b6⟩
      | some m =>
        by_cases hd : m.msg = CURLMSG.CURLMSG_DONE
        · simpa [hd] using ⟨b1, b2, b3, b4, b5, b6⟩
        · cases he : r.expired with
          | true => simpa [hd] using ⟨b1, b2, b3, b4, b5, b6⟩
          | false =>
            simp only [hd, Bool.false_eq_true, if_false]
            exact ⟨c1.trans b1, c2.trans b2, c3.trans b3, c4.trans b4, c5.trans b5,
              c6.trans b6⟩
  | some cb =>
    induction rounds generalizing s with
    | nil => exact ⟨rfl, rfl, rfl, rfl, rfl, rfl⟩
    | cons r rest ih =>
      obtain ⟨a1, a2, a3, a4, a5⟩ := perform_frame r.calls s
      have hb : (emit (curl_multi_perform s r.calls) (Event.progressCallback cb userdata)).mPendingDownloads = s.mPendingDownloads
          ∧ (emit (curl_multi_perform s r.calls) (Event.progressCallback cb userdata)).mPendingUploads = s.mPendingUploads
          ∧ (emit (curl_multi_perform s r.calls) (Event.progressCallback cb userdata)).mPendingLocalUploads = s.mPendingLocalUploads
          ∧ (emit (curl_multi_perform s r.calls) (Event.progressCallback cb userdata)).mTempAssets = s.mTempAssets
          ∧ uploadCallbacks (emit (curl_multi_perform s r.calls) (Event.progressCallback cb userdata)).mTrace = uploadCallbacks s.mTrace
          ∧ downloadCallbacks (emit (curl_multi_perform s r.calls) (Event.progressCallback cb userdata)).mTrace = downloadCallbacks s.mTrace := by
        refine ⟨a1, a2, a3, a4, ?_, ?_⟩
        · simp [emit, a5, uploadCallbacks, List.filterMap_append]
        · simp [emit, a5, downloadCallbacks, List.filterMap_append]
      obtain ⟨b1, b2, b3, b4, b5, b6⟩ := hb
      obtain ⟨c1, c2, c3, c4, c5, c6⟩ := ih (emit (curl_multi_perform s r.calls) (Event.progressCallback cb userdata))
      unfold pollLoop
      cases hm : r.curl_msg with
      | none =>
        cases he : r.expired with
        | true => simpa using ⟨b1, b2, b3, b4, b5, b6⟩
        | false =>
          simp only [Bool.false_eq_true, if_false]
          exact ⟨c1.trans b1, c2.trans b2, c3.trans b3, c4.trans b4, c5.trans b5,
            c6.trans b6⟩
      | some m =>
        by_cases hd : m.msg = CURLMSG.CURLMSG_DONE
        · simpa [hd] using ⟨b1, b2, b3, b4, b5, b6⟩
        · cases he : r.expired with
          | true => simpa [hd] using ⟨b1, b2, b3, b4, b5, b6⟩
          | false =>
            simp only [hd, Bool.false_eq_true, if_false]
            exact ⟨c1.trans b1, c2.trans b2, c3.trans b3, c4.trans b4, c5.trans b5,
              c6.trans b6⟩

/-- The blocking fetch touches neither the queues nor the temp-asset map, and calls no
completion callback. -/
theorem getURLToFile_frame (s : LLHTTPAssetStorage) (uuid : LLUUID) (asset_type : EType)
    (url filename : String) (callback : Option Nat) (userdata : Nat) (fopen_ok : Bool)
    (rounds : List PollRound) :
    (getURLToFile s uuid asset_type url filename callback userdata fopen_ok
        rounds).2.mPendingDownloads = s.mPendingDownloads
    ∧ (getURLToFile s uuid asset_type url filename callback userdata fopen_ok
        rounds).2.mPendingUploads = s.mPendingUploads
    ∧ (getURLToFile s uuid asset_type url filename callback userdata fopen_ok
        rounds).2.mPendingLocalUploads = s.mPendingLocalUploads
    ∧ (getURLToFile s uuid asset_type url filename callback userdata fopen_ok
        rounds).2.mTempAssets = s.mTempAssets
    ∧ uploadCallbacks (getURLToFile s uuid asset_type url filename callback userdata fopen_ok
        rounds).2.mTrace = uploadCallbacks s.mTrace
    ∧ downloadCallbacks (getURLToFile s uuid asset_type url filename callback userdata fopen_ok
        rounds).2.mTrace = downloadCallbacks s.mTrace := by
  cases fopen_ok with
  | false => exact ⟨rfl, rfl, rfl, rfl, rfl, rfl⟩
  | true =>
    unfold getURLToFile
    simp only [Bool.not_true, Bool.false_eq_true, if_false]
    generalize hreq : (setupCurlHandle _ _).2 = req0
    generalize hs1 : (setupCurlHandle { s with mDisk := diskCreate filename s.mDisk } _).1 = s1
    have hf1 : s1.mPendingDownloads = s.mPendingDownloads
        ∧ s1.mPendingUploads = s.mPendingUploads
        ∧ s1.mPendingLocalUploads = s.mPendingLocalUploads
        ∧ s1.mTempAssets = s.mTempAssets
        ∧ uploadCallbacks s1.mTrace = uploadCallbacks s.mTrace
        ∧ downloadCallbacks s1.mTrace = downloadCallbacks s.mTrace := by
      rw [← hs1]
      exact setupCurlHandle_frame _ _
    generalize hp : pollLoop callback userdata _ rounds = p
    have hf2 : p.1.mPendingDownloads = s.mPendingDownloads
        ∧ p.1.mPendingUploads = s.mPendingUploads
        ∧ p.1.mPendingLocalUploads = s.mPendingLocalUploads
        ∧ p.1.mTempAssets = s.mTempAssets
        ∧ uploadCallbacks p.1.mTrace = uploadCallbacks s.mTrace
        ∧ downloadCallbacks p.1.mTrace = downloadCallbacks s.mTrace := by
      rw [← hp]
      obtain ⟨c1, c2, c3, c4, c5, c6⟩ := pollLoop_frame callback userdata rounds
        (curl_multi_add_handle s1
          { { req0 with optFollowLocation := true } with
            optWriteFunction := WriteFunction.curlFileDownCallback })
      obtain ⟨d1, d2, d3, d4, d5, d6⟩ := hf1
      exact ⟨c1.trans d1, c2.trans d2, c3.trans d3, c4.trans d4, c5.trans d5, c6.trans d6⟩
    obtain ⟨s3, cm, x0⟩ := p
    simp only at hf2 ⊢
    obtain ⟨e1, e2, e3, e4, e5, e6⟩ := hf2
    simp only [fun a b => (delete_frame a b).1, fun a b => (delete_frame a b).2.1,
      fun a b => (delete_frame a b).2.2.1, fun a b => (delete_frame a b).2.2.2.1,
      fun a b => (delete_frame a b).2.2.2.2.2.2.1,
      fun a b => (delete_frame a b).2.2.2.2.2.2.2.1]
    split_ifs <;> exact ⟨e1, e2, e3, e4, e5, e6⟩

/-- The promotion step touches neither the temp-asset map nor the trace. -/
theorem promotePending_quiet (X : Externals) (s : LLHTTPAssetStorage) (t : LLUUID) :
    (promotePending X s t).mTempAssets = s.mTempAssets
    ∧ (promotePending X s t).mTrace = s.mTrace := by
  have hd : ∀ s0, (promoteDownload X s0 t).mTempAssets = s0.mTempAssets
      ∧ (promoteDownload X s0 t).mTrace = s0.mTrace := by
    intro s0
    rcases promoteDownload_eq X s0 t with ⟨tr, heq, _⟩ | ⟨heq, _⟩ <;> rw [heq] <;>
      exact ⟨rfl, rfl⟩
  have hu : ∀ s0, (promoteUpload X s0).mTempAssets = s0.mTempAssets
      ∧ (promoteUpload X s0).mTrace = s0.mTrace := by
    intro s0
    rcases promoteUpload_eq X s0 with ⟨tr, heq, _⟩ | ⟨heq, _⟩ <;> rw [heq] <;>
      exact ⟨rfl, rfl⟩
  have hl : ∀ s0, (promoteLocalUpload X s0).mTempAssets = s0.mTempAssets
      ∧ (promoteLocalUpload X s0).mTrace = s0.mTrace := by
    intro s0
    rcases promoteLocalUpload_eq X s0 with ⟨tr, heq, _⟩ | ⟨heq, _⟩ <;> rw [heq] <;>
      exact ⟨rfl, rfl⟩
  unfold promotePending
  exact ⟨by rw [(hl _).1, (hu _).1, (hd _).1], by rw [(hl _).2, (hu _).2, (hd _).2]⟩

/-- The upload branch of the completion loop either stops short of the callback (a transient
outcome) or ends in `_callUploadCallbacks`; before that it changes at most the temp-asset
map. -/
theorem uploadDone_shape (s : LLHTTPAssetStorage) (req : LLHTTPAssetRequest) (m : CURLMsg) :
    ∃ s1, (s1 = s ∨ s1 = addTempAssetData s req.mUUID req.mRequestingAgentID s.mHostName)
      ∧ (uploadDone s req m = s1
        ∨ ∃ b, uploadDone s req m = _callUploadCallbacks s1 req.mUUID req.mType b) := by
  unfold uploadDone
  simp only
  split_ifs <;>
    first
      | exact ⟨s, Or.inl rfl, Or.inl rfl⟩
      | exact ⟨s, Or.inl rfl, Or.inr ⟨_, rfl⟩⟩
      | exact ⟨_, Or.inr rfl, Or.inr ⟨_, rfl⟩⟩
      | exact ⟨_, Or.inr rfl, Or.inl rfl⟩

/-- The download branch of the completion loop always ends in `downloadCompleteCallback`;
before that it changes at most the virtual file system, recording the rename or removal. -/
theorem downloadDone_shape (s : LLHTTPAssetStorage) (req : LLHTTPAssetRequest) (m : CURLMsg) :
    ∃ s1 result, s1.mPendingDownloads = s.mPendingDownloads
      ∧ s1.mPendingUploads = s.mPendingUploads
      ∧ s1.mPendingLocalUploads = s.mPendingLocalUploads
      ∧ s1.mTempAssets = s.mTempAssets
      ∧ uploadCallbacks s1.mTrace = uploadCallbacks s.mTrace
      ∧ downloadCallbacks s1.mTrace = downloadCallbacks s.mTrace
      ∧ downloadDone s req m = downloadCompleteCallback s1 result req.mUUID req.mType := by
  unfold downloadDone
  simp only
  by_cases hc : m.http_code = HTTP_OK ∧ m.result = CURLcode.CURLE_OK
  · rw [if_pos hc]
    cases hv : req.mVFile with
    | none => exact ⟨s, _, rfl, rfl, rfl, rfl, rfl, rfl, rfl⟩
    | some f =>
      simp only
      split_ifs
      · refine ⟨LLVFile_rename s f req.mUUID req.mType, _, rfl, rfl, rfl, rfl, ?_, ?_, rfl⟩
        · simp [LLVFile_rename, emit, uploadCallbacks, List.filterMap_append]
        · simp [LLVFile_rename, emit, downloadCallbacks, List.filterMap_append]
      · exact ⟨s, _, rfl, rfl, rfl, rfl, rfl, rfl, rfl⟩
  · rw [if_neg hc]
    cases hv : req.mVFile with
    | none => exact ⟨s, _, rfl, rfl, rfl, rfl, rfl, rfl, rfl⟩
    | some f =>
      refine ⟨LLVFile_remove s f, _, rfl, rfl, rfl, rfl, ?_, ?_, rfl⟩
      · simp [LLVFile_remove, emit, uploadCallbacks, List.filterMap_append]
      · simp [LLVFile_remove, emit, downloadCallbacks, List.filterMap_append]


/-! ### Requests leave the queues through the completion callbacks only -/

theorem quiet_refl (s : LLHTTPAssetStorage) : QuietKeepsQueues s s :=
  ⟨⟨[], by simp, fun _ => ⟨rfl, rfl⟩⟩, ⟨[], by simp, fun _ => rfl⟩⟩

theorem quiet_trans (a b c : LLHTTPAssetStorage) (h1 : QuietKeepsQueues a b)
    (h2 : QuietKeepsQueues b c) : QuietKeepsQueues a c := by
  obtain ⟨⟨e1, t1, q1⟩, ⟨d1, u1, r1⟩⟩ := h1
  obtain ⟨⟨e2, t2, q2⟩, ⟨d2, u2, r2⟩⟩ := h2
  refine ⟨⟨e1 ++ e2, by rw [t2, t1, List.append_assoc], ?_⟩,
    ⟨d1 ++ d2, by rw [u2, u1, List.append_assoc], ?_⟩⟩
  · intro h
    obtain ⟨h1, h2⟩ := List.append_eq_nil.mp h
    exact ⟨(q2 h2).1.trans (q1 h1).1, (q2 h2).2.trans (q1 h1).2⟩
  · intro h
    obtain ⟨h1, h2⟩ := List.append_eq_nil.mp h
    exact (r2 h2).trans (r1 h1)

/-- A step that keeps the queues and the callbacks recorded is quiet. -/
theorem quiet_of_frame (s s2 : LLHTTPAssetStorage)
    (h1 : s2.mPendingDownloads = s.mPendingDownloads)
    (h2 : s2.mPendingUploads = s.mPendingUploads)
    (h3 : s2.mPendingLocalUploads = s.mPendingLocalUploads)
    (h4 : uploadCallbacks s2.mTrace = uploadCallbacks s.mTrace)
    (h5 : downloadCallbacks s2.mTrace = downloadCallbacks s.mTrace) :
    QuietKeepsQueues s s2 :=
  ⟨⟨[], by simp [h4], fun _ => ⟨h2, h3⟩⟩, ⟨[], by simp [h5], fun _ => h1⟩⟩

/-- Handling one completion message changes the queues at most through one completion
callback, and a class for which no callback is recorded keeps its queue. -/
theorem handleMsg_queues (s : LLHTTPAssetStorage) (m : CURLMsg) :
    UnqueuedByCallback s (handleMsg s m) ∧ QuietKeepsQueues s (handleMsg s m) := by
  have hself : UnqueuedByCallback s s ∧ QuietKeepsQueues s s :=
    ⟨Or.inl ⟨rfl, rfl, rfl⟩, quiet_refl s⟩
  have hdel : ∀ (s1 : LLHTTPAssetStorage) (req : LLHTTPAssetRequest),
      UnqueuedByCallback s s1 ∧ QuietKeepsQueues s s1 →
      UnqueuedByCallback s (LLHTTPAssetRequest_delete s1 req)
        ∧ QuietKeepsQueues s (LLHTTPAssetRequest_delete s1 req) := by
    intro s1 req ⟨hu, hq⟩
    obtain ⟨g1, g2, g3, _, _, _, g7, g8, _⟩ := delete_frame s1 req
    constructor
    · unfold UnqueuedByCallback SameQueues at hu ⊢
      rw [g1, g2, g3]
      exact hu
    · exact quiet_trans _ _ _ hq (quiet_of_frame _ _ g1 g2 g3 g7 g8)
  have hup : ∀ req, UnqueuedByCallback s (uploadDone s req m)
      ∧ QuietKeepsQueues s (uploadDone s req m) := by
    intro req
    obtain ⟨s1, hs1, hres⟩ := uploadDone_shape s req m
    have hf : s1.mPendingDownloads = s.mPendingDownloads
        ∧ s1.mPendingUploads = s.mPendingUploads
        ∧ s1.mPendingLocalUploads = s.mPendingLocalUploads
        ∧ s1.mTrace = s.mTrace := by
      rcases hs1 with h | h
      · rw [h]; exact ⟨rfl, rfl, rfl, rfl⟩
      · obtain ⟨a1, a2, a3, a4, _⟩ :=
          addTempAssetData_frame s req.mUUID req.mRequestingAgentID s.mHostName
        rw [h]
        exact ⟨a2, a3, a4, a1⟩
    obtain ⟨f1, f2, f3, f4⟩ := hf
    rcases hres with h | ⟨b, h⟩
    · rw [h]
      exact ⟨Or.inl ⟨f1, f2, f3⟩,
        quiet_of_frame _ _ f1 f2 f3 (by rw [f4]) (by rw [f4])⟩
    · rw [h]
      refine ⟨Or.inr (Or.inl ⟨s1, _, _, b, ⟨f1, f2, f3⟩, ⟨rfl, rfl, rfl⟩⟩), ?_, ?_⟩
      · refine ⟨[(req.mUUID, req.mType, b)], ?_, fun h0 => by cases h0⟩
        simp [_callUploadCallbacks, emit, uploadCallbacks, List.filterMap_append, f4]
      · refine ⟨[], ?_, fun _ => f1⟩
        simp [_callUploadCallbacks, emit, downloadCallbacks, List.filterMap_append, f4]
  have hdown : ∀ req, UnqueuedByCallback s (downloadDone s req m)
      ∧ QuietKeepsQueues s (downloadDone s req m) := by
    intro req
    obtain ⟨s1, result, f1, f2, f3, _, f5, f6, h⟩ := downloadDone_shape s req m
    rw [h]
    refine ⟨Or.inr (Or.inr ⟨s1, result, _, _, ⟨f1, f2, f3⟩, ⟨rfl, rfl, rfl⟩⟩), ?_, ?_⟩
    · refine ⟨[], ?_, fun _ => ⟨f2, f3⟩⟩
      simp [downloadCompleteCallback, emit, uploadCallbacks_append, f5]
      simp [uploadCallbacks]
    · refine ⟨[(result, req.mUUID, req.mType)], ?_, fun h0 => by cases h0⟩
      simp [downloadCompleteCallback, emit, downloadCallbacks_append, f6]
      simp [downloadCallbacks]
  unfold handleMsg
  by_cases hd : m.msg = CURLMSG.CURLMSG_DONE
  · rw [if_pos hd]
    cases hf : findTransfer s m.easy_handle with
    | none => exact hself
    | some req =>
      simp only
      apply hdel
      split_ifs
      · exact hup req
      · exact hdown req
      · exact hself
  · rw [if_neg hd]
    exact hself

/-- Handling a run of completion messages: a class for which no callback is recorded keeps
its queue. -/
theorem drain_quiet (msgs : List CURLMsg) (s : LLHTTPAssetStorage) :
    QuietKeepsQueues s (msgs.foldl handleMsg s) := by
  induction msgs generalizing s with
  | nil => exact quiet_refl s
  | cons m rest ih =>
    exact quiet_trans _ _ _ (handleMsg_queues s m).2 (ih (handleMsg s m))

/-- A whole tick: a class for which no callback is recorded keeps its queue. -/
theorem checkForTimeouts_quiet (X : Externals) (s : LLHTTPAssetStorage) (inp : TickInput) :
    QuietKeepsQueues s (checkForTimeouts X s inp) := by
  obtain ⟨p1, p2, p3, _⟩ := promotePending_spec X s inp.tmp_uuid
  obtain ⟨_, p5⟩ := promotePending_quiet X s inp.tmp_uuid
  obtain ⟨a1, a2, a3, _, a5⟩ := perform_frame inp.calls (promotePending X s inp.tmp_uuid)
  have hq := drain_quiet inp.msgs (curl_multi_perform (promotePending X s inp.tmp_uuid) inp.calls)
  have h0 : QuietKeepsQueues s
      (curl_multi_perform (promotePending X s inp.tmp_uuid) inp.calls) :=
    quiet_of_frame _ _ (a1.trans p1) (a2.trans p2) (a3.trans p3)
      (by rw [a5, p5]) (by rw [a5, p5])
  exact quiet_trans _ _ _ h0 hq


/-- C5 (amended): the promotion step of a tick does not remove anything from the queues. When
a class's queue is non-empty and its flag is clear, the step reads the head request, attaches
one new Transfer for it and raises the class's flag; the queue itself, head included, is
exactly as before. Nor does anything else in the translated code remove a request, except the
completion callbacks of the base class: deliveries by the engine, the destructor of a request
and the blocking fetch leave the three queues as they are; handling a completion message
changes them at most by what `_callUploadCallbacks` or `downloadCompleteCallback` removes; and
after a whole tick a class for which no completion callback was called has the queue it
started with. -/
theorem promotePending_keeps_queues (X : Externals) (s : LLHTTPAssetStorage) (t : LLUUID) :
    ((promotePending X s t).mPendingDownloads = s.mPendingDownloads
    ∧ (promotePending X s t).mPendingUploads = s.mPendingUploads
    ∧ (promotePending X s t).mPendingLocalUploads = s.mPendingLocalUploads
    ∧ ∃ new, (promotePending X s t).mTransfers = s.mTransfers ++ new
      ∧ (∀ r rest, s.mPendingDownloads = r :: rest → s.mPendingDownload = false →
          (promotePending X s t).mPendingDownload = true
          ∧ ∃ tr ∈ new, tr.mUUID = r.mUUID ∧ tr.mType = r.mType ∧ tr.mIsDownload = true
              ∧ tr.mCurlHandle.isSome = true)
      ∧ (∀ r rest, s.mPendingUploads = r :: rest → s.mPendingUpload = false →
          (promotePending X s t).mPendingUpload = true
          ∧ ∃ tr ∈ new, tr.mUUID = r.mUUID ∧ tr.mType = r.mType ∧ tr.mIsUpload = true
              ∧ tr.mCurlHandle.isSome = true)
      ∧ (∀ r rest, s.mPendingLocalUploads = r :: rest → s.mPendingLocalUpload = false →
          (promotePending X s t).mPendingLocalUpload = true
          ∧ ∃ tr ∈ new, tr.mUUID = r.mUUID ∧ tr.mType = r.mType ∧ tr.mIsLocalUpload = true
              ∧ tr.mCurlHandle.isSome = true))
    ∧ (∀ calls, SameQueues (curl_multi_perform s calls) s)
    ∧ (∀ req, SameQueues (LLHTTPAssetRequest_delete s req) s)
    ∧ (∀ uuid asset_type url filename callback userdata fopen_ok rounds,
        SameQueues
          (getURLToFile s uuid asset_type url filename callback userdata fopen_ok rounds).2 s)
    ∧ (∀ m, UnqueuedByCallback s (handleMsg s m))
    ∧ (∀ inp,
        (uploadCallbacks (checkForTimeouts X s inp).mTrace = uploadCallbacks s.mTrace →
          (checkForTimeouts X s inp).mPendingUploads = s.mPendingUploads
          ∧ (checkForTimeouts X s inp).mPendingLocalUploads = s.mPendingLocalUploads)
        ∧ (downloadCallbacks (checkForTimeouts X s inp).mTrace = downloadCallbacks s.mTrace →
          (checkForTimeouts X s inp).mPendingDownloads = s.mPendingDownloads)) := by
  refine ⟨promotePending_spec X s t, ?_, ?_, ?_, ?_, ?_⟩
  · intro calls
    obtain ⟨a1, a2, a3, _⟩ := perform_frame calls s
    exact ⟨a1, a2, a3⟩
  · intro req
    obtain ⟨a1, a2, a3, _⟩ := delete_frame s req
    exact ⟨a1, a2, a3⟩
  · intro uuid asset_type url filename callback userdata fopen_ok rounds
    obtain ⟨a1, a2, a3, _⟩ :=
      getURLToFile_frame s uuid asset_type url filename callback userdata fopen_ok rounds
    exact ⟨a1, a2, a3⟩
  · intro m
    exact (handleMsg_queues s m).1
  · intro inp
    obtain ⟨⟨e1, t1, q1⟩, ⟨e2, t2, q2⟩⟩ := checkForTimeouts_quiet X s inp
    constructor
    · intro h
      rw [h] at t1
      exact q1 (List.self_eq_append_right.mp t1)
    · intro h
      rw [h] at t2
      exact q2 (List.self_eq_append_right.mp t2)

/-- Example for C5: on the transferring storage a tick that completes the upload of asset 7
with HTTP 200 removes that request from the upload queue through `_callUploadCallbacks`; the
download queue and the local-upload queue, for which nothing completed, are as before. -/
theorem completion_unqueues_example :
    (transferringStorage.mPendingUploads.map (fun r => r.mUUID),
      transferringStorage.mPendingDownloads.map (fun r => r.mUUID),
      transferringStorage.mPendingLocalUploads.map (fun r => r.mUUID)) = ([7], [2, 1], [8])
    ∧ ((checkForTimeouts sampleExternals transferringStorage
          { tmp_uuid := 101, calls := [],
            msgs := [CURLMsg.mk CURLMSG.CURLMSG_DONE 1 CURLcode.CURLE_OK 200] }).mPendingUploads.map
        (fun r => r.mUUID),
      (checkForTimeouts sampleExternals transferringStorage
          { tmp_uuid := 101, calls := [],
            msgs := [CURLMsg.mk CURLMSG.CURLMSG_DONE 1 CURLcode.CURLE_OK 200]
              }).mPendingDownloads.map (fun r => r.mUUID),
      (checkForTimeouts sampleExternals transferringStorage
          { tmp_uuid := 101, calls := [],
            msgs := [CURLMsg.mk CURLMSG.CURLMSG_DONE 1 CURLcode.CURLE_OK 200]
              }).mPendingLocalUploads.map (fun r => r.mUUID)) = ([], [2, 1], [8])
    ∧ uploadCallbacks (checkForTimeouts sampleExternals transferringStorage
          { tmp_uuid := 101, calls := [],
            msgs := [CURLMsg.mk CURLMSG.CURLMSG_DONE 1 CURLcode.CURLE_OK 200] }).mTrace
      = [(7, EType.AT_SOUND, true)] := by
  decide

/-! ### Invariants of the temp-asset map over every call -/

/-- Every call on the storage's surface keeps the temp-asset map well-formed. -/
theorem step_ok (X : Externals) (s : LLHTTPAssetStorage) (c : Call)
    (hs : RegistryOK s.mTempAssets) : RegistryOK (step X s c).mTempAssets := by
  cases c with
  | storeAssetData uuid type cb ud tf p l a =>
    have h : (storeAssetData s uuid type cb ud tf p l a).mTempAssets = s.mTempAssets := by
      unfold storeAssetData
      cases LLVFS_getExists s.mVFS uuid type <;> cases cb <;> cases l <;> cases p <;> rfl
    show RegistryOK (storeAssetData s uuid type cb ud tf p l a).mTempAssets
    rw [h]
    exact hs
  | queueDataRequest uuid type cb ud d p =>
    have h : (_queueDataRequest s uuid type cb ud d p).mTempAssets = s.mTempAssets := by
      unfold _queueDataRequest
      simp only
      split_ifs <;> rfl
    show RegistryOK (_queueDataRequest s uuid type cb ud d p).mTempAssets
    rw [h]
    exact hs
  | checkForTimeouts inp =>
    show RegistryOK (checkForTimeouts X s inp).mTempAssets
    have hfold : ∀ (msgs : List CURLMsg) (s0 : LLHTTPAssetStorage),
        RegistryOK s0.mTempAssets → RegistryOK (msgs.foldl handleMsg s0).mTempAssets := by
      intro msgs
      induction msgs with
      | nil => intro s0 h0; exact h0
      | cons m rest ih => intro s0 h0; exact ih _ (handleMsg_ok s0 m h0)
    unfold checkForTimeouts LLAssetStorage_checkForTimeouts
    apply hfold
    rw [(perform_frame _ _).2.2.2.1, (promotePending_quiet X s inp.tmp_uuid).1]
    exact hs
  | getURLToFile uuid ty url fn cb ud ok rounds =>
    show RegistryOK (getURLToFile s uuid ty url fn cb ud ok rounds).2.mTempAssets
    rw [(getURLToFile_frame s uuid ty url fn cb ud ok rounds).2.2.2.1]
    exact hs

/-- Every registry operation keeps the map well-formed. -/
theorem registryRun_ok (X : Externals) (ops : List RegistryCall) (s : LLHTTPAssetStorage)
    (hs : RegistryOK s.mTempAssets) : RegistryOK (registryRun X s ops).mTempAssets := by
  induction ops generalizing s with
  | nil => exact hs
  | cons op rest ih =>
    apply ih
    cases op with
    | addTempAssetData a g h => exact addTempAssetData_ok s a g h hs
    | removeTempAssetData a => exact filter_ok _ _ hs
    | removeTempAssetDataByAgentID g =>
      show RegistryOK (eraseByAgent g s.mTempAssets)
      rw [eraseByAgent_eq_filter]
      exact filter_ok _ _ hs
    | clearTempAssetData => exact ⟨List.Pairwise.nil, fun e he => by cases he⟩
    | completion m => exact handleMsg_ok s m hs
    | surface c => exact step_ok X s c hs

/-- C30: in every state reached from a freshly initialised storage through
`addTempAssetData`, `removeTempAssetData`, `removeTempAssetDataByAgentID`,
`clearTempAssetData`, the handling of completion messages and every other call on the
storage (admissions, ticks that promote, deliver and complete Transfers, blocking fetches),
each asset id has at most one entry, every entry is stored under its own asset id, and no entry
has a null asset id or a null agent id. In such a state, registering an asset id that is
present replaces its agent id and host name by the new ones and keeps the number of entries (a
registration with a null asset id or a null agent id is refused and changes nothing), and
`removeTempAssetData(a)` removes the entries with key `a` and no other. -/
theorem registry_invariant (X : Externals) (vfs : LLVFS)
    (web_host local_web_host host_name : String) (ops : List RegistryCall) :
    ((registryRun X (_init vfs web_host local_web_host host_name) ops).mTempAssets.map
        Prod.fst).Nodup
    ∧ (∀ e ∈ (registryRun X (_init vfs web_host local_web_host host_name) ops).mTempAssets,
        e.2.mAssetID = e.1 ∧ e.1 ≠ LLUUID_null ∧ e.2.mAgentID ≠ LLUUID_null)
    ∧ (∀ (a g : LLUUID) (h : String), a ≠ LLUUID_null → g ≠ LLUUID_null →
        hasTempAssetData (registryRun X (_init vfs web_host local_web_host host_name) ops) a
          = true →
        (addTempAssetData (registryRun X (_init vfs web_host local_web_host host_name) ops)
            a g h).mTempAssets.length
          = (registryRun X (_init vfs web_host local_web_host host_name)
              ops).mTempAssets.length
        ∧ getTempAssetAgentID (addTempAssetData
            (registryRun X (_init vfs web_host local_web_host host_name) ops) a g h) a = g
        ∧ getTempAssetHostName (addTempAssetData
            (registryRun X (_init vfs web_host local_web_host host_name) ops) a g h) a = h)
    ∧ (∀ (a g : LLUUID) (h : String), a = LLUUID_null ∨ g = LLUUID_null →
        addTempAssetData (registryRun X (_init vfs web_host local_web_host host_name) ops)
            a g h
          = registryRun X (_init vfs web_host local_web_host host_name) ops)
    ∧ (∀ (a : LLUUID) (e : LLUUID × LLTempAssetData),
        e ∈ (removeTempAssetData
            (registryRun X (_init vfs web_host local_web_host host_name) ops) a).mTempAssets
          ↔ e ∈ (registryRun X (_init vfs web_host local_web_host host_name)
              ops).mTempAssets
            ∧ e.1 ≠ a) := by
  have hinit : RegistryOK (_init vfs web_host local_web_host host_name).mTempAssets :=
    ⟨List.Pairwise.nil, fun e he => by cases he⟩
  have hok := registryRun_ok X ops _ hinit
  generalize registryRun X (_init vfs web_host local_web_host host_name) ops = s at hok
  refine ⟨?_, hok.2, ?_, ?_, ?_⟩
  · unfold List.Nodup
    rw [List.pairwise_map]
    exact hok.1.imp (fun hlt => Nat.ne_of_lt hlt)
  · intro a g h ha hg hhas
    have hnull : (isNull g || isNull a) = false := by simp [isNull, ha, hg]
    have hmap : (addTempAssetData s a g h).mTempAssets
        = tempAssign a { mAssetID := a, mAgentID := g, mHostName := h } s.mTempAssets := by
      simp [addTempAssetData, hnull]
    refine ⟨?_, ?_, ?_⟩
    · rw [hmap]
      exact tempAssign_length_present a _ _ hok.1 (mem_of_lookup a _ hhas)
    · simp [getTempAssetAgentID, hmap, lookup_tempAssign]
    · simp [getTempAssetHostName, hmap, lookup_tempAssign]
  · intro a g h hnull
    rcases hnull with ha | hg
    · simp [addTempAssetData, isNull, ha]
    · simp [addTempAssetData, isNull, hg]
  · intro a e
    unfold removeTempAssetData
    simp only [List.mem_filter, decide_eq_true_eq]

/-- Example for C30: on the stocked storage a registration of texture 22, a local store of
asset 8 for agent 5 that a tick promotes, a direct registration of asset 8 for agent 9, the
completion of the local upload with HTTP 201 in the next tick (which registers asset 8 for
agent 5 on this host, replacing the entry), a refused registration with a null agent and the
removal of texture 22 leave the single entry of asset 8; before the completion the map held
both entries, asset 8 for agent 9. -/
theorem registry_invariant_example :
    (registryRun sampleExternals stockedStorage (registrySampleOps.take 4)).mTempAssets
      = [(8, { mAssetID := 8, mAgentID := 9, mHostName := "simZ" }),
         (22, { mAssetID := 22, mAgentID := 6, mHostName := "simB" })]
    ∧ (registryRun sampleExternals stockedStorage (registrySampleOps.take 4)).mTransfers.map
        (fun r => (r.mCurlHandle, r.mUUID, r.mIsLocalUpload)) = [(some 0, 8, true)]
    ∧ (registryRun sampleExternals stockedStorage (registrySampleOps.take 5)).mTempAssets
      = [(8, { mAssetID := 8, mAgentID := 5, mHostName := "sim1.example" }),
         (22, { mAssetID := 22, mAgentID := 6, mHostName := "simB" })]
    ∧ (registryRun sampleExternals stockedStorage registrySampleOps).mTempAssets
      = [(8, { mAssetID := 8, mAgentID := 5, mHostName := "sim1.example" })] := by
  decide

end Kokua
